import Mathlib

/-!
# Directory index of the storage manager (`src/storage/rkadk_storage.cpp`)

A shallow embedding of the per-directory file index and of the file listing
query of `rkadk_storage.cpp`, followed by the properties proved about them.

Modelling conventions
* A C string is the list of its bytes before the terminating NUL.
* The singly linked list hanging off `pstFileListFirst` (records chained by
  `next`) is a Lean `List`, head first.
* `off_t`, `time_t` and `RKADK_S32` quantities are mathematical integers and the
  arithmetic on them is exact: the model covers the executions without signed
  overflow, which C leaves undefined.
* `malloc` is an oracle: a Boolean argument says whether the allocation made by
  the call succeeds.
* The mutex operations and the log calls have no effect on the modelled state.
* Functions are modelled as run by one thread; where a function joins another
  thread (`RKADK_STORAGE_DevRemove`), an argument says what that thread still
  writes to the shared state before it exits.
* `pstFileListLast` is written by `RKADK_STORAGE_FileListDel` and read nowhere;
  it is not part of the modelled state.
-/

namespace RkadkStorage

/-! ## Data model -/

/-- A C string: its bytes up to, and without, the terminating NUL. -/
abbrev CStr := List Nat

/-- The libc `strcmp`: byte-wise lexicographic comparison; only the sign of the
result is specified, here `-1`, `0` or `1`. -/
def strcmp : CStr → CStr → Int
  | [], [] => 0
  | [], _ :: _ => -1
  | _ :: _, [] => 1
  | x :: xs, y :: ys => if x = y then strcmp xs ys else if x < y then -1 else 1

/-- Modelled from the spec: the enum `RKADK_SORT_CONDITION` is declared in
`rkadk_storage.h`, which is not part of the source; its members are the three
the `switch` of `RKADK_STORAGE_FileCompare` names (the spec's sort keys
"by mtime ascending" and "by filename ascending", and the end marker). -/
inductive RKADK_SORT_CONDITION where
  | SORT_MODIFY_TIME
  | SORT_FILE_NAME
  | SORT_BUTT
  deriving DecidableEq, Repr

/-- The fields of `struct stat` the storage manager reads. -/
structure stat where
  st_mode : Nat
  st_size : Int
  st_blocks : Int
  st_mtime : Int
  deriving DecidableEq, Repr

/-- One node of the file list (`RKADK_STR_FILE`), without its `next` link. -/
structure RKADK_STR_FILE where
  filename : CStr
  stTime : Int
  stSize : Int
  stSpace : Int
  stMode : Nat
  deriving DecidableEq, Repr

/-- The per-directory index (`RKADK_STR_FOLDER`); `pstFileListFirst` holds the
whole chain of records. -/
structure RKADK_STR_FOLDER where
  cpath : CStr
  s32SortCond : RKADK_SORT_CONDITION
  wd : Int
  s32FileNum : Int
  totalSize : Int
  totalSpace : Int
  pstFileListFirst : List RKADK_STR_FILE
  deriving DecidableEq, Repr

/-! ## `RKADK_STORAGE_FileCompare` -/

/-- Whether `newFile` goes in front of `existingFile` under `cond`. -/
def RKADK_STORAGE_FileCompare (existingFile newFile : RKADK_STR_FILE)
    (cond : RKADK_SORT_CONDITION) : Bool :=
  match cond with
  | .SORT_MODIFY_TIME => decide (newFile.stTime ≤ existingFile.stTime)
  | .SORT_FILE_NAME => decide (strcmp newFile.filename existingFile.filename ≤ 0)
  | .SORT_BUTT => false

/-! ## `RKADK_STORAGE_FileListAdd` -/

/-- The record written from `statbuf` into a node whose name and mode are
those of `node` (the three assignments `stSize`, `stSpace`, `stTime`). -/
def FileListAdd_fill (node : RKADK_STR_FILE) (statbuf : stat) : RKADK_STR_FILE :=
  { node with
    stSize := statbuf.st_size
    stSpace := statbuf.st_blocks * 512
    stTime := statbuf.st_mtime }

/-- The node a successful `malloc` + `memset` + `sprintf` produces. -/
def FileListAdd_fresh (filename : CStr) (statbuf : stat) : RKADK_STR_FILE :=
  FileListAdd_fill
    { filename := filename, stTime := 0, stSize := 0, stSpace := 0, stMode := 0 } statbuf

/-- The search of `RKADK_STORAGE_FileListAdd`: the first node named `filename`
(the head test, then the walk over `tmp->next`) is unlinked and refilled from
`statbuf`; the walk stops there. Returns `tmp_1` and the remaining chain. -/
def FileListAdd_unlink (filename : CStr) (statbuf : stat) :
    List RKADK_STR_FILE → Option RKADK_STR_FILE × List RKADK_STR_FILE
  | [] => (none, [])
  | tmp :: rest =>
    if strcmp tmp.filename filename = 0 then (some (FileListAdd_fill tmp statbuf), rest)
    else
      ((FileListAdd_unlink filename statbuf rest).1,
        tmp :: (FileListAdd_unlink filename statbuf rest).2)

/-- The insertion of `RKADK_STORAGE_FileListAdd`: `tmp_1` is linked in front of
the first node for which `RKADK_STORAGE_FileCompare` answers true, or at the end
of the chain when there is none. -/
def FileListAdd_insert (cond : RKADK_SORT_CONDITION) (tmp_1 : RKADK_STR_FILE) :
    List RKADK_STR_FILE → List RKADK_STR_FILE
  | [] => [tmp_1]
  | tmp :: rest =>
    if RKADK_STORAGE_FileCompare tmp tmp_1 cond then tmp_1 :: tmp :: rest
    else tmp :: FileListAdd_insert cond tmp_1 rest

/-- The closing loop of `RKADK_STORAGE_FileListAdd`: walks the chain adding one
to the count and each node's size and space to the running totals. -/
def FileListAdd_count : List RKADK_STR_FILE → Int × Int × Int → Int × Int × Int
  | [], acc => acc
  | tmp :: rest, (num, size, space) =>
    FileListAdd_count rest (num + 1, size + tmp.stSize, space + tmp.stSpace)

/-- The folder after the chain has been replaced by `files` and the aggregates
recomputed from zero. -/
def FileListAdd_finish (folder : RKADK_STR_FOLDER) (files : List RKADK_STR_FILE) :
    RKADK_STR_FOLDER :=
  let acc := FileListAdd_count files (0, 0, 0)
  { folder with
    pstFileListFirst := files
    s32FileNum := acc.1
    totalSize := acc.2.1
    totalSpace := acc.2.2 }

/-- The function `RKADK_STORAGE_FileListAdd`: return code and folder afterwards.
`mallocOk` tells whether the allocation of a new node succeeds. -/
def RKADK_STORAGE_FileListAdd (mallocOk : Bool) (folder : RKADK_STR_FOLDER)
    (filename : CStr) (statbuf : stat) : Int × RKADK_STR_FOLDER :=
  match folder.pstFileListFirst with
  | first :: others =>
    match FileListAdd_unlink filename statbuf (first :: others) with
    | (some tmp_1, chain) =>
      (0, FileListAdd_finish folder (FileListAdd_insert folder.s32SortCond tmp_1 chain))
    | (none, chain) =>
      if mallocOk then
        (0, FileListAdd_finish folder
          (FileListAdd_insert folder.s32SortCond (FileListAdd_fresh filename statbuf) chain))
      else (-1, folder)
  | [] =>
    if mallocOk then (0, FileListAdd_finish folder [FileListAdd_fresh filename statbuf])
    else (-1, folder)

/-! ## `RKADK_STORAGE_FileListDel` -/

/-- The `while (tmp)` loop of `RKADK_STORAGE_FileListDel`, started at the head of
the given chain: `tmp` is counted, and when the node after it is named
`filename` that node is unlinked and `tmp` moves to the node after the unlinked
one. Returns the chain kept and the three running totals. -/
def FileListDel_loop (filename : CStr) :
    List RKADK_STR_FILE → Int × Int × Int → List RKADK_STR_FILE × Int × Int × Int
  | [], acc => ([], acc)
  | [tmp], (num, size, space) => ([tmp], num + 1, size + tmp.stSize, space + tmp.stSpace)
  | tmp :: next :: rest, (num, size, space) =>
    if strcmp next.filename filename = 0 then
      let r := FileListDel_loop filename rest (num + 1, size + tmp.stSize, space + tmp.stSpace)
      (tmp :: r.1, r.2)
    else
      let r := FileListDel_loop filename (next :: rest)
        (num + 1, size + tmp.stSize, space + tmp.stSpace)
      (tmp :: r.1, r.2)

/-- The function `RKADK_STORAGE_FileListDel`: return code and folder afterwards. -/
def RKADK_STORAGE_FileListDel (folder : RKADK_STR_FOLDER) (filename : CStr) :
    Int × RKADK_STR_FOLDER :=
  match folder.pstFileListFirst with
  | first :: others =>
    let start := if strcmp first.filename filename = 0 then others else first :: others
    let r := FileListDel_loop filename start (0, 0, 0)
    (0, { folder with
          pstFileListFirst := r.1
          s32FileNum := r.2.1
          totalSize := r.2.2.1
          totalSpace := r.2.2.2 })
  | [] => (0, { folder with s32FileNum := 0, totalSize := 0, totalSpace := 0 })

/-! ## `RKADK_STORAGE_GetFileList` -/

/-- Modelled from the spec: the enum `RKADK_SORT_TYPE` is declared in
`rkadk_storage.h`, which is not part of the source; the source names
`LIST_ASCENDING` and treats every other value as the descending order
("in either ascending or descending order"). -/
inductive RKADK_SORT_TYPE where
  | LIST_ASCENDING
  | LIST_DESCENDING
  deriving DecidableEq, Repr

/-- Modelled from the spec: `RKADK_FILE_INFO` is declared in `rkadk_storage.h`, which
is not part of the source; one entry of the array handed to the caller, with
the fields `RKADK_STORAGE_GetFileList` writes ("a dense array of `{filename, size,
mtime}`"). -/
structure RKADK_FILE_INFO where
  filename : CStr
  stSize : Int
  stTime : Int
  deriving DecidableEq, Repr

/-- Modelled from the spec: `RKADK_FILE_LIST` is declared in `rkadk_storage.h`, which
is not part of the source; the caller's list with the fields the source uses:
the path asked for, the number of entries and the array (`none` is the NULL
pointer). -/
structure RKADK_FILE_LIST where
  path : CStr
  s32FileNum : Int
  file : Option (List RKADK_FILE_INFO)
  deriving DecidableEq, Repr

/-- Modelled from the spec: the enum `RKADK_MOUNT_STATUS` is declared in
`rkadk_storage.h`, which is not part of the source; its members are the ones the
source names (`mount_status`: one of Unmounted, Mounted, and the end marker
returned for a null handle). -/
inductive RKADK_MOUNT_STATUS where
  | DISK_UNMOUNTED
  | DISK_MOUNTED
  | DISK_MOUNT_BUTT
  deriving DecidableEq, Repr

/-- The device state (`RKADK_STR_DEV_STA`). The array `pstFolder` together with
its length `s32FolderNum` is the list `pstFolder`; `fileScanTid` is the id of
the scan thread, 0 when there is none. -/
structure RKADK_STR_DEV_STA where
  cDevPath : CStr
  cDevType : CStr
  cDevAttr1 : CStr
  s32MountStatus : RKADK_MOUNT_STATUS
  s32TotalSize : Int
  s32FreeSize : Int
  pstFolder : List RKADK_STR_FOLDER
  fileScanTid : Nat
  deriving DecidableEq, Repr

/-- The value of `s32FolderNum`: the length of the folder array. -/
def RKADK_STR_DEV_STA.s32FolderNum (sta : RKADK_STR_DEV_STA) : Int :=
  sta.pstFolder.length

/-- The first loop of `RKADK_STORAGE_GetFileList` with the test that follows it:
the first folder of the array whose `cpath` is `path` (`pstFolder[i]` at the
`break`), or `none` when the loop runs to `i == s32FolderNum`. -/
def GetFileList_find (path : CStr) : List RKADK_STR_FOLDER → Option RKADK_STR_FOLDER
  | [] => none
  | folder :: rest =>
    if strcmp path folder.cpath = 0 then some folder else GetFileList_find path rest

/-- The entry written for one record: the name cut to at most
`RKADK_MAX_FILE_PATH_LEN - 1` bytes (`maxPathLen` stands for that constant of the
absent header), the size and the time. -/
def GetFileList_entry (maxPathLen : Nat) (tmp : RKADK_STR_FILE) : RKADK_FILE_INFO :=
  let len := if tmp.filename.length > maxPathLen - 1 then maxPathLen - 1
    else tmp.filename.length
  { filename := tmp.filename.take len, stSize := tmp.stSize, stTime := tmp.stTime }

/-- The `LIST_ASCENDING` loop: `for (j = ..; j < s32FileNum && tmp != NULL; j++)`. -/
def GetFileList_ascending (maxPathLen : Nat) (s32FileNum : Int) :
    Int → List RKADK_STR_FILE → List RKADK_FILE_INFO → List RKADK_FILE_INFO
  | _, [], file => file
  | j, tmp :: rest, file =>
    if j < s32FileNum then
      GetFileList_ascending maxPathLen s32FileNum (j + 1) rest
        (file.set j.toNat (GetFileList_entry maxPathLen tmp))
    else file

/-- The other loop: `for (j = ..; j >= 0 && tmp != NULL; j--)`. -/
def GetFileList_descending (maxPathLen : Nat) :
    Int → List RKADK_STR_FILE → List RKADK_FILE_INFO → List RKADK_FILE_INFO
  | _, [], file => file
  | j, tmp :: rest, file =>
    if j ≥ 0 then
      GetFileList_descending maxPathLen (j - 1) rest
        (file.set j.toNat (GetFileList_entry maxPathLen tmp))
    else file

/-- The three ways out of `RKADK_STORAGE_GetFileList`. -/
inductive GetFileList_exit where
  /-- The way out at "No folder found. Please check the folder path." -/
  | noFolderFound
  /-- The way out at "list->file malloc failed." -/
  | mallocFailed
  /-- The final `return 0`. -/
  | done
  deriving DecidableEq, Repr

/-- The value returned on each way out. -/
def GetFileList_exit.code : GetFileList_exit → Int
  | .noFolderFound => -1
  | .mallocFailed => -1
  | .done => 0

/-- The array `malloc` + `memset` give: `s32FileNum` zeroed entries. -/
def GetFileList_zeroed (s32FileNum : Int) : List RKADK_FILE_INFO :=
  List.replicate s32FileNum.toNat { filename := [], stSize := 0, stTime := 0 }

/-- The function `RKADK_STORAGE_GetFileList`: the way out taken and the caller's list
afterwards. `mallocOk` tells whether the allocation of the array succeeds. -/
def RKADK_STORAGE_GetFileList (maxPathLen : Nat) (mallocOk : Bool)
    (list : RKADK_FILE_LIST) (stDevSta : RKADK_STR_DEV_STA) (sort : RKADK_SORT_TYPE) :
    GetFileList_exit × RKADK_FILE_LIST :=
  match GetFileList_find list.path stDevSta.pstFolder with
  | none => (.noFolderFound, list)
  | some folder =>
    let n := folder.s32FileNum
    if mallocOk then
      let file := GetFileList_zeroed n
      match sort with
      | .LIST_ASCENDING =>
        (.done, { list with
                  s32FileNum := n
                  file := some (GetFileList_ascending maxPathLen n 0
                    folder.pstFileListFirst file) })
      | .LIST_DESCENDING =>
        (.done, { list with
                  s32FileNum := n
                  file := some (GetFileList_descending maxPathLen (n - 1)
                    folder.pstFileListFirst file) })
    else (.mallocFailed, { list with s32FileNum := n, file := none })

/-! ## Predicates of the specification -/

/-- The aggregates agree with the chain: `s32FileNum` is the number of records,
`totalSize` and `totalSpace` are the sums of their sizes and spaces. -/
def AggregatesMatch (folder : RKADK_STR_FOLDER) : Prop :=
  folder.s32FileNum = folder.pstFileListFirst.length ∧
  folder.totalSize = (folder.pstFileListFirst.map (·.stSize)).sum ∧
  folder.totalSpace = (folder.pstFileListFirst.map (·.stSpace)).sum

instance (folder : RKADK_STR_FOLDER) : Decidable (AggregatesMatch folder) :=
  inferInstanceAs (Decidable (_ ∧ _ ∧ _))

/-- The order of the sort key: `a` may stand before `b`. Under
`SORT_MODIFY_TIME` that is `a.stTime <= b.stTime`, under `SORT_FILE_NAME` it is
`strcmp(a.filename, b.filename) <= 0`; `SORT_BUTT` orders nothing. -/
def KeyLe (cond : RKADK_SORT_CONDITION) (a b : RKADK_STR_FILE) : Prop :=
  match cond with
  | .SORT_MODIFY_TIME => a.stTime ≤ b.stTime
  | .SORT_FILE_NAME => strcmp a.filename b.filename ≤ 0
  | .SORT_BUTT => True

instance (cond : RKADK_SORT_CONDITION) (a b : RKADK_STR_FILE) : Decidable (KeyLe cond a b) :=
  match cond with
  | .SORT_MODIFY_TIME => inferInstanceAs (Decidable (a.stTime ≤ b.stTime))
  | .SORT_FILE_NAME => inferInstanceAs (Decidable (strcmp a.filename b.filename ≤ 0))
  | .SORT_BUTT => inferInstanceAs (Decidable True)

/-- The strict order of the sort key: `a` must stand before `b`. -/
def KeyLt (cond : RKADK_SORT_CONDITION) (a b : RKADK_STR_FILE) : Prop :=
  match cond with
  | .SORT_MODIFY_TIME => a.stTime < b.stTime
  | .SORT_FILE_NAME => strcmp a.filename b.filename < 0
  | .SORT_BUTT => False

instance (cond : RKADK_SORT_CONDITION) (a b : RKADK_STR_FILE) : Decidable (KeyLt cond a b) :=
  match cond with
  | .SORT_MODIFY_TIME => inferInstanceAs (Decidable (a.stTime < b.stTime))
  | .SORT_FILE_NAME => inferInstanceAs (Decidable (strcmp a.filename b.filename < 0))
  | .SORT_BUTT => inferInstanceAs (Decidable False)

/-- Every adjacent pair `(a, b)` of the chain satisfies `R a b`. -/
def AdjacentPairs (R : RKADK_STR_FILE → RKADK_STR_FILE → Prop) : List RKADK_STR_FILE → Prop
  | a :: b :: rest => R a b ∧ AdjacentPairs R (b :: rest)
  | _ => True

/-- Deciding `AdjacentPairs` by walking the chain. -/
def decAdjacentPairs (R : RKADK_STR_FILE → RKADK_STR_FILE → Prop) [DecidableRel R] :
    (files : List RKADK_STR_FILE) → Decidable (AdjacentPairs R files)
  | [] => isTrue trivial
  | [_] => isTrue trivial
  | a :: b :: rest =>
    match decAdjacentPairs R (b :: rest) with
    | isTrue h => if hab : R a b then isTrue ⟨hab, h⟩ else isFalse (fun hn => hab hn.1)
    | isFalse h => isFalse (fun hn => h hn.2)

instance (R : RKADK_STR_FILE → RKADK_STR_FILE → Prop) [DecidableRel R]
    (files : List RKADK_STR_FILE) : Decidable (AdjacentPairs R files) :=
  decAdjacentPairs R files

/-- Every adjacent pair of the chain is in the order of the folder's sort key. -/
def SortedIndex (folder : RKADK_STR_FOLDER) : Prop :=
  AdjacentPairs (KeyLe folder.s32SortCond) folder.pstFileListFirst

instance (folder : RKADK_STR_FOLDER) : Decidable (SortedIndex folder) :=
  inferInstanceAs (Decidable (AdjacentPairs _ _))

/-- The sort key is one of the two real keys, modification time or file name. -/
def RealKey (cond : RKADK_SORT_CONDITION) : Prop :=
  cond = .SORT_MODIFY_TIME ∨ cond = .SORT_FILE_NAME

instance (cond : RKADK_SORT_CONDITION) : Decidable (RealKey cond) :=
  inferInstanceAs (Decidable (_ ∨ _))

/-- At most one record per file name. -/
def UniqueNames (folder : RKADK_STR_FOLDER) : Prop :=
  (folder.pstFileListFirst.map (·.filename)).Nodup

instance (folder : RKADK_STR_FOLDER) : Decidable (UniqueNames folder) :=
  inferInstanceAs (Decidable (List.Nodup _))

/-- No two neighbours of the chain are both named `filename`. -/
def NoAdjacentPair (filename : CStr) (files : List RKADK_STR_FILE) : Prop :=
  AdjacentPairs (fun a b => ¬ (a.filename = filename ∧ b.filename = filename)) files

instance (filename : CStr) (files : List RKADK_STR_FILE) :
    Decidable (NoAdjacentPair filename files) :=
  inferInstanceAs (Decidable (AdjacentPairs _ _))

/-- The folder as the scan thread sets it up: zeroed by `memset`, then given its
path and sort condition; the watch descriptor is set by the monitor thread. -/
def emptyIndex (cpath : CStr) (cond : RKADK_SORT_CONDITION) (wd : Int) : RKADK_STR_FOLDER :=
  { cpath := cpath, s32SortCond := cond, wd := wd, s32FileNum := 0, totalSize := 0,
    totalSpace := 0, pstFileListFirst := [] }

/-- The folders reached from an empty index by calls of `RKADK_STORAGE_FileListAdd`
(whatever the allocator answers) and `RKADK_STORAGE_FileListDel`. -/
inductive Reachable : RKADK_STR_FOLDER → Prop where
  | empty (cpath : CStr) (cond : RKADK_SORT_CONDITION) (wd : Int) :
    Reachable (emptyIndex cpath cond wd)
  | add (mallocOk : Bool) (folder : RKADK_STR_FOLDER) (filename : CStr) (statbuf : stat) :
    Reachable folder → Reachable (RKADK_STORAGE_FileListAdd mallocOk folder filename statbuf).2
  | del (folder : RKADK_STR_FOLDER) (filename : CStr) :
    Reachable folder → Reachable (RKADK_STORAGE_FileListDel folder filename).2

/-! ## The folder array set up by `RKADK_STORAGE_FileScanThread` -/

/-- Modelled from the spec: the per-directory configuration record is declared in
`rkadk_storage.h`, which is not part of the source; its fields are the ones the
source reads (`folder_attrs[]`: `{relative_path, sort_key, limit_is_count,
limit_value}`). -/
structure RKADK_STR_FOLDER_ATTR where
  cFolderPath : CStr
  s32SortCond : RKADK_SORT_CONDITION
  bNumLimit : Bool
  s32Limit : Int
  deriving DecidableEq, Repr

/-- One round of the set-up loop of `RKADK_STORAGE_FileScanThread`: the folder zeroed
by `memset`, then `sprintf(cpath, "%s%s", cMountPath, cFolderPath)` and the copy
of the sort condition. -/
def FileScanThread_initFolder (cMountPath : CStr) (attr : RKADK_STR_FOLDER_ATTR) :
    RKADK_STR_FOLDER :=
  emptyIndex (cMountPath ++ attr.cFolderPath) attr.s32SortCond 0


/-! ## The retention tick of `RKADK_STORAGE_FileScanThread` -/

/-- Modelled from the spec: the configuration record `RKADK_STR_DEV_ATTR` is declared in
`rkadk_storage.h`, which is not part of the source; its fields are the ones the
source reads (`mount_path`, `auto_delete_enabled`, `free_low_kib`,
`free_high_kib`, `folder_attrs[]`). The array `pstFolderAttr` together with its
length `s32FolderNum` is the list `pstFolderAttr`. -/
structure RKADK_STR_DEV_ATTR where
  cMountPath : CStr
  s32AutoDel : Int
  s32FreeSizeDelMin : Int
  s32FreeSizeDelMax : Int
  pstFolderAttr : List RKADK_STR_FOLDER_ATTR
  deriving DecidableEq, Repr

/-- The value an integer has once stored in an `RKADK_S32`: reduced modulo `2^32`
into the range `-2^31 .. 2^31 - 1`. -/
def toS32 (x : Int) : Int :=
  (x + 2 ^ 31) % 2 ^ 32 - 2 ^ 31

/-- The two tests on the free size at the head of an action tick:
`if (s32FreeSize <= s32FreeSizeDelMin * 1024) s32AutoDel = 1;` then
`if (s32FreeSize >= s32FreeSizeDelMax * 1024) s32AutoDel = 0;`, the products
being `RKADK_S32` values. -/
def FileScanThread_autoDel (devAttr : RKADK_STR_DEV_ATTR) (s32FreeSize : Int) :
    RKADK_STR_DEV_ATTR :=
  let low : RKADK_STR_DEV_ATTR :=
    if s32FreeSize ≤ toS32 (devAttr.s32FreeSizeDelMin * 1024) then
      { devAttr with s32AutoDel := 1 }
    else devAttr
  if s32FreeSize ≥ toS32 (devAttr.s32FreeSizeDelMax * 1024) then
    { low with s32AutoDel := 0 }
  else low

/-- The flag after a run of action ticks, one per free-size sample. -/
def FileScanThread_autoDelRun (devAttr : RKADK_STR_DEV_ATTR) :
    List Int → RKADK_STR_DEV_ATTR
  | [] => devAttr
  | s32FreeSize :: samples =>
    FileScanThread_autoDelRun (FileScanThread_autoDel devAttr s32FreeSize) samples

/-- The first loop of the armed branch: `totalSpace += pstFolder[i].totalSpace`
for every configured directory. -/
def FileScanThread_totalSpace :
    List RKADK_STR_FOLDER_ATTR → List RKADK_STR_FOLDER → Int → Int
  | _ :: attrs, folder :: folders, totalSpace =>
    FileScanThread_totalSpace attrs folders (totalSpace + folder.totalSpace)
  | _, _, totalSpace => totalSpace

/-- The `limit` computed for one directory: the whole-percent share
`totalSpace * 100 / totalSpace` (C division, stored in an `RKADK_S32`) when
`bNumLimit` is false, the file count otherwise. `none` stands for a division by
zero. -/
def FileScanThread_limit (attr : RKADK_STR_FOLDER_ATTR) (folder : RKADK_STR_FOLDER)
    (totalSpace : Int) : Option Int :=
  if attr.bNumLimit = false then
    if totalSpace = 0 then none
    else some (toS32 (Int.tdiv (folder.totalSpace * 100) totalSpace))
  else some folder.s32FileNum

/-- The decision taken for one directory in the second loop: `some (some first)`
when the file of the head record `first` is removed, `some none` when nothing is
removed, `none` for a division by zero. -/
def FileScanThread_victim (attr : RKADK_STR_FOLDER_ATTR) (folder : RKADK_STR_FOLDER)
    (totalSpace : Int) : Option (Option RKADK_STR_FILE) :=
  match FileScanThread_limit attr folder totalSpace with
  | none => none
  | some limit =>
    if limit > attr.s32Limit then
      match folder.pstFileListFirst with
      | first :: _ => some (some first)
      | [] => some none
    else some none

/-- The path built by `sprintf(file, "%s%s%s", cMountPath, cFolderPath, filename)`. -/
def FileScanThread_file (cMountPath : CStr) (attr : RKADK_STR_FOLDER_ATTR)
    (first : RKADK_STR_FILE) : CStr :=
  cMountPath ++ attr.cFolderPath ++ first.filename

/-- The second loop of the armed branch, `for (i = 0; i < s32FolderNum &&
totalSpace; i++)`: the paths handed to `remove`, in order, and the value of `cnt`
at the end (set to 51 at each removal, after which `continue` goes on with the
next directory). `none` stands for a division by zero. -/
def FileScanThread_scan (cMountPath : CStr) (totalSpace : Int) :
    List RKADK_STR_FOLDER_ATTR → List RKADK_STR_FOLDER → Int → Option (List CStr × Int)
  | attr :: attrs, folder :: folders, cnt =>
    if totalSpace ≠ 0 then
      match FileScanThread_victim attr folder totalSpace with
      | none => none
      | some (some first) =>
        match FileScanThread_scan cMountPath totalSpace attrs folders 51 with
        | none => none
        | some (files, cnt') => some (FileScanThread_file cMountPath attr first :: files, cnt')
      | some none => FileScanThread_scan cMountPath totalSpace attrs folders cnt
    else some ([], cnt)
  | _, _, cnt => some ([], cnt)

/-- The part of an action tick after the two tests on the free size
(`cnt` was reset to 0 at the head of the tick): nothing when `s32AutoDel` is 0,
else the sum of the directories' `totalSpace` and the second loop. -/
def FileScanThread_retention (devAttr : RKADK_STR_DEV_ATTR)
    (folders : List RKADK_STR_FOLDER) : Option (List CStr × Int) :=
  if devAttr.s32AutoDel ≠ 0 then
    FileScanThread_scan devAttr.cMountPath
      (FileScanThread_totalSpace devAttr.pstFolderAttr folders 0)
      devAttr.pstFolderAttr folders 0
  else some ([], 0)

/-- One directory over one armed tick and the delete event that follows: when the
tick removes the file of the head record, the monitor thread's
`RKADK_STORAGE_FileListDel` of that name is applied to the index. -/
def retentionRoundFolder (attr : RKADK_STR_FOLDER_ATTR) (folder : RKADK_STR_FOLDER)
    (totalSpace : Int) : RKADK_STR_FOLDER :=
  if totalSpace ≠ 0 then
    match FileScanThread_victim attr folder totalSpace with
    | some (some first) => (RKADK_STORAGE_FileListDel folder first.filename).2
    | _ => folder
  else folder

/-- `retentionRoundFolder` over the directories visited by the second loop. -/
def retentionRoundFolders (totalSpace : Int) :
    List RKADK_STR_FOLDER_ATTR → List RKADK_STR_FOLDER → List RKADK_STR_FOLDER
  | attr :: attrs, folder :: folders =>
    retentionRoundFolder attr folder totalSpace :: retentionRoundFolders totalSpace attrs folders
  | _, folders => folders

/-- The folder array after one action tick (past the tests on the free size) and
the delete events of the files the tick removed. -/
def retentionRound (devAttr : RKADK_STR_DEV_ATTR) (folders : List RKADK_STR_FOLDER) :
    List RKADK_STR_FOLDER :=
  if devAttr.s32AutoDel ≠ 0 then
    retentionRoundFolders (FileScanThread_totalSpace devAttr.pstFolderAttr folders 0)
      devAttr.pstFolderAttr folders
  else folders

/-- The folder array after `k` such ticks. -/
def retentionRun (devAttr : RKADK_STR_DEV_ATTR) :
    Nat → List RKADK_STR_FOLDER → List RKADK_STR_FOLDER
  | 0, folders => folders
  | k + 1, folders => retentionRound devAttr (retentionRun devAttr k folders)

/-- The path one directory contributes to the files removed in a tick, if any. -/
def FileScanThread_removedFile (cMountPath : CStr) (totalSpace : Int)
    (attr : RKADK_STR_FOLDER_ATTR) (folder : RKADK_STR_FOLDER) : Option CStr :=
  match FileScanThread_victim attr folder totalSpace with
  | some (some first) => some (FileScanThread_file cMountPath attr first)
  | _ => none

/-! ## Strings of the C library -/

/-- The bytes of an ASCII string. -/
def ascii (text : String) : CStr :=
  text.toList.map Char.toNat

/-- Whether `hay` begins with `needle`. -/
def startsWith : CStr → CStr → Bool
  | [], _ => true
  | _ :: _, [] => false
  | x :: needle, y :: hay => decide (x = y) && startsWith needle hay

/-- The libc `strstr`: the offset of the first occurrence of `needle` in `hay`,
`none` for the null pointer. -/
def strstr : CStr → CStr → Option Nat
  | [], needle => if startsWith needle [] then some 0 else none
  | y :: hay, needle =>
    if startsWith needle (y :: hay) then some 0 else (strstr hay needle).map (· + 1)

/-- The C string that starts at the head of `mem`: the bytes before the first NUL. -/
def cstr (mem : List Nat) : CStr :=
  mem.takeWhile (· ≠ 0)

/-- The libc `isspace` in the C locale. -/
def isspace (c : Nat) : Bool :=
  decide (c = 32) || (decide (9 ≤ c) && decide (c ≤ 13))

/-- The words `sscanf` reads with successive `%s`: the maximal runs of bytes that
are not white space; `word` is the run being read. -/
def sscanfWords : CStr → CStr → List CStr
  | [], word => if word = [] then [] else [word]
  | c :: rest, word =>
    if isspace c then
      if word = [] then sscanfWords rest [] else word :: sscanfWords rest []
    else sscanfWords rest (word ++ [c])

/-! ## The device controller -/

/-- One message of the queue (`RKADK_TMSG_ELEMENT`), without its `next` link; `data`
is the copied block, `none` for the null pointer. -/
structure RKADK_TMSG_ELEMENT where
  msg : Int
  data : Option (List Nat)
  s32DataLen : Int
  deriving DecidableEq, Repr

/-- The message queue (`RKADK_TMSG_BUFFER`): `first` holds the whole chain; `last`
is never read by the source and is left out, as are the mutex, the condition,
the callback and the thread id. -/
structure RKADK_TMSG_BUFFER where
  first : List RKADK_TMSG_ELEMENT
  num : Int
  quit : Int
  deriving DecidableEq, Repr

/-- The handle (`RKADK_STORAGE_HANDLE`) without the listener's thread id. -/
structure RKADK_STORAGE_HANDLE where
  stMsgHd : RKADK_TMSG_BUFFER
  eventListenerRun : Int
  stDevSta : RKADK_STR_DEV_STA
  stDevAttr : RKADK_STR_DEV_ATTR
  deriving DecidableEq, Repr

/-- The search of `RKADK_STORAGE_GetMountPath` through the lines `fgets` delivers:
the first line that contains `dev` decides; its second field runs from after
the first space to the next space. Returns the code and the path copied.
`none` stands for undefined behaviour: the line has no space, or no second one
(the source then computes with a null pointer). -/
def GetMountPath_lines (dev : CStr) (s32PathLen : Int) :
    List CStr → Option (Int × CStr)
  | [] => some (-1, [])
  | strLine :: rest =>
    match strstr strLine dev with
    | some _ =>
      match strstr strLine [32] with
      | none => none
      | some a =>
        match strstr (strLine.drop (a + 1)) [32] with
        | none => none
        | some len =>
          if 0 < len ∧ (len : Int) < s32PathLen then
            some (0, (strLine.drop (a + 1)).take len)
          else some (-2, [])
    | none => GetMountPath_lines dev s32PathLen rest

/-- The function `RKADK_STORAGE_GetMountPath`. `mounts` is the content of
`/proc/mounts` as the lines `fgets` delivers, `none` when it cannot be opened.
With an empty file the source searches a line buffer it never filled: `none`.
The path returned with a code other than 0 is not read by the caller. -/
def RKADK_STORAGE_GetMountPath (mounts : Option (List CStr)) (dev : CStr)
    (s32PathLen : Int) : Option (Int × CStr) :=
  match mounts with
  | none => some (-1, [])
  | some [] => none
  | some (strLine :: rest) => GetMountPath_lines dev s32PathLen (strLine :: rest)

/-- The search of `RKADK_STORAGE_GetMountDev`: the first line that contains `path`
is read with `sscanf(strLine, "%s %s %s %s", dev, MountPath, type, attributes)`;
a word that is missing leaves its target as it was. -/
def GetMountDev_lines (path : CStr) (sta : RKADK_STR_DEV_STA) :
    List CStr → Int × RKADK_STR_DEV_STA
  | [] => (-1, sta)
  | strLine :: rest =>
    match strstr strLine path with
    | some _ =>
      let words := sscanfWords strLine []
      (0, { sta with
            cDevPath := (words.get? 0).getD sta.cDevPath
            cDevType := (words.get? 2).getD sta.cDevType
            cDevAttr1 := (words.get? 3).getD sta.cDevAttr1 })
    | none => GetMountDev_lines path sta rest

/-- The function `RKADK_STORAGE_GetMountDev`, writing into the device state. -/
def RKADK_STORAGE_GetMountDev (mounts : Option (List CStr)) (path : CStr)
    (sta : RKADK_STR_DEV_STA) : Int × RKADK_STR_DEV_STA :=
  match mounts with
  | none => (-1, sta)
  | some lines => GetMountDev_lines path sta lines

/-- The function `RKADK_STORAGE_DevAdd`: the code returned, the handle afterwards and
whether a scan thread was started. `maxPathLen` stands for
`RKADK_MAX_FILE_PATH_LEN`, `mounts` is `/proc/mounts` (read twice, unchanged in
between), `threadId` is the id `pthread_create` gives, `none` when it fails.
`RKADK_STORAGE_FSCK` forks a child and changes nothing here. `none` stands for the
undefined behaviour of `RKADK_STORAGE_GetMountPath`. -/
def RKADK_STORAGE_DevAdd (maxPathLen : Nat) (mounts : Option (List CStr))
    (threadId : Option Nat) (dev : CStr) (pHandle : RKADK_STORAGE_HANDLE) :
    Option (Int × RKADK_STORAGE_HANDLE × Bool) :=
  match RKADK_STORAGE_GetMountPath mounts dev maxPathLen with
  | none => none
  | some (ret, mountPath) =>
    if ret ≠ 0 then some (ret, pHandle, false)
    else if strcmp pHandle.stDevAttr.cMountPath mountPath ≠ 0 then some (-1, pHandle, false)
    else
      match RKADK_STORAGE_GetMountDev mounts pHandle.stDevAttr.cMountPath pHandle.stDevSta with
      | (ret', sta) =>
        if ret' ≠ 0 then some (ret', { pHandle with stDevSta := sta }, false)
        else
          match threadId with
          | some tid =>
            some (0, { pHandle with
                       stDevSta := { sta with
                                     s32MountStatus := .DISK_MOUNTED
                                     fileScanTid := tid } }, true)
          | none =>
            some (0, { pHandle with
                       stDevSta := { sta with s32MountStatus := .DISK_MOUNTED } }, false)

/-- What the scan thread that `RKADK_STORAGE_DevRemove` joins still writes to the
device state after the sizes were reset and before it exits. `s32TotalSize` and
`s32FreeSize` are the values `RKADK_STORAGE_GetDiskSize` stores over the reset ones
when the thread had passed its test of the mount status before the status
changed, `none` for a field it does not store again. `fileScanOut` tells whether
the thread leaves through `file_scan_out`, where it frees the folder array. -/
structure FileScanThread_rest where
  s32TotalSize : Option Int
  s32FreeSize : Option Int
  fileScanOut : Bool
  deriving DecidableEq, Repr

/-- The device state when `pthread_join` on the scan thread returns. -/
def FileScanThread_joined (rest : FileScanThread_rest) (sta : RKADK_STR_DEV_STA) :
    RKADK_STR_DEV_STA :=
  { sta with
    s32TotalSize := rest.s32TotalSize.getD sta.s32TotalSize
    s32FreeSize := rest.s32FreeSize.getD sta.s32FreeSize
    pstFolder := if rest.fileScanOut then [] else sta.pstFolder }

/-- The function `RKADK_STORAGE_DevRemove`: the code returned and the handle
afterwards. The status and the sizes are written first; then, with a scan
thread to join, `pthread_join` lets that thread run to its exit (`rest`) and
`fileScanTid` is cleared. -/
def RKADK_STORAGE_DevRemove (rest : FileScanThread_rest) (dev : CStr)
    (pHandle : RKADK_STORAGE_HANDLE) : Int × RKADK_STORAGE_HANDLE :=
  if strcmp pHandle.stDevSta.cDevPath dev = 0 then
    let sta : RKADK_STR_DEV_STA :=
      { pHandle.stDevSta with
        s32MountStatus := .DISK_UNMOUNTED
        s32TotalSize := 0
        s32FreeSize := 0 }
    if sta.fileScanTid ≠ 0 then
      (0, { pHandle with
            stDevSta := { FileScanThread_joined rest sta with fileScanTid := 0 } })
    else (0, { pHandle with stDevSta := sta })
  else (0, pHandle)

/-! ## The hot-plug listener -/

/-- The length below which a received message is refused (`MAX_TYPE_NMSG_LEN`). -/
def MAX_TYPE_NMSG_LEN : Int := 32

/-- The message kinds of `RKADK_ENUM_MSG` the listener sends. -/
def MSG_DEV_ADD : Int := 1

/-- See `MSG_DEV_ADD`. -/
def MSG_DEV_REMOVE : Int := 2

/-- See `MSG_DEV_ADD`. -/
def MSG_DEV_CHANGED : Int := 3

/-- The walk of `RKADK_STORAGE_MsgPutMsgToBuffer` to the last element, where `elm` is
linked. -/
def MsgPutMsgToBuffer_link : List RKADK_TMSG_ELEMENT → RKADK_TMSG_ELEMENT →
    List RKADK_TMSG_ELEMENT
  | [], elm => [elm]
  | tmp :: next, elm => tmp :: MsgPutMsgToBuffer_link next elm

/-- The function `RKADK_STORAGE_MsgPutMsgToBuffer` with both pointers present: the code
returned and the queue afterwards. -/
def RKADK_STORAGE_MsgPutMsgToBuffer (buf : RKADK_TMSG_BUFFER) (elm : RKADK_TMSG_ELEMENT) :
    Int × RKADK_TMSG_BUFFER :=
  (0, { buf with first := MsgPutMsgToBuffer_link buf.first elm, num := buf.num + 1 })

/-- The function `RKADK_STORAGE_MsgSendMsg`: the code returned and the queue
afterwards. `failure` is the value of the macro `RKADK_FAILURE`, which the source
does not declare; `data` is the memory from the pointer on, `none` for the
null pointer; `mallocElm` and `mallocData` say whether the two allocations
succeed. The block copied is the first `s32DataLen` bytes of `data`. -/
def RKADK_STORAGE_MsgSendMsg (failure : Int) (mallocElm mallocData : Bool) (msg : Int)
    (data : Option (List Nat)) (s32DataLen : Int) (buf : RKADK_TMSG_BUFFER) :
    Int × RKADK_TMSG_BUFFER :=
  match data with
  | none => (failure, buf)
  | some mem =>
    if mallocElm = false then (-1, buf)
    else if 0 < s32DataLen then
      if mallocData = false then (-1, buf)
      else
        let r := RKADK_STORAGE_MsgPutMsgToBuffer buf
          { msg := msg, data := some (mem.take s32DataLen.toNat), s32DataLen := s32DataLen }
        if r.1 ≠ 0 then (-1, buf) else (0, r.2)
    else
      let r := RKADK_STORAGE_MsgPutMsgToBuffer buf
        { msg := msg, data := none, s32DataLen := s32DataLen }
      if r.1 ≠ 0 then (-1, buf) else (0, r.2)

/-- The loop of `RKADK_STORAGE_Search`: `mem` is the array from index `i - 1` on and
`n` counts the iterations left. After each NUL byte the string that follows is
searched; the result is an offset from the start of the array. -/
def Search_loop (str : CStr) : List Nat → Nat → Nat → Option Nat
  | _, 0, _ => none
  | [], _ + 1, _ => none
  | b :: mem, n + 1, i =>
    if b = 0 then
      match strstr (cstr mem) str with
      | some k => some (i + k)
      | none => Search_loop str mem n (i + 1)
    else Search_loop str mem n (i + 1)

/-- The function `RKADK_STORAGE_Search`: the offset in `buf` of the match, `none` for
the null pointer. `buf` is the content of the array, which the source reads as
C strings; a string without a NUL is read up to the end of `buf`. -/
def RKADK_STORAGE_Search (buf : List Nat) (len : Int) (str : CStr) : Option Nat :=
  match strstr (cstr buf) str with
  | some k => some k
  | none => Search_loop str buf (len - 1).toNat 1

/-- The function `RKADK_STORAGE_Getparameters`: the match moved on by
`strlen(str) + 1`. -/
def RKADK_STORAGE_Getparameters (buf : List Nat) (len : Int) (str : CStr) : Option Nat :=
  match RKADK_STORAGE_Search buf len str with
  | some ret => some (ret + (str.length + 1))
  | none => none

/-- One of the three calls `RKADK_STORAGE_MsgSendMsg(msg, dev, strlen(dev) + 1, ...)` of
the listener. The length is computed before the call: with `dev` the null
pointer `strlen` reads through it, which is `none` here. The code the call
returns is only logged. -/
def EventListenerThread_send (failure : Int) (mallocElm mallocData : Bool) (msg : Int)
    (buf : List Nat) (dev : Option Nat) (stMsgHd : RKADK_TMSG_BUFFER) :
    Option RKADK_TMSG_BUFFER :=
  match dev with
  | none => none
  | some ret =>
    some (RKADK_STORAGE_MsgSendMsg failure mallocElm mallocData msg (some (buf.drop ret))
      (((cstr (buf.drop ret)).length : Int) + 1) stMsgHd).2

/-- One round of the loop of `RKADK_STORAGE_EventListenerThread` after `recvmsg` has
returned `len` and left `buf` in the array (the bytes received, then what the
array held before): the queue afterwards, `none` when the round reads through
a null pointer. -/
def EventListenerThread_message (failure : Int) (mallocElm mallocData : Bool)
    (buf : List Nat) (len : Int) (stMsgHd : RKADK_TMSG_BUFFER) : Option RKADK_TMSG_BUFFER :=
  if len < 0 then some stMsgHd
  else if len < MAX_TYPE_NMSG_LEN ∨ len > 2000 then some stMsgHd
  else if strstr (cstr buf) (ascii "libudev") = some 0 then
    if (RKADK_STORAGE_Search buf len (ascii "DEVTYPE=partition")).isSome ∨
        (RKADK_STORAGE_Search buf len (ascii "DEVTYPE=disk")).isSome then
      let dev := RKADK_STORAGE_Getparameters buf len (ascii "DEVNAME")
      if (RKADK_STORAGE_Search buf len (ascii "ACTION=add")).isSome then
        EventListenerThread_send failure mallocElm mallocData MSG_DEV_ADD buf dev stMsgHd
      else if (RKADK_STORAGE_Search buf len (ascii "ACTION=remove")).isSome then
        EventListenerThread_send failure mallocElm mallocData MSG_DEV_REMOVE buf dev stMsgHd
      else if (RKADK_STORAGE_Search buf len (ascii "ACTION=change")).isSome then
        EventListenerThread_send failure mallocElm mallocData MSG_DEV_CHANGED buf dev stMsgHd
      else some stMsgHd
    else some stMsgHd
  else some stMsgHd

/-! ### Messages as records -/

/-- The bytes of a message made of the records `rs`, each followed by its NUL. -/
def ueventBytes : List CStr → List Nat
  | [] => []
  | r :: rs => r ++ 0 :: ueventBytes rs

/-- Whether one of the records `rs` contains the text `str`. -/
def recordsContain (rs : List CStr) (str : CStr) : Bool :=
  rs.any (fun r => (strstr r str).isSome)

/-- The first place the text `str` occurs in the records `rs`, as an offset in the
message when the first record starts at `off`. -/
def firstRecord (str : CStr) : List CStr → Nat → Option Nat
  | [], _ => none
  | r :: rs, off =>
    match strstr r str with
    | some k => some (off + k)
    | none => firstRecord str rs (off + r.length + 1)

/-- Whether the message of records `rs` begins with the text `str`. -/
def recordsBegin (rs : List CStr) (str : CStr) : Bool :=
  match rs with
  | [] => false
  | r :: _ => startsWith str r

/-- The queue `stMsgHd` with one more message of kind `msg` carrying `name`. -/
def enqueued (stMsgHd : RKADK_TMSG_BUFFER) (msg : Int) (name : CStr) : RKADK_TMSG_BUFFER :=
  { stMsgHd with
    first := stMsgHd.first ++
      [{ msg := msg, data := some (name ++ [0]), s32DataLen := (name.length : Int) + 1 }]
    num := stMsgHd.num + 1 }

/-! ## The first pass of `RKADK_STORAGE_FileScanThread` over a directory -/

/-- The file type mask of `<sys/stat.h>`. -/
def S_IFMT : Nat := 0o170000

/-- The file type of a directory. -/
def S_IFDIR : Nat := 0o040000

/-- The macro `S_ISDIR`. -/
def S_ISDIR (st_mode : Nat) : Bool :=
  decide (st_mode &&& S_IFMT = S_IFDIR)

/-- Whether the index holds a record of `name` with the size, space and time of
`statbuf`. -/
def HoldsRecord (folder : RKADK_STR_FOLDER) (name : CStr) (statbuf : stat) : Prop :=
  ∃ r ∈ folder.pstFileListFirst,
    r.filename = name ∧ r.stSize = statbuf.st_size ∧
    r.stSpace = statbuf.st_blocks * 512 ∧ r.stTime = statbuf.st_mtime

/-- The `while` loop over `readdir` in the first pass: `entries` are the names
`readdir` returns, in order; `lstat` answers for the directory, `none` when the
call fails. The loop goes on while the device is mounted and `s32AutoDel` is not
0; a failing `lstat` and a failing `RKADK_STORAGE_FileListAdd` leave the loop. -/
def FileScanThread_readdir (lstat : CStr → Option stat) (mallocOk : Bool)
    (s32MountStatus : RKADK_MOUNT_STATUS) (s32AutoDel : Int) :
    List CStr → RKADK_STR_FOLDER → RKADK_STR_FOLDER
  | [], folder => folder
  | d_name :: entries, folder =>
    if s32MountStatus = .DISK_MOUNTED ∧ s32AutoDel ≠ 0 then
      match lstat d_name with
      | none => folder
      | some statbuf =>
        if S_ISDIR statbuf.st_mode then
          FileScanThread_readdir lstat mallocOk s32MountStatus s32AutoDel entries folder
        else if (RKADK_STORAGE_FileListAdd mallocOk folder d_name statbuf).1 ≠ 0 then
          (RKADK_STORAGE_FileListAdd mallocOk folder d_name statbuf).2
        else
          FileScanThread_readdir lstat mallocOk s32MountStatus s32AutoDel entries
            (RKADK_STORAGE_FileListAdd mallocOk folder d_name statbuf).2
    else folder

/-- The first pass over one directory: `dir` holds what `readdir` returns, `none`
when `opendir` fails and the directory is passed over. -/
def FileScanThread_opendir (lstat : CStr → Option stat) (mallocOk : Bool)
    (s32MountStatus : RKADK_MOUNT_STATUS) (s32AutoDel : Int) (dir : Option (List CStr))
    (folder : RKADK_STR_FOLDER) : RKADK_STR_FOLDER :=
  match dir with
  | none => folder
  | some entries =>
    FileScanThread_readdir lstat mallocOk s32MountStatus s32AutoDel entries folder

/-! ## The message queue -/

/-- The queue as `RKADK_STORAGE_MsgCreate` sets it up: no element, `num` and `quit` 0. -/
def MsgCreate_buffer : RKADK_TMSG_BUFFER :=
  { first := [], num := 0, quit := 0 }

/-- The function `RKADK_STORAGE_MsgGetMsgFromBufferTimeout` called while no other thread
touches the queue: the element returned (`none` for the null pointer) and the
queue afterwards. With `num` 0 the wait ends with the queue as it was. With
`num` above 1 the source reads `buf->first->next`: `none` stands for that read
through a null `first`. -/
def RKADK_STORAGE_MsgGetMsgFromBufferTimeout (buf : RKADK_TMSG_BUFFER) :
    Option (Option RKADK_TMSG_ELEMENT × RKADK_TMSG_BUFFER) :=
  if 0 < buf.num then
    if 1 = buf.num then some (buf.first.head?, { buf with first := [], num := 0 })
    else
      match buf.first with
      | [] => none
      | elm :: next => some (some elm, { buf with first := next, num := buf.num - 1 })
  else some (none, buf)

/-- One operation on the queue: a put of an element, or a get. -/
inductive MsgOp where
  | put (elm : RKADK_TMSG_ELEMENT)
  | get
  deriving DecidableEq, Repr

/-- The elements the operations `ops` put, in order. -/
def MsgOp_puts : List MsgOp → List RKADK_TMSG_ELEMENT
  | [] => []
  | .put elm :: ops => elm :: MsgOp_puts ops
  | .get :: ops => MsgOp_puts ops

/-- The operations `ops` run one at a time on `buf`: the elements the gets returned,
in order, and the queue afterwards; `none` when a get reads through a null
pointer. -/
def MsgRun : List MsgOp → RKADK_TMSG_BUFFER →
    Option (List RKADK_TMSG_ELEMENT × RKADK_TMSG_BUFFER)
  | [], buf => some ([], buf)
  | .put elm :: ops, buf => MsgRun ops (RKADK_STORAGE_MsgPutMsgToBuffer buf elm).2
  | .get :: ops, buf =>
    match RKADK_STORAGE_MsgGetMsgFromBufferTimeout buf with
    | none => none
    | some (elm, after) =>
      match MsgRun ops after with
      | none => none
      | some (got, last) => some (elm.toList ++ got, last)

/-! ## The file monitor -/

/-- The event bits of `<sys/inotify.h>` the monitor thread names. -/
def IN_CLOSE_WRITE : Nat := 0x8

/-- See `IN_CLOSE_WRITE`. -/
def IN_MOVED_FROM : Nat := 0x40

/-- See `IN_CLOSE_WRITE`. -/
def IN_MOVED_TO : Nat := 0x80

/-- See `IN_CLOSE_WRITE`. -/
def IN_CREATE : Nat := 0x100

/-- See `IN_CLOSE_WRITE`. -/
def IN_DELETE : Nat := 0x200

/-- See `IN_CLOSE_WRITE`. -/
def IN_UNMOUNT : Nat := 0x2000

/-- The fields of `struct inotify_event` the monitor thread reads; `len` is the
size of the name field and `name` the C string in it. -/
structure inotify_event where
  wd : Int
  mask : Nat
  len : Nat
  name : CStr
  deriving DecidableEq, Repr

/-- The block `sprintf(d_name, "%s%s", cpath, name); lstat(...)`, then
`RKADK_STORAGE_FileListAdd` when `lstat` succeeds; the code of the add is only
logged. `lstat` answers for the file system, `none` when the call fails. -/
def FileMonitorThread_add (lstat : CStr → Option stat) (mallocOk : Bool)
    (event : inotify_event) (folder : RKADK_STR_FOLDER) : RKADK_STR_FOLDER :=
  match lstat (folder.cpath ++ event.name) with
  | none => folder
  | some statbuf => (RKADK_STORAGE_FileListAdd mallocOk folder event.name statbuf).2

/-- The body of the loop over the folders for one event: a folder with the event's
watch descriptor takes, in this order, the add for `IN_MOVED_TO`, the delete for
`IN_DELETE` or `IN_MOVED_FROM`, and the add for `IN_CLOSE_WRITE`. -/
def FileMonitorThread_folder (lstat : CStr → Option stat) (mallocOk : Bool)
    (event : inotify_event) (folder : RKADK_STR_FOLDER) : RKADK_STR_FOLDER :=
  if event.wd = folder.wd then
    let moved :=
      if event.mask &&& IN_MOVED_TO ≠ 0 then FileMonitorThread_add lstat mallocOk event folder
      else folder
    let deleted :=
      if event.mask &&& IN_DELETE ≠ 0 ∨ event.mask &&& IN_MOVED_FROM ≠ 0 then
        (RKADK_STORAGE_FileListDel moved event.name).2
      else moved
    if event.mask &&& IN_CLOSE_WRITE ≠ 0 then FileMonitorThread_add lstat mallocOk event deleted
    else deleted
  else folder

/-- What `RKADK_STORAGE_FileMonitorThread` does with one event read from the
descriptor: the device state afterwards. The loop over `j` treats every folder
on its own. -/
def FileMonitorThread_event (lstat : CStr → Option stat) (mallocOk : Bool)
    (event : inotify_event) (stDevSta : RKADK_STR_DEV_STA) : RKADK_STR_DEV_STA :=
  let sta :=
    if event.mask &&& IN_UNMOUNT ≠ 0 then
      { stDevSta with s32MountStatus := .DISK_UNMOUNTED }
    else stDevSta
  if 0 < event.len then
    { sta with pstFolder := sta.pstFolder.map (FileMonitorThread_folder lstat mallocOk event) }
  else sta

/-! ## Sample data -/

/-- A stat result with the given size, block count and modification time. -/
def sampleStat (size blocks mtime : Int) : stat :=
  { st_mode := 0, st_size := size, st_blocks := blocks, st_mtime := mtime }

/-- A record as `RKADK_STORAGE_FileListAdd` builds it for a new name. -/
def sampleFile (filename : CStr) (size blocks mtime : Int) : RKADK_STR_FILE :=
  FileListAdd_fresh filename (sampleStat size blocks mtime)

/-- An index sorted by name, built by adding `c`, `a`, `b` in that order. -/
def sampleByName : RKADK_STR_FOLDER :=
  (RKADK_STORAGE_FileListAdd true
    (RKADK_STORAGE_FileListAdd true
      (RKADK_STORAGE_FileListAdd true (emptyIndex [47] .SORT_FILE_NAME 1)
        [99] (sampleStat 300 3 30)).2
      [97] (sampleStat 100 1 10)).2
    [98] (sampleStat 200 2 20)).2

/-- An index sorted by time, built by adding `old` (time 100) then `new` (time 200). -/
def sampleByTime : RKADK_STR_FOLDER :=
  (RKADK_STORAGE_FileListAdd true
    (RKADK_STORAGE_FileListAdd true (emptyIndex [47] .SORT_MODIFY_TIME 1)
      [111] (sampleStat 10 1 100)).2
    [110] (sampleStat 20 1 200)).2

/-- A folder state whose chain holds the name `a` twice in a row. -/
def sampleTwice : RKADK_STR_FOLDER :=
  { cpath := [47], s32SortCond := .SORT_FILE_NAME, wd := 1, s32FileNum := 2,
    totalSize := 200, totalSpace := 1024,
    pstFileListFirst := [sampleFile [97] 100 1 10, sampleFile [97] 100 1 10] }

/-- A folder state whose stored aggregates (7, 7, 7) do not match its two records. -/
def sampleStale : RKADK_STR_FOLDER :=
  { cpath := [47], s32SortCond := .SORT_FILE_NAME, wd := 1, s32FileNum := 7,
    totalSize := 7, totalSpace := 7,
    pstFileListFirst := [sampleFile [97] 100 1 10, sampleFile [99] 300 2 20] }

/-- A device state with the given folders, for the examples. -/
def sampleDev (folders : List RKADK_STR_FOLDER) : RKADK_STR_DEV_STA :=
  { cDevPath := [], cDevType := [], cDevAttr1 := [], s32MountStatus := .DISK_MOUNTED,
    s32TotalSize := 0, s32FreeSize := 0, pstFolder := folders, fileScanTid := 0 }

/-- A caller's list asking for `path`. -/
def sampleList (path : CStr) : RKADK_FILE_LIST :=
  { path := path, s32FileNum := 0, file := none }

/-- A directory configuration limited by count: path `/a/`, at most `limit` files. -/
def sampleAttrCount (limit : Int) : RKADK_STR_FOLDER_ATTR :=
  { cFolderPath := [47, 97, 47], s32SortCond := .SORT_FILE_NAME, bNumLimit := true,
    s32Limit := limit }

/-- A directory configuration limited by share: path `/b/`, at most `limit` percent. -/
def sampleAttrShare (limit : Int) : RKADK_STR_FOLDER_ATTR :=
  { cFolderPath := [47, 98, 47], s32SortCond := .SORT_MODIFY_TIME, bNumLimit := false,
    s32Limit := limit }

/-- A device configuration mounted at `/m`, armed, with thresholds 500 and 1000. -/
def sampleDevAttr (attrs : List RKADK_STR_FOLDER_ATTR) : RKADK_STR_DEV_ATTR :=
  { cMountPath := [47, 109], s32AutoDel := 1, s32FreeSizeDelMin := 500,
    s32FreeSizeDelMax := 1000, pstFolderAttr := attrs }

/-- An index sorted by name holding the five empty files `a` .. `e` (no block
allocated, so `totalSpace` is 0). -/
def sampleEmptyFiles : RKADK_STR_FOLDER :=
  (RKADK_STORAGE_FileListAdd true
    (RKADK_STORAGE_FileListAdd true
      (RKADK_STORAGE_FileListAdd true
        (RKADK_STORAGE_FileListAdd true
          (RKADK_STORAGE_FileListAdd true (emptyIndex [47] .SORT_FILE_NAME 1)
            [97] (sampleStat 0 0 10)).2
          [98] (sampleStat 0 0 20)).2
        [99] (sampleStat 0 0 30)).2
      [100] (sampleStat 0 0 40)).2
    [101] (sampleStat 0 0 50)).2

/-- An index sorted by name holding the five files `a` .. `e`, one block each. -/
def sampleFiveFiles : RKADK_STR_FOLDER :=
  (RKADK_STORAGE_FileListAdd true
    (RKADK_STORAGE_FileListAdd true
      (RKADK_STORAGE_FileListAdd true
        (RKADK_STORAGE_FileListAdd true
          (RKADK_STORAGE_FileListAdd true (emptyIndex [47] .SORT_FILE_NAME 1)
            [101] (sampleStat 5 1 10)).2
          [98] (sampleStat 5 1 20)).2
        [100] (sampleStat 5 1 30)).2
      [97] (sampleStat 5 1 40)).2
    [99] (sampleStat 5 1 50)).2

/-- A handle with the given configured mount path and device state. -/
def sampleHandle (cMountPath : CStr) (sta : RKADK_STR_DEV_STA) : RKADK_STORAGE_HANDLE :=
  { stMsgHd := { first := [], num := 0, quit := 0 }, eventListenerRun := 1, stDevSta := sta,
    stDevAttr := { sampleDevAttr [] with cMountPath := cMountPath } }

/-- A mount table with the two lines `/dev/a /x vfat rw` and `/dev/b /m vfat rw`. -/
def sampleMounts : Option (List CStr) :=
  some [ascii "/dev/a /x vfat rw 0 0\n", ascii "/dev/b /m vfat rw 0 0\n"]

/-- An empty message queue. -/
def sampleQueue : RKADK_TMSG_BUFFER :=
  { first := [], num := 0, quit := 0 }

/-- The records of a hot-plug message for the disk `/dev/sda` with the given action
record, 53 bytes and more. -/
def sampleUevent (action : CStr) : List CStr :=
  [ascii "libudev", ascii "SUBSYSTEM=block", action, ascii "DEVNAME=/dev/sda",
   ascii "DEVTYPE=disk"]

/-- The same message without its `DEVNAME` record. -/
def sampleUeventNameless (action : CStr) : List CStr :=
  [ascii "libudev", ascii "SUBSYSTEM=block", action, ascii "MAJOR=8", ascii "MINOR=0",
   ascii "DEVTYPE=disk"]

/-- An event of kind `mask` for the name `a` under the watch descriptor 1. -/
def sampleEvent (mask : Nat) : inotify_event :=
  { wd := 1, mask := mask, len := 16, name := [97] }

/-- A file system where every `lstat` succeeds with size 5, 1 block, time 7. -/
def sampleLstat : CStr → Option stat :=
  fun _ => some (sampleStat 5 1 7)

/-- A message of kind `msg` without data. -/
def sampleMsg (msg : Int) : RKADK_TMSG_ELEMENT :=
  { msg := msg, data := none, s32DataLen := 0 }

/-- A directory where `lstat` fails for the name `a` and succeeds for every other
name with a regular file of size 5, 1 block, time 7. -/
def sampleLstatFails : CStr → Option stat :=
  fun name => if name = [97] then none else some (sampleStat 5 1 7)

/-! # Properties -/

/-! ## Facts about `strcmp` -/

theorem strcmp_eq_zero_iff (a b : CStr) : strcmp a b = 0 ↔ a = b := by
  induction a generalizing b with
  | nil => cases b <;> simp [strcmp]
  | cons x xs ih =>
    cases b with
    | nil => simp [strcmp]
    | cons y ys =>
      by_cases hxy : x = y
      · simp [strcmp, hxy, ih]
      · by_cases hlt : x < y <;> simp [strcmp, hxy, hlt]

theorem strcmp_self (a : CStr) : strcmp a a = 0 := (strcmp_eq_zero_iff a a).2 rfl

theorem strcmp_antisymm (a b : CStr) : strcmp b a = - strcmp a b := by
  induction a generalizing b with
  | nil => cases b <;> simp [strcmp]
  | cons x xs ih =>
    cases b with
    | nil => simp [strcmp]
    | cons y ys =>
      by_cases hxy : x = y
      · subst hxy; simp [strcmp, ih]
      · have hyx : ¬ y = x := fun h => hxy h.symm
        by_cases hlt : x < y
        · have : ¬ y < x := by omega
          simp [strcmp, hxy, hyx, hlt, this]
        · have : y < x := by omega
          simp [strcmp, hxy, hyx, hlt, this]

theorem strcmp_range (a b : CStr) : strcmp a b = -1 ∨ strcmp a b = 0 ∨ strcmp a b = 1 := by
  induction a generalizing b with
  | nil => cases b <;> simp [strcmp]
  | cons x xs ih =>
    cases b with
    | nil => simp [strcmp]
    | cons y ys =>
      by_cases hxy : x = y
      · simpa [strcmp, hxy] using ih ys
      · by_cases hlt : x < y <;> simp [strcmp, hxy, hlt]

theorem strcmp_le_trans (a b c : CStr) (hab : strcmp a b ≤ 0) (hbc : strcmp b c ≤ 0) :
    strcmp a c ≤ 0 := by
  induction a generalizing b c with
  | nil => cases c <;> simp [strcmp]
  | cons x xs ih =>
    cases b with
    | nil => simp [strcmp] at hab
    | cons y ys =>
      cases c with
      | nil => simp [strcmp] at hbc
      | cons z zs =>
        by_cases hxy : x = y
        · subst hxy
          by_cases hxz : x = z
          · subst hxz
            simp only [strcmp, if_true] at hab hbc ⊢
            exact ih ys zs hab hbc
          · by_cases hlt : x < z
            · simp [strcmp, hxz, hlt]
            · simp [strcmp, hxz, hlt] at hbc
        · by_cases hlt : x < y
          · by_cases hyz : y = z
            · subst hyz; simp [strcmp, hxy, hlt]
            · by_cases hlt2 : y < z
              · have h1 : ¬ x = z := by omega
                have h2 : x < z := by omega
                simp [strcmp, h1, h2]
              · simp [strcmp, hyz, hlt2] at hbc
          · simp [strcmp, hxy, hlt] at hab

theorem strcmp_lt_of_not_le (a b : CStr) (h : ¬ strcmp a b ≤ 0) : strcmp b a < 0 := by
  rw [strcmp_antisymm a b]; omega

/-- The order `strcmp` decides is the lexicographic order of the byte lists. -/
theorem strcmp_neg_iff_lex (a b : CStr) :
    strcmp a b < 0 ↔ List.Lex (fun x y => x < y) a b := by
  induction a generalizing b with
  | nil => cases b <;> simp [strcmp, List.Lex.nil]
  | cons x xs ih =>
    cases b with
    | nil => simp [strcmp]
    | cons y ys =>
      by_cases hxy : x = y
      · subst hxy
        simp only [strcmp, if_true, ih]
        constructor
        · exact List.Lex.cons
        · intro h
          cases h with
          | cons h => exact h
          | rel h => exact absurd h (lt_irrefl _)
      · by_cases hlt : x < y
        · simp only [strcmp, hxy, hlt, if_false, if_true]
          exact ⟨fun _ => List.Lex.rel hlt, fun _ => by omega⟩
        · simp only [strcmp, hxy, hlt, if_false]
          constructor
          · intro h; omega
          · intro h
            cases h with
            | cons h => exact absurd rfl hxy
            | rel h => exact absurd h hlt

/-- `strcmp(a, b) <= 0` says that `b` is not lexicographically before `a`. -/
theorem strcmp_le_iff_lex (a b : CStr) :
    strcmp a b ≤ 0 ↔ ¬ List.Lex (fun x y => x < y) b a := by
  rw [← strcmp_neg_iff_lex, strcmp_antisymm a b]
  omega

/-! ## The aggregates -/

theorem list_two_step {α : Type} {P : List α → Prop} (h0 : P [])
    (h1 : ∀ a, P [a]) (h2 : ∀ a b l, P l → P (b :: l) → P (a :: b :: l)) :
    ∀ l, P l := by
  have key : ∀ l, P l ∧ ∀ a, P (a :: l) := by
    intro l
    induction l with
    | nil => exact ⟨h0, h1⟩
    | cons b l ih => exact ⟨ih.2 b, fun a => h2 a b l ih.1 (ih.2 b)⟩
  exact fun l => (key l).1

theorem FileListAdd_count_eq (files : List RKADK_STR_FILE) (num size space : Int) :
    FileListAdd_count files (num, size, space) =
      (num + files.length, size + (files.map (·.stSize)).sum,
        space + (files.map (·.stSpace)).sum) := by
  induction files generalizing num size space with
  | nil => simp [FileListAdd_count]
  | cons tmp rest ih =>
    simp only [FileListAdd_count, ih, List.length_cons, List.map_cons, List.sum_cons]
    refine Prod.ext ?_ (Prod.ext ?_ ?_) <;> simp <;> ring

theorem FileListAdd_finish_match (folder : RKADK_STR_FOLDER) (files : List RKADK_STR_FILE) :
    AggregatesMatch (FileListAdd_finish folder files) := by
  have h := FileListAdd_count_eq files 0 0 0
  unfold AggregatesMatch FileListAdd_finish
  dsimp only
  rw [h]
  simp

theorem FileListDel_loop_totals (filename : CStr) (files : List RKADK_STR_FILE)
    (num size space : Int) :
    (FileListDel_loop filename files (num, size, space)).2 =
      (num + (FileListDel_loop filename files (num, size, space)).1.length,
        size + ((FileListDel_loop filename files (num, size, space)).1.map (·.stSize)).sum,
        space + ((FileListDel_loop filename files (num, size, space)).1.map (·.stSpace)).sum) := by
  induction files using list_two_step generalizing num size space with
  | h0 => simp [FileListDel_loop]
  | h1 tmp => simp [FileListDel_loop]
  | h2 tmp next rest ih1 ih2 =>
    by_cases h : strcmp next.filename filename = 0
    · simp only [FileListDel_loop, h, if_true]
      rw [ih1]
      refine Prod.ext ?_ (Prod.ext ?_ ?_) <;> simp <;> ring
    · simp only [FileListDel_loop, h, if_false]
      rw [ih2]
      refine Prod.ext ?_ (Prod.ext ?_ ?_) <;> simp <;> ring

theorem FileListDel_match (folder : RKADK_STR_FOLDER) (filename : CStr) :
    AggregatesMatch (RKADK_STORAGE_FileListDel folder filename).2 := by
  unfold RKADK_STORAGE_FileListDel
  cases hfiles : folder.pstFileListFirst with
  | nil => simp [AggregatesMatch, hfiles]
  | cons first others =>
    simp only [AggregatesMatch]
    have h := FileListDel_loop_totals filename
      (if strcmp first.filename filename = 0 then others else first :: others) 0 0 0
    simp only [h]
    simp

theorem FileListAdd_match (mallocOk : Bool) (folder : RKADK_STR_FOLDER) (filename : CStr)
    (statbuf : stat) (hok : (RKADK_STORAGE_FileListAdd mallocOk folder filename statbuf).1 = 0) :
    AggregatesMatch (RKADK_STORAGE_FileListAdd mallocOk folder filename statbuf).2 := by
  unfold RKADK_STORAGE_FileListAdd at hok ⊢
  cases hfiles : folder.pstFileListFirst with
  | nil =>
    cases mallocOk
    · simp [hfiles] at hok
    · simpa using FileListAdd_finish_match _ _
  | cons first others =>
    simp only [hfiles] at hok ⊢
    rcases hu : FileListAdd_unlink filename statbuf (first :: others) with ⟨found, chain⟩
    rw [hu] at hok
    cases found with
    | some tmp_1 => exact FileListAdd_finish_match _ _
    | none =>
      cases mallocOk
      · simp at hok
      · simpa using FileListAdd_finish_match _ _

/-! ## The three phases of `RKADK_STORAGE_FileListAdd` on lists -/

/-- The test "this record is named `filename`". -/
theorem named_iff (f : RKADK_STR_FILE) (filename : CStr) :
    strcmp f.filename filename = 0 ↔ f.filename = filename :=
  strcmp_eq_zero_iff _ _

theorem FileListAdd_unlink_snd (filename : CStr) (statbuf : stat) (files : List RKADK_STR_FILE) :
    (FileListAdd_unlink filename statbuf files).2 =
      files.eraseP (fun f => decide (f.filename = filename)) := by
  induction files with
  | nil => simp [FileListAdd_unlink]
  | cons tmp rest ih =>
    by_cases h : tmp.filename = filename
    · simp [FileListAdd_unlink, named_iff, h, strcmp_self]
    · simp [FileListAdd_unlink, named_iff, h, ih, List.eraseP_cons]

theorem FileListAdd_unlink_fst (filename : CStr) (statbuf : stat) (files : List RKADK_STR_FILE) :
    (FileListAdd_unlink filename statbuf files).1 =
      (files.find? (fun f => decide (f.filename = filename))).map
        (fun f => FileListAdd_fill f statbuf) := by
  induction files with
  | nil => simp [FileListAdd_unlink]
  | cons tmp rest ih =>
    by_cases h : tmp.filename = filename
    · simp [FileListAdd_unlink, named_iff, h, strcmp_self]
    · simp [FileListAdd_unlink, named_iff, h, ih, List.find?_cons]

theorem FileListAdd_insert_eq (cond : RKADK_SORT_CONDITION) (tmp_1 : RKADK_STR_FILE)
    (files : List RKADK_STR_FILE) :
    FileListAdd_insert cond tmp_1 files =
      files.takeWhile (fun e => !RKADK_STORAGE_FileCompare e tmp_1 cond) ++
        tmp_1 :: files.dropWhile (fun e => !RKADK_STORAGE_FileCompare e tmp_1 cond) := by
  induction files with
  | nil => simp [FileListAdd_insert]
  | cons tmp rest ih =>
    by_cases h : RKADK_STORAGE_FileCompare tmp tmp_1 cond = true
    · simp [FileListAdd_insert, h, List.takeWhile_cons, List.dropWhile_cons]
    · simp [FileListAdd_insert, h, List.takeWhile_cons, List.dropWhile_cons, ih]

/-- What a call of `RKADK_STORAGE_FileListAdd` that returns 0 leaves behind: the record
`r` named `filename` and filled from `statbuf`, inserted into the old chain
without its first record of that name; the aggregates recomputed. -/
theorem FileListAdd_ok (mallocOk : Bool) (folder : RKADK_STR_FOLDER) (filename : CStr)
    (statbuf : stat) (hok : (RKADK_STORAGE_FileListAdd mallocOk folder filename statbuf).1 = 0) :
    ∃ r : RKADK_STR_FILE,
      r.filename = filename ∧ r.stSize = statbuf.st_size ∧
      r.stSpace = statbuf.st_blocks * 512 ∧ r.stTime = statbuf.st_mtime ∧
      (RKADK_STORAGE_FileListAdd mallocOk folder filename statbuf).2 =
        FileListAdd_finish folder (FileListAdd_insert folder.s32SortCond r
          (folder.pstFileListFirst.eraseP (fun f => decide (f.filename = filename)))) := by
  unfold RKADK_STORAGE_FileListAdd at hok ⊢
  cases hfiles : folder.pstFileListFirst with
  | nil =>
    cases mallocOk
    · simp [hfiles] at hok
    · exact ⟨FileListAdd_fresh filename statbuf, rfl, rfl, rfl, rfl, by simp [FileListAdd_insert]⟩
  | cons first others =>
    simp only [hfiles] at hok ⊢
    have h1 := FileListAdd_unlink_fst filename statbuf (first :: others)
    have h2 := FileListAdd_unlink_snd filename statbuf (first :: others)
    rcases hu : FileListAdd_unlink filename statbuf (first :: others) with ⟨found, chain⟩
    rw [hu] at hok h1 h2
    simp only at h1 h2
    subst h2
    cases found with
    | some tmp_1 =>
      refine ⟨tmp_1, ?_, ?_, ?_, ?_, rfl⟩ <;>
      · rcases hf : List.find? (fun f => decide (f.filename = filename)) (first :: others) with
          _ | g
        · rw [hf] at h1; simp at h1
        · rw [hf] at h1
          have hg := List.find?_some hf
          simp only [Option.map_some', Option.some.injEq] at h1
          subst h1
          simp only [decide_eq_true_eq] at hg
          simp [FileListAdd_fill, hg]
    | none =>
      cases mallocOk
      · simp at hok
      · exact ⟨FileListAdd_fresh filename statbuf, rfl, rfl, rfl, rfl, rfl⟩

/-- A call of `RKADK_STORAGE_FileListAdd` that does not return 0 changes nothing. -/
theorem FileListAdd_failed (mallocOk : Bool) (folder : RKADK_STR_FOLDER) (filename : CStr)
    (statbuf : stat) (hko : (RKADK_STORAGE_FileListAdd mallocOk folder filename statbuf).1 ≠ 0) :
    (RKADK_STORAGE_FileListAdd mallocOk folder filename statbuf).2 = folder := by
  unfold RKADK_STORAGE_FileListAdd at hko ⊢
  cases hfiles : folder.pstFileListFirst with
  | nil =>
    cases mallocOk
    · simp
    · simp [hfiles] at hko
  | cons first others =>
    simp only [hfiles] at hko ⊢
    rcases hu : FileListAdd_unlink filename statbuf (first :: others) with ⟨found, chain⟩
    rw [hu] at hko
    cases found with
    | some tmp_1 => simp at hko
    | none =>
      cases mallocOk
      · simp
      · simp at hko

/-! ## C1: the aggregates after a mutation -/

/-- C1: for every folder state (any chain of records, any stored aggregates), every
name and every stat, the folder left by `RKADK_STORAGE_FileListDel` and the folder
left by a call of `RKADK_STORAGE_FileListAdd` that returns 0 have `s32FileNum` equal
to the number of records, `totalSize` equal to the sum of the records' sizes and
`totalSpace` equal to the sum of the records' spaces. -/
theorem C1_aggregates_after_add_and_del (mallocOk : Bool) (folder : RKADK_STR_FOLDER)
    (filename : CStr) (statbuf : stat) :
    ((RKADK_STORAGE_FileListAdd mallocOk folder filename statbuf).1 = 0 →
      AggregatesMatch (RKADK_STORAGE_FileListAdd mallocOk folder filename statbuf).2) ∧
    AggregatesMatch (RKADK_STORAGE_FileListDel folder filename).2 :=
  ⟨FileListAdd_match mallocOk folder filename statbuf, FileListDel_match folder filename⟩

/-- C1 at a folder whose stored aggregates are wrong (7, 7, 7 for two records):
adding `b` and deleting `a` both leave matching aggregates. -/
theorem C1_aggregates_witness :
    (RKADK_STORAGE_FileListAdd true sampleStale [98] (sampleStat 200 1 30)).1 = 0 ∧
    AggregatesMatch (RKADK_STORAGE_FileListAdd true sampleStale [98] (sampleStat 200 1 30)).2 ∧
    AggregatesMatch (RKADK_STORAGE_FileListDel sampleStale [97]).2 ∧
    ¬ AggregatesMatch sampleStale :=
  ⟨by decide,
    (C1_aggregates_after_add_and_del true sampleStale [98] (sampleStat 200 1 30)).1 (by decide),
    (C1_aggregates_after_add_and_del true sampleStale [97] (sampleStat 200 1 30)).2,
    by decide⟩

/-! ## Order of the sort key -/

theorem KeyLe_trans (cond : RKADK_SORT_CONDITION) (a b c : RKADK_STR_FILE)
    (hab : KeyLe cond a b) (hbc : KeyLe cond b c) : KeyLe cond a c := by
  cases cond with
  | SORT_MODIFY_TIME => exact le_trans hab hbc
  | SORT_FILE_NAME => exact strcmp_le_trans _ _ _ hab hbc
  | SORT_BUTT => trivial

theorem KeyLe_of_compare (cond : RKADK_SORT_CONDITION) (e x : RKADK_STR_FILE)
    (h : RKADK_STORAGE_FileCompare e x cond = true) : KeyLe cond x e := by
  cases cond with
  | SORT_MODIFY_TIME => simpa [RKADK_STORAGE_FileCompare, KeyLe] using h
  | SORT_FILE_NAME => simpa [RKADK_STORAGE_FileCompare, KeyLe] using h
  | SORT_BUTT => trivial

theorem KeyLt_of_not_compare (cond : RKADK_SORT_CONDITION) (hkey : RealKey cond)
    (e x : RKADK_STR_FILE) (h : ¬ RKADK_STORAGE_FileCompare e x cond = true) :
    KeyLt cond e x := by
  cases cond with
  | SORT_MODIFY_TIME =>
    simp only [RKADK_STORAGE_FileCompare, decide_eq_true_eq, not_le] at h
    exact h
  | SORT_FILE_NAME =>
    simp only [RKADK_STORAGE_FileCompare, decide_eq_true_eq] at h
    exact strcmp_lt_of_not_le _ _ h
  | SORT_BUTT => rcases hkey with h | h <;> cases h

theorem KeyLe_of_KeyLt (cond : RKADK_SORT_CONDITION) (a b : RKADK_STR_FILE)
    (h : KeyLt cond a b) : KeyLe cond a b := by
  cases cond with
  | SORT_MODIFY_TIME => exact le_of_lt h
  | SORT_FILE_NAME => exact le_of_lt h
  | SORT_BUTT => trivial

theorem KeyLe_of_not_compare (cond : RKADK_SORT_CONDITION) (e x : RKADK_STR_FILE)
    (h : ¬ RKADK_STORAGE_FileCompare e x cond = true) : KeyLe cond e x := by
  cases cond with
  | SORT_MODIFY_TIME =>
    exact KeyLe_of_KeyLt _ _ _ (KeyLt_of_not_compare _ (Or.inl rfl) e x h)
  | SORT_FILE_NAME =>
    exact KeyLe_of_KeyLt _ _ _ (KeyLt_of_not_compare _ (Or.inr rfl) e x h)
  | SORT_BUTT => trivial

theorem AdjacentPairs_iff_chain (R : RKADK_STR_FILE → RKADK_STR_FILE → Prop)
    (files : List RKADK_STR_FILE) : AdjacentPairs R files ↔ List.Chain' R files := by
  induction files using list_two_step with
  | h0 => simp [AdjacentPairs]
  | h1 a => simp [AdjacentPairs]
  | h2 a b rest _ ih => simp [AdjacentPairs, ih, List.chain'_cons]

theorem sorted_iff_pairwise (cond : RKADK_SORT_CONDITION) (files : List RKADK_STR_FILE) :
    AdjacentPairs (KeyLe cond) files ↔ List.Pairwise (KeyLe cond) files := by
  haveI : IsTrans RKADK_STR_FILE (KeyLe cond) := ⟨KeyLe_trans cond⟩
  rw [AdjacentPairs_iff_chain]
  exact List.chain'_iff_pairwise

theorem FileListAdd_insert_perm (cond : RKADK_SORT_CONDITION) (tmp_1 : RKADK_STR_FILE)
    (files : List RKADK_STR_FILE) :
    (FileListAdd_insert cond tmp_1 files).Perm (tmp_1 :: files) := by
  rw [FileListAdd_insert_eq]
  refine List.perm_middle.trans ?_
  rw [List.takeWhile_append_dropWhile]

theorem FileListAdd_insert_pairwise (cond : RKADK_SORT_CONDITION) (tmp_1 : RKADK_STR_FILE)
    (files : List RKADK_STR_FILE) (h : List.Pairwise (KeyLe cond) files) :
    List.Pairwise (KeyLe cond) (FileListAdd_insert cond tmp_1 files) := by
  induction files with
  | nil => simp [FileListAdd_insert]
  | cons tmp rest ih =>
    rw [List.pairwise_cons] at h
    by_cases hc : RKADK_STORAGE_FileCompare tmp tmp_1 cond = true
    · simp only [FileListAdd_insert, hc, if_true]
      refine List.pairwise_cons.2 ⟨?_, List.pairwise_cons.2 h⟩
      intro y hy
      rcases List.mem_cons.1 hy with rfl | hy
      · exact KeyLe_of_compare _ _ _ hc
      · exact KeyLe_trans _ _ _ _ (KeyLe_of_compare _ _ _ hc) (h.1 y hy)
    · simp only [FileListAdd_insert, hc]
      refine List.pairwise_cons.2 ⟨?_, ih h.2⟩
      intro y hy
      rcases List.mem_cons.1 ((FileListAdd_insert_perm cond tmp_1 rest).mem_iff.1 hy) with
        rfl | hy
      · exact KeyLe_of_not_compare _ _ _ hc
      · exact h.1 y hy

theorem FileListDel_loop_sublist (filename : CStr) (files : List RKADK_STR_FILE)
    (acc : Int × Int × Int) : (FileListDel_loop filename files acc).1.Sublist files := by
  induction files using list_two_step generalizing acc with
  | h0 => simp [FileListDel_loop]
  | h1 tmp => obtain ⟨num, size, space⟩ := acc; simp [FileListDel_loop]
  | h2 tmp next rest ih1 ih2 =>
    obtain ⟨num, size, space⟩ := acc
    by_cases h : strcmp next.filename filename = 0
    · simp only [FileListDel_loop, h, if_true]
      exact ((ih1 _).cons next).cons₂ tmp
    · simp only [FileListDel_loop, h, if_false]
      exact (ih2 _).cons₂ tmp

theorem FileListDel_sublist (folder : RKADK_STR_FOLDER) (filename : CStr) :
    (RKADK_STORAGE_FileListDel folder filename).2.pstFileListFirst.Sublist
      folder.pstFileListFirst := by
  unfold RKADK_STORAGE_FileListDel
  cases hfiles : folder.pstFileListFirst with
  | nil => simp [hfiles]
  | cons first others =>
    dsimp only
    refine (FileListDel_loop_sublist filename _ _).trans ?_
    split
    · exact List.sublist_cons_self _ _
    · exact List.Sublist.refl _

theorem FileListDel_frame (folder : RKADK_STR_FOLDER) (filename : CStr) :
    (RKADK_STORAGE_FileListDel folder filename).2.s32SortCond = folder.s32SortCond ∧
    (RKADK_STORAGE_FileListDel folder filename).2.cpath = folder.cpath ∧
    (RKADK_STORAGE_FileListDel folder filename).2.wd = folder.wd := by
  unfold RKADK_STORAGE_FileListDel
  cases folder.pstFileListFirst <;> simp

theorem FileListAdd_frame (mallocOk : Bool) (folder : RKADK_STR_FOLDER) (filename : CStr)
    (statbuf : stat) :
    (RKADK_STORAGE_FileListAdd mallocOk folder filename statbuf).2.s32SortCond =
      folder.s32SortCond ∧
    (RKADK_STORAGE_FileListAdd mallocOk folder filename statbuf).2.cpath = folder.cpath ∧
    (RKADK_STORAGE_FileListAdd mallocOk folder filename statbuf).2.wd = folder.wd := by
  by_cases hok : (RKADK_STORAGE_FileListAdd mallocOk folder filename statbuf).1 = 0
  · obtain ⟨r, -, -, -, -, h⟩ := FileListAdd_ok mallocOk folder filename statbuf hok
    rw [h]; simp [FileListAdd_finish]
  · rw [FileListAdd_failed mallocOk folder filename statbuf hok]; simp

theorem FileListAdd_sorted (mallocOk : Bool) (folder : RKADK_STR_FOLDER) (filename : CStr)
    (statbuf : stat) (h : SortedIndex folder) :
    SortedIndex (RKADK_STORAGE_FileListAdd mallocOk folder filename statbuf).2 := by
  by_cases hok : (RKADK_STORAGE_FileListAdd mallocOk folder filename statbuf).1 = 0
  · obtain ⟨r, -, -, -, -, hr⟩ := FileListAdd_ok mallocOk folder filename statbuf hok
    rw [hr]
    unfold SortedIndex at h ⊢
    rw [sorted_iff_pairwise] at h
    simp only [FileListAdd_finish]
    rw [sorted_iff_pairwise]
    exact FileListAdd_insert_pairwise _ _ _ (h.sublist (List.eraseP_sublist _))
  · rw [FileListAdd_failed mallocOk folder filename statbuf hok]; exact h

theorem FileListDel_sorted (folder : RKADK_STR_FOLDER) (filename : CStr)
    (h : SortedIndex folder) : SortedIndex (RKADK_STORAGE_FileListDel folder filename).2 := by
  unfold SortedIndex at h ⊢
  rw [(FileListDel_frame folder filename).1]
  rw [sorted_iff_pairwise] at h ⊢
  exact h.sublist (FileListDel_sublist folder filename)

theorem Reachable_sorted (folder : RKADK_STR_FOLDER) (h : Reachable folder) :
    SortedIndex folder := by
  induction h with
  | empty cpath cond wd => simp [SortedIndex, emptyIndex, AdjacentPairs]
  | add mallocOk folder filename statbuf _ ih => exact FileListAdd_sorted _ _ _ _ ih
  | del folder filename _ ih => exact FileListDel_sorted _ _ ih

/-! ## C2: the chain stays sorted -/

/-- C2: for every folder whose sort key is the modification time or the file name:
if every adjacent pair (a, b) of its chain has `a.stTime <= b.stTime` (time key)
or `strcmp(a.filename, b.filename) <= 0` (name key), the same holds of the chain
after `RKADK_STORAGE_FileListAdd` (whatever it returns) and after
`RKADK_STORAGE_FileListDel`; hence every folder reached from an empty index by
adds and removes is sorted. -/
theorem C2_sorted_preserved (folder : RKADK_STR_FOLDER) (hkey : RealKey folder.s32SortCond) :
    (SortedIndex folder →
      ∀ (mallocOk : Bool) (filename : CStr) (statbuf : stat),
        SortedIndex (RKADK_STORAGE_FileListAdd mallocOk folder filename statbuf).2 ∧
        SortedIndex (RKADK_STORAGE_FileListDel folder filename).2) ∧
    (Reachable folder → SortedIndex folder) := by
  have _ := hkey
  exact ⟨fun h mallocOk filename statbuf =>
      ⟨FileListAdd_sorted mallocOk folder filename statbuf h, FileListDel_sorted folder filename h⟩,
    Reachable_sorted folder⟩

/-- C2 at the index holding `a`, `b`, `c` sorted by name: it is reachable and sorted,
and stays sorted when `b` is added again and when `a` is removed. -/
theorem C2_sorted_witness :
    RealKey sampleByName.s32SortCond ∧ SortedIndex sampleByName ∧ Reachable sampleByName ∧
    SortedIndex (RKADK_STORAGE_FileListAdd true sampleByName [98] (sampleStat 5 1 5)).2 ∧
    SortedIndex (RKADK_STORAGE_FileListDel sampleByName [97]).2 :=
  ⟨Or.inr rfl,
    (C2_sorted_preserved sampleByName (Or.inr rfl)).2
      (Reachable.add _ _ _ _ (Reachable.add _ _ _ _ (Reachable.add _ _ _ _
        (Reachable.empty [47] .SORT_FILE_NAME 1)))),
    Reachable.add _ _ _ _ (Reachable.add _ _ _ _ (Reachable.add _ _ _ _
      (Reachable.empty [47] .SORT_FILE_NAME 1))),
    ((C2_sorted_preserved sampleByName (Or.inr rfl)).1 (by decide) true [98]
      (sampleStat 5 1 5)).1,
    ((C2_sorted_preserved sampleByName (Or.inr rfl)).1 (by decide) true [97]
      (sampleStat 5 1 5)).2⟩

/-! ## C3: one record per name -/

theorem not_mem_names_eraseP (filename : CStr) (files : List RKADK_STR_FILE)
    (h : (files.map (·.filename)).Nodup) :
    filename ∉ (files.eraseP (fun f => decide (f.filename = filename))).map (·.filename) := by
  induction files with
  | nil => simp
  | cons tmp rest ih =>
    rw [List.map_cons, List.nodup_cons] at h
    by_cases hn : tmp.filename = filename
    · simp only [List.eraseP_cons, hn, decide_True, cond_true]
      rw [← hn]; exact h.1
    · simp only [List.eraseP_cons, hn, decide_False, cond_false, List.map_cons, List.mem_cons,
        not_or]
      exact ⟨fun e => hn e.symm, ih h.2⟩

theorem FileListAdd_unique (mallocOk : Bool) (folder : RKADK_STR_FOLDER) (filename : CStr)
    (statbuf : stat) (h : UniqueNames folder) :
    UniqueNames (RKADK_STORAGE_FileListAdd mallocOk folder filename statbuf).2 := by
  by_cases hok : (RKADK_STORAGE_FileListAdd mallocOk folder filename statbuf).1 = 0
  · obtain ⟨r, hname, -, -, -, hr⟩ := FileListAdd_ok mallocOk folder filename statbuf hok
    rw [hr]
    unfold UniqueNames at h ⊢
    simp only [FileListAdd_finish]
    rw [((FileListAdd_insert_perm _ _ _).map _).nodup_iff, List.map_cons, List.nodup_cons, hname]
    exact ⟨not_mem_names_eraseP filename _ h,
      h.sublist ((List.eraseP_sublist _).map _)⟩
  · rw [FileListAdd_failed mallocOk folder filename statbuf hok]; exact h

theorem FileListDel_unique (folder : RKADK_STR_FOLDER) (filename : CStr)
    (h : UniqueNames folder) : UniqueNames (RKADK_STORAGE_FileListDel folder filename).2 :=
  List.Nodup.sublist ((FileListDel_sublist folder filename).map _) h

theorem Reachable_unique (folder : RKADK_STR_FOLDER) (h : Reachable folder) :
    UniqueNames folder := by
  induction h with
  | empty cpath cond wd => simp [UniqueNames, emptyIndex]
  | add mallocOk folder filename statbuf _ ih => exact FileListAdd_unique _ _ _ _ ih
  | del folder filename _ ih => exact FileListDel_unique _ _ ih

/-- C3: every folder reached from an empty index by any sequence of calls of
`RKADK_STORAGE_FileListAdd` and `RKADK_STORAGE_FileListDel` holds at most one record per
file name: any two records of its chain at different positions have different
names. -/
theorem C3_one_record_per_name (folder : RKADK_STR_FOLDER) (h : Reachable folder) :
    UniqueNames folder ∧
    ∀ (i j : Nat) (a b : RKADK_STR_FILE), folder.pstFileListFirst.get? i = some a →
      folder.pstFileListFirst.get? j = some b → i ≠ j → strcmp a.filename b.filename ≠ 0 := by
  have hu := Reachable_unique folder h
  refine ⟨hu, ?_⟩
  intro i j a b hi hj hij hs
  rw [strcmp_eq_zero_iff] at hs
  unfold UniqueNames at hu
  rw [List.nodup_iff_injective_get] at hu
  have hi' := List.get?_eq_some.1 hi
  have hj' := List.get?_eq_some.1 hj
  obtain ⟨hil, hia⟩ := hi'
  obtain ⟨hjl, hjb⟩ := hj'
  have := @hu ⟨i, by simpa using hil⟩ ⟨j, by simpa using hjl⟩
    (by simp only [List.get_eq_getElem, List.getElem_map]
        simp only [List.get_eq_getElem] at hia hjb
        rw [hia, hjb, hs])
  exact hij (Fin.mk.inj this)

/-- C3 at the index built by adding `old`, `new`, then `old` again with a newer
time: it holds `new` and `old` once each. -/
theorem C3_one_record_witness :
    Reachable (RKADK_STORAGE_FileListAdd true sampleByTime [111] (sampleStat 10 1 300)).2 ∧
    UniqueNames (RKADK_STORAGE_FileListAdd true sampleByTime [111] (sampleStat 10 1 300)).2 ∧
    (RKADK_STORAGE_FileListAdd true sampleByTime [111]
      (sampleStat 10 1 300)).2.pstFileListFirst.map (·.filename) = [[110], [111]] :=
  ⟨Reachable.add _ _ _ _ (Reachable.add _ _ _ _ (Reachable.add _ _ _ _
      (Reachable.empty [47] .SORT_MODIFY_TIME 1))),
    (C3_one_record_per_name _ (Reachable.add _ _ _ _ (Reachable.add _ _ _ _
      (Reachable.add _ _ _ _ (Reachable.empty [47] .SORT_MODIFY_TIME 1))))).1,
    by decide⟩

/-! ## C4: adding the same name twice -/

theorem FileListAdd_returns_zero_of_mem (mallocOk : Bool) (folder : RKADK_STR_FOLDER)
    (filename : CStr) (statbuf : stat)
    (h : ∃ f ∈ folder.pstFileListFirst, f.filename = filename) :
    (RKADK_STORAGE_FileListAdd mallocOk folder filename statbuf).1 = 0 := by
  obtain ⟨f, hf, hname⟩ := h
  unfold RKADK_STORAGE_FileListAdd
  cases hfiles : folder.pstFileListFirst with
  | nil => rw [hfiles] at hf; cases hf
  | cons first others =>
    rw [hfiles] at hf
    have h1 := FileListAdd_unlink_fst filename statbuf (first :: others)
    rcases hu : FileListAdd_unlink filename statbuf (first :: others) with ⟨found, chain⟩
    rw [hu] at h1
    simp only [hu]
    cases found with
    | some tmp_1 => rfl
    | none =>
      exfalso
      simp only [Option.map_eq_none', eq_comm (a := none)] at h1
      have := List.find?_eq_none.1 h1 f hf
      simp [hname] at this

theorem dropWhile_after (cond : RKADK_SORT_CONDITION) (r : RKADK_STR_FILE)
    (files : List RKADK_STR_FILE) (h : List.Pairwise (KeyLe cond) files) :
    ∀ y ∈ files.dropWhile (fun e => !RKADK_STORAGE_FileCompare e r cond), KeyLe cond r y := by
  induction files with
  | nil => simp
  | cons tmp rest ih =>
    rw [List.pairwise_cons] at h
    by_cases hc : RKADK_STORAGE_FileCompare tmp r cond = true
    · intro y hy
      simp only [List.dropWhile_cons, hc, Bool.not_true] at hy
      rcases List.mem_cons.1 hy with rfl | hy
      · exact KeyLe_of_compare _ _ _ hc
      · exact KeyLe_trans _ _ _ _ (KeyLe_of_compare _ _ _ hc) (h.1 y hy)
    · intro y hy
      simp only [List.dropWhile_cons, hc, Bool.not_false, if_true] at hy
      exact ih h.2 y hy

theorem takeWhile_before (cond : RKADK_SORT_CONDITION) (hkey : RealKey cond)
    (r : RKADK_STR_FILE) (files : List RKADK_STR_FILE) :
    ∀ y ∈ files.takeWhile (fun e => !RKADK_STORAGE_FileCompare e r cond), KeyLt cond y r := by
  intro y hy
  have := List.mem_takeWhile_imp hy
  exact KeyLt_of_not_compare cond hkey y r (by simpa using this)

/-- The shape of the chain after a call of `RKADK_STORAGE_FileListAdd` that returns 0 on a
folder with one record per name and a sorted chain. -/
theorem FileListAdd_shape (mallocOk : Bool) (folder : RKADK_STR_FOLDER) (filename : CStr)
    (statbuf : stat) (hu : UniqueNames folder) (hs : SortedIndex folder)
    (hok : (RKADK_STORAGE_FileListAdd mallocOk folder filename statbuf).1 = 0) :
    ∃ (pre : List RKADK_STR_FILE) (r : RKADK_STR_FILE) (post : List RKADK_STR_FILE),
      (RKADK_STORAGE_FileListAdd mallocOk folder filename statbuf).2.pstFileListFirst =
        pre ++ r :: post ∧
      pre ++ post = folder.pstFileListFirst.eraseP (fun f => decide (f.filename = filename)) ∧
      r.filename = filename ∧ r.stSize = statbuf.st_size ∧
      r.stSpace = statbuf.st_blocks * 512 ∧ r.stTime = statbuf.st_mtime ∧
      (∀ f ∈ pre ++ post, f.filename ≠ filename) ∧
      (RealKey folder.s32SortCond → ∀ f ∈ pre, KeyLt folder.s32SortCond f r) ∧
      (∀ f ∈ post, KeyLe folder.s32SortCond r f) := by
  obtain ⟨r, hname, hsize, hspace, htime, hr⟩ :=
    FileListAdd_ok mallocOk folder filename statbuf hok
  refine ⟨List.takeWhile (fun e => !RKADK_STORAGE_FileCompare e r folder.s32SortCond)
      (folder.pstFileListFirst.eraseP (fun f => decide (f.filename = filename))), r,
    List.dropWhile (fun e => !RKADK_STORAGE_FileCompare e r folder.s32SortCond)
      (folder.pstFileListFirst.eraseP (fun f => decide (f.filename = filename))),
    ?_, List.takeWhile_append_dropWhile _ _, hname, hsize, hspace, htime, ?_, ?_, ?_⟩
  · rw [hr]; simp only [FileListAdd_finish]; exact FileListAdd_insert_eq _ _ _
  · intro f hf hfn
    rw [List.takeWhile_append_dropWhile] at hf
    have hmem : f.filename ∈ (folder.pstFileListFirst.eraseP
        (fun f => decide (f.filename = filename))).map (·.filename) :=
      List.mem_map_of_mem _ hf
    rw [hfn] at hmem
    exact not_mem_names_eraseP filename _ hu hmem
  · intro hkey; exact takeWhile_before _ hkey _ _
  · unfold SortedIndex at hs
    rw [sorted_iff_pairwise] at hs
    exact dropWhile_after _ _ _ (hs.sublist (List.eraseP_sublist _))

/-- C4: for every folder reached from an empty index by adds and removes, every name
and every stat and stat': when `RKADK_STORAGE_FileListAdd(name, stat)` returns 0, the
following `RKADK_STORAGE_FileListAdd(name, stat')` returns 0 too (whatever the
allocator would answer) and leaves a chain `pre ++ r :: post` in which `r` is the
only record named `name`; `r` carries the size, the space (`st_blocks * 512`)
and the time of stat'; the other records are those of the chain after the first
add, in their order; under a time or name key every record before `r` has a
strictly smaller key and every record after `r` a key at least that of `r`; and
`s32FileNum` is what it was after the first add. -/
theorem C4_add_same_name_twice (folder : RKADK_STR_FOLDER) (h : Reachable folder)
    (mallocOk mallocOk' : Bool) (filename : CStr) (statbuf statbuf' : stat)
    (hok : (RKADK_STORAGE_FileListAdd mallocOk folder filename statbuf).1 = 0) :
    (RKADK_STORAGE_FileListAdd mallocOk'
      (RKADK_STORAGE_FileListAdd mallocOk folder filename statbuf).2 filename statbuf').1 = 0 ∧
    (∃ (pre : List RKADK_STR_FILE) (r : RKADK_STR_FILE) (post : List RKADK_STR_FILE),
      (RKADK_STORAGE_FileListAdd mallocOk'
        (RKADK_STORAGE_FileListAdd mallocOk folder filename statbuf).2
        filename statbuf').2.pstFileListFirst = pre ++ r :: post ∧
      pre ++ post =
        (RKADK_STORAGE_FileListAdd mallocOk folder filename statbuf).2.pstFileListFirst.eraseP
          (fun f => decide (f.filename = filename)) ∧
      r.filename = filename ∧ r.stSize = statbuf'.st_size ∧
      r.stSpace = statbuf'.st_blocks * 512 ∧ r.stTime = statbuf'.st_mtime ∧
      (∀ f ∈ pre ++ post, f.filename ≠ filename) ∧
      (RealKey folder.s32SortCond → ∀ f ∈ pre, KeyLt folder.s32SortCond f r) ∧
      (∀ f ∈ post, KeyLe folder.s32SortCond r f)) ∧
    (RKADK_STORAGE_FileListAdd mallocOk'
      (RKADK_STORAGE_FileListAdd mallocOk folder filename statbuf).2 filename statbuf').2.s32FileNum =
      (RKADK_STORAGE_FileListAdd mallocOk folder filename statbuf).2.s32FileNum := by
  have hreach : Reachable (RKADK_STORAGE_FileListAdd mallocOk folder filename statbuf).2 :=
    Reachable.add _ _ _ _ h
  have hu := Reachable_unique _ hreach
  have hs := Reachable_sorted _ hreach
  have hagg := FileListAdd_match mallocOk folder filename statbuf hok
  have hcond := (FileListAdd_frame mallocOk folder filename statbuf).1
  -- the record of the first add is in the chain
  have hmem : ∃ f ∈ (RKADK_STORAGE_FileListAdd mallocOk folder filename
      statbuf).2.pstFileListFirst, f.filename = filename := by
    obtain ⟨r, hname, -, -, -, hr⟩ := FileListAdd_ok mallocOk folder filename statbuf hok
    refine ⟨r, ?_, hname⟩
    rw [hr]; simp only [FileListAdd_finish]
    exact (FileListAdd_insert_perm _ _ _).mem_iff.2 (List.mem_cons_self _ _)
  have hok' := FileListAdd_returns_zero_of_mem mallocOk' _ filename statbuf' hmem
  refine ⟨hok', ?_, ?_⟩
  · have := FileListAdd_shape mallocOk' _ filename statbuf' hu hs hok'
    rw [hcond] at this
    exact this
  · have hagg' := FileListAdd_match mallocOk' _ filename statbuf' hok'
    obtain ⟨r, -, -, -, -, hr⟩ := FileListAdd_ok mallocOk' _ filename statbuf' hok'
    rw [hagg'.1, hagg.1, hr]
    simp only [FileListAdd_finish]
    rw [(FileListAdd_insert_perm _ _ _).length_eq, List.length_cons]
    obtain ⟨f, hf, hname⟩ := hmem
    rw [List.length_eraseP_of_mem hf (by simpa using hname)]
    have : 0 < (RKADK_STORAGE_FileListAdd mallocOk folder filename
        statbuf).2.pstFileListFirst.length := List.length_pos_of_mem hf
    omega

/-- C4 at the index sorted by time holding `old` (time 100) and `new` (time 200):
`old` added again with time 100 and then with time 300 leaves `new`, `old` in
that order and the count unchanged, also when the allocator would fail. -/
theorem C4_add_same_name_twice_witness :
    Reachable sampleByTime ∧
    (RKADK_STORAGE_FileListAdd true sampleByTime [111] (sampleStat 10 1 100)).1 = 0 ∧
    (RKADK_STORAGE_FileListAdd false
      (RKADK_STORAGE_FileListAdd true sampleByTime [111] (sampleStat 10 1 100)).2
      [111] (sampleStat 10 1 300)).1 = 0 ∧
    (RKADK_STORAGE_FileListAdd false
      (RKADK_STORAGE_FileListAdd true sampleByTime [111] (sampleStat 10 1 100)).2
      [111] (sampleStat 10 1 300)).2.s32FileNum =
      (RKADK_STORAGE_FileListAdd true sampleByTime [111] (sampleStat 10 1 100)).2.s32FileNum ∧
    (RKADK_STORAGE_FileListAdd false
      (RKADK_STORAGE_FileListAdd true sampleByTime [111] (sampleStat 10 1 100)).2
      [111] (sampleStat 10 1 300)).2.pstFileListFirst.map (fun f => (f.filename, f.stTime)) =
      [([110], 200), ([111], 300)] :=
  ⟨Reachable.add _ _ _ _ (Reachable.add _ _ _ _ (Reachable.empty [47] .SORT_MODIFY_TIME 1)),
    by decide,
    (C4_add_same_name_twice sampleByTime
      (Reachable.add _ _ _ _ (Reachable.add _ _ _ _ (Reachable.empty [47] .SORT_MODIFY_TIME 1)))
      true false [111] (sampleStat 10 1 100) (sampleStat 10 1 300) (by decide)).1,
    (C4_add_same_name_twice sampleByTime
      (Reachable.add _ _ _ _ (Reachable.add _ _ _ _ (Reachable.empty [47] .SORT_MODIFY_TIME 1)))
      true false [111] (sampleStat 10 1 100) (sampleStat 10 1 300) (by decide)).2.2,
    by decide⟩

/-! ## C5: what `RKADK_STORAGE_FileListDel` removes -/

theorem folder_ext (a b : RKADK_STR_FOLDER) (h1 : a.cpath = b.cpath)
    (h2 : a.s32SortCond = b.s32SortCond) (h3 : a.wd = b.wd) (h4 : a.s32FileNum = b.s32FileNum)
    (h5 : a.totalSize = b.totalSize) (h6 : a.totalSpace = b.totalSpace)
    (h7 : a.pstFileListFirst = b.pstFileListFirst) : a = b := by
  cases a; cases b; simp_all

theorem folder_eq_of_files (a b : RKADK_STR_FOLDER) (h1 : a.cpath = b.cpath)
    (h2 : a.s32SortCond = b.s32SortCond) (h3 : a.wd = b.wd)
    (h7 : a.pstFileListFirst = b.pstFileListFirst)
    (ha : AggregatesMatch a) (hb : AggregatesMatch b) : a = b := by
  unfold AggregatesMatch at ha hb
  rw [h7] at ha
  exact folder_ext a b h1 h2 h3 (ha.1.trans hb.1.symm) (ha.2.1.trans hb.2.1.symm)
    (ha.2.2.trans hb.2.2.symm) h7

theorem unique_noAdjacent (filename : CStr) (files : List RKADK_STR_FILE)
    (h : (files.map (·.filename)).Nodup) : NoAdjacentPair filename files := by
  unfold NoAdjacentPair
  rw [AdjacentPairs_iff_chain]
  refine List.Pairwise.chain' ?_
  rw [List.Nodup, List.pairwise_map] at h
  exact h.imp (fun hab hn => hab (hn.1.trans hn.2.symm))

theorem FileListDel_loop_filter (filename : CStr) (files : List RKADK_STR_FILE)
    (acc : Int × Int × Int) (hhead : ∀ f, files.head? = some f → f.filename ≠ filename)
    (h : NoAdjacentPair filename files) :
    (FileListDel_loop filename files acc).1 =
      files.filter (fun f => decide (f.filename ≠ filename)) := by
  induction files using list_two_step generalizing acc with
  | h0 => simp [FileListDel_loop]
  | h1 tmp =>
    obtain ⟨num, size, space⟩ := acc
    have := hhead tmp rfl
    simp [FileListDel_loop, this]
  | h2 tmp next rest ih1 ih2 =>
    obtain ⟨num, size, space⟩ := acc
    have htmp := hhead tmp rfl
    have hrest : NoAdjacentPair filename (next :: rest) := h.2
    by_cases hn : next.filename = filename
    · have hs : strcmp next.filename filename = 0 := (named_iff _ _).2 hn
      simp only [FileListDel_loop, hs, if_true]
      rw [ih1]
      · simp [htmp, hn]
      · intro f hf
        cases rest with
        | nil => cases hf
        | cons r rest' =>
          simp only [List.head?_cons, Option.some.injEq] at hf
          subst hf
          intro hr
          exact hrest.1 ⟨hn, hr⟩
      · cases rest with
        | nil => trivial
        | cons r rest' => exact hrest.2
    · have hs : ¬ strcmp next.filename filename = 0 := fun e => hn ((named_iff _ _).1 e)
      simp only [FileListDel_loop, hs, if_false]
      rw [ih2]
      · simp [htmp, hn]
      · intro f hf
        simp only [List.head?_cons, Option.some.injEq] at hf
        subst hf; exact hn
      · exact hrest

theorem FileListDel_files (folder : RKADK_STR_FOLDER) (filename : CStr)
    (h : NoAdjacentPair filename folder.pstFileListFirst) :
    (RKADK_STORAGE_FileListDel folder filename).2.pstFileListFirst =
      folder.pstFileListFirst.filter (fun f => decide (f.filename ≠ filename)) := by
  unfold RKADK_STORAGE_FileListDel
  cases hfiles : folder.pstFileListFirst with
  | nil => simp [hfiles]
  | cons first others =>
    rw [hfiles] at h
    dsimp only
    by_cases hn : first.filename = filename
    · have hs : strcmp first.filename filename = 0 := (named_iff _ _).2 hn
      simp only [hs, if_true]
      rw [FileListDel_loop_filter]
      · simp [hn]
      · intro f hf
        cases others with
        | nil => cases hf
        | cons r rest' =>
          simp only [List.head?_cons, Option.some.injEq] at hf
          subst hf
          intro hr
          exact h.1 ⟨hn, hr⟩
      · cases others with
        | nil => trivial
        | cons r rest' => exact h.2
    · have hs : ¬ strcmp first.filename filename = 0 := fun e => hn ((named_iff _ _).1 e)
      simp only [hs, if_false]
      rw [FileListDel_loop_filter]
      · intro f hf
        simp only [List.head?_cons, Option.some.injEq] at hf
        subst hf; exact hn
      · exact h

theorem FileListDel_removes (folder : RKADK_STR_FOLDER) (filename : CStr)
    (h : UniqueNames folder ∨ NoAdjacentPair filename folder.pstFileListFirst) :
    (∀ f ∈ (RKADK_STORAGE_FileListDel folder filename).2.pstFileListFirst,
      f.filename ≠ filename) ∧
    (RKADK_STORAGE_FileListDel folder filename).2.pstFileListFirst =
      folder.pstFileListFirst.filter (fun f => decide (f.filename ≠ filename)) := by
  have h' : NoAdjacentPair filename folder.pstFileListFirst :=
    h.elim (unique_noAdjacent filename _) id
  have hf := FileListDel_files folder filename h'
  refine ⟨?_, hf⟩
  rw [hf]
  intro f hmem
  simpa using (List.mem_filter.1 hmem).2

/-- Every folder reached from an empty index has aggregates that match its records. -/
theorem Reachable_match (folder : RKADK_STR_FOLDER) (h : Reachable folder) :
    AggregatesMatch folder := by
  induction h with
  | empty cpath cond wd => simp [AggregatesMatch, emptyIndex]
  | add mallocOk folder filename statbuf _ ih =>
    by_cases hok : (RKADK_STORAGE_FileListAdd mallocOk folder filename statbuf).1 = 0
    · exact FileListAdd_match mallocOk folder filename statbuf hok
    · rw [FileListAdd_failed mallocOk folder filename statbuf hok]; exact ih
  | del folder filename _ ih => exact FileListDel_match folder filename

/-- C5: for every directory index (every folder reached from an empty index by calls
of `RKADK_STORAGE_FileListAdd` and `RKADK_STORAGE_FileListDel`) and every name, after
`RKADK_STORAGE_FileListDel(filename)` no record named `filename` remains, and the
records with other names remain, unchanged and in their previous order: the
chain is the old chain filtered on "name differs from `filename`". -/
theorem C5_del_removes_the_name (folder : RKADK_STR_FOLDER) (filename : CStr)
    (h : Reachable folder) :
    (∀ f ∈ (RKADK_STORAGE_FileListDel folder filename).2.pstFileListFirst,
      f.filename ≠ filename) ∧
    (RKADK_STORAGE_FileListDel folder filename).2.pstFileListFirst =
      folder.pstFileListFirst.filter (fun f => decide (f.filename ≠ filename)) :=
  FileListDel_removes folder filename (Or.inl (Reachable_unique folder h))

/-- C5 at the index holding `a`, `b`, `c`: removing `b` leaves `a`, `c`. -/
theorem C5_del_removes_the_name_witness :
    Reachable sampleByName ∧
    (∀ f ∈ (RKADK_STORAGE_FileListDel sampleByName [98]).2.pstFileListFirst,
      f.filename ≠ [98]) ∧
    (RKADK_STORAGE_FileListDel sampleByName [98]).2.pstFileListFirst =
      [sampleFile [97] 100 1 10, sampleFile [99] 300 3 30] :=
  ⟨Reachable.add _ _ _ _ (Reachable.add _ _ _ _ (Reachable.add _ _ _ _
      (Reachable.empty [47] .SORT_FILE_NAME 1))),
    (C5_del_removes_the_name sampleByName [98]
      (Reachable.add _ _ _ _ (Reachable.add _ _ _ _ (Reachable.add _ _ _ _
        (Reachable.empty [47] .SORT_FILE_NAME 1))))).1,
    by decide⟩

/-- A chain holding the name `a` twice in a row is not a directory index: no
sequence of adds and removes produces it. On such a chain
`RKADK_STORAGE_FileListDel` of `a` would unlink the head only. -/
theorem FileListDel_adjacent_pair_remains :
    ¬ Reachable sampleTwice ∧
    ¬ (∀ f ∈ (RKADK_STORAGE_FileListDel sampleTwice [97]).2.pstFileListFirst,
      f.filename ≠ [97]) :=
  ⟨fun h => absurd (Reachable_unique sampleTwice h) (by decide), by decide⟩

/-! ## C6: removing twice -/

theorem FileListDel_code (folder : RKADK_STR_FOLDER) (filename : CStr) :
    (RKADK_STORAGE_FileListDel folder filename).1 = 0 := by
  unfold RKADK_STORAGE_FileListDel
  cases folder.pstFileListFirst <;> rfl

theorem absent_noAdjacent (filename : CStr) (files : List RKADK_STR_FILE)
    (h : ∀ f ∈ files, f.filename ≠ filename) : NoAdjacentPair filename files := by
  unfold NoAdjacentPair
  rw [AdjacentPairs_iff_chain]
  refine List.Pairwise.chain' ?_
  rw [List.pairwise_iff_forall_sublist]
  intro a b hab hn
  exact h a (hab.subset (List.mem_cons_self _ _)) hn.1

/-- Removing a name that no record carries, from a folder whose aggregates match,
changes nothing. -/
theorem FileListDel_absent (folder : RKADK_STR_FOLDER) (filename : CStr)
    (habs : ∀ f ∈ folder.pstFileListFirst, f.filename ≠ filename)
    (hagg : AggregatesMatch folder) :
    RKADK_STORAGE_FileListDel folder filename = (0, folder) := by
  refine Prod.ext (FileListDel_code folder filename) ?_
  have hf := FileListDel_files folder filename (absent_noAdjacent filename _ habs)
  have hfr := FileListDel_frame folder filename
  refine folder_eq_of_files _ _ hfr.2.1 hfr.1 hfr.2.2 ?_ (FileListDel_match folder filename) hagg
  rw [hf, List.filter_eq_self]
  intro f hmem
  simpa using habs f hmem

/-- C6: for every directory index (every folder reached from an empty index by
calls of `RKADK_STORAGE_FileListAdd` and `RKADK_STORAGE_FileListDel`) and every name,
`RKADK_STORAGE_FileListDel(filename)` applied twice gives the same return code and the
same folder (records and aggregates) as applied once; and when no record is named
`filename`, one call leaves the folder, records and aggregates, as it was. -/
theorem C6_del_twice (folder : RKADK_STR_FOLDER) (filename : CStr) (h : Reachable folder) :
    RKADK_STORAGE_FileListDel (RKADK_STORAGE_FileListDel folder filename).2 filename =
      RKADK_STORAGE_FileListDel folder filename ∧
    ((∀ f ∈ folder.pstFileListFirst, f.filename ≠ filename) →
      (RKADK_STORAGE_FileListDel folder filename).2 = folder) := by
  constructor
  · have h1 := FileListDel_absent (RKADK_STORAGE_FileListDel folder filename).2 filename
      (FileListDel_removes folder filename (Or.inl (Reachable_unique folder h))).1
      (FileListDel_match folder filename)
    rw [h1]
    exact Prod.ext (FileListDel_code folder filename).symm rfl
  · intro habs
    rw [FileListDel_absent folder filename habs (Reachable_match folder h)]

/-- C6 at the index holding `a`, `b`, `c`: removing `b` twice is removing it once,
and removing the absent `z` changes nothing. -/
theorem C6_del_twice_witness :
    Reachable sampleByName ∧
    RKADK_STORAGE_FileListDel (RKADK_STORAGE_FileListDel sampleByName [98]).2 [98] =
      RKADK_STORAGE_FileListDel sampleByName [98] ∧
    (RKADK_STORAGE_FileListDel sampleByName [122]).2 = sampleByName :=
  ⟨Reachable.add _ _ _ _ (Reachable.add _ _ _ _ (Reachable.add _ _ _ _
      (Reachable.empty [47] .SORT_FILE_NAME 1))),
    (C6_del_twice sampleByName [98]
      (Reachable.add _ _ _ _ (Reachable.add _ _ _ _ (Reachable.add _ _ _ _
        (Reachable.empty [47] .SORT_FILE_NAME 1))))).1,
    (C6_del_twice sampleByName [122]
      (Reachable.add _ _ _ _ (Reachable.add _ _ _ _ (Reachable.add _ _ _ _
        (Reachable.empty [47] .SORT_FILE_NAME 1))))).2 (by decide)⟩

/-- A folder whose stored aggregates do not match its records is not a directory
index either; there a remove of an absent name would rewrite the aggregates. -/
theorem FileListDel_stale_aggregates :
    ¬ Reachable sampleStale ∧
    (∀ f ∈ sampleStale.pstFileListFirst, f.filename ≠ [122]) ∧
    (RKADK_STORAGE_FileListDel sampleStale [122]).2 ≠ sampleStale :=
  ⟨fun h => absurd (Reachable_match sampleStale h) (by decide), by decide, by decide⟩

/-! ## C7: add, then remove -/

/-- C7, amended: for every folder state that holds no record named `filename` and
whose aggregates match its chain, every stat and every answer of the allocator,
`RKADK_STORAGE_FileListDel(filename)` applied after
`RKADK_STORAGE_FileListAdd(filename, stat)` gives back the folder as it was: the same
records in the same order, the same `s32FileNum`, `totalSize` and `totalSpace`. -/
theorem C7_add_then_del (mallocOk : Bool) (folder : RKADK_STR_FOLDER) (filename : CStr)
    (statbuf : stat) (habs : ∀ f ∈ folder.pstFileListFirst, f.filename ≠ filename)
    (hagg : AggregatesMatch folder) :
    (RKADK_STORAGE_FileListDel
      (RKADK_STORAGE_FileListAdd mallocOk folder filename statbuf).2 filename).2 = folder := by
  by_cases hok : (RKADK_STORAGE_FileListAdd mallocOk folder filename statbuf).1 = 0
  · obtain ⟨r, hname, -, -, -, hr⟩ := FileListAdd_ok mallocOk folder filename statbuf hok
    have herase : folder.pstFileListFirst.eraseP (fun f => decide (f.filename = filename)) =
        folder.pstFileListFirst :=
      List.eraseP_of_forall_not (fun f hf => by simpa using habs f hf)
    rw [herase] at hr
    have hfiles : (RKADK_STORAGE_FileListAdd mallocOk folder filename statbuf).2.pstFileListFirst =
        FileListAdd_insert folder.s32SortCond r folder.pstFileListFirst := by
      rw [hr]; rfl
    have hadj : NoAdjacentPair filename
        (RKADK_STORAGE_FileListAdd mallocOk folder filename statbuf).2.pstFileListFirst := by
      rw [hfiles]
      unfold NoAdjacentPair
      rw [AdjacentPairs_iff_chain]
      refine List.Pairwise.chain' ?_
      have hsymm : Symmetric (fun a b : RKADK_STR_FILE =>
          ¬ (a.filename = filename ∧ b.filename = filename)) :=
        fun a b hab hn => hab ⟨hn.2, hn.1⟩
      rw [(FileListAdd_insert_perm _ _ _).pairwise_iff (fun {a b} hab => hsymm hab),
        List.pairwise_cons]
      refine ⟨fun f hf hn => habs f hf hn.2, ?_⟩
      rw [List.pairwise_iff_forall_sublist]
      intro a b hab hn
      exact habs a (hab.subset (List.mem_cons_self _ _)) hn.1
    have hdel := FileListDel_files _ filename hadj
    have hfrD := FileListDel_frame
      (RKADK_STORAGE_FileListAdd mallocOk folder filename statbuf).2 filename
    have hfrA := FileListAdd_frame mallocOk folder filename statbuf
    refine folder_eq_of_files _ _ (hfrD.2.1.trans hfrA.2.1) (hfrD.1.trans hfrA.1)
      (hfrD.2.2.trans hfrA.2.2) ?_ (FileListDel_match _ filename) hagg
    rw [hdel, hfiles, FileListAdd_insert_eq, List.filter_append, List.filter_cons]
    have hkeep : ∀ (l : List RKADK_STR_FILE), (∀ f ∈ l, f ∈ folder.pstFileListFirst) →
        l.filter (fun f => decide (f.filename ≠ filename)) = l := by
      intro l hl
      rw [List.filter_eq_self]
      intro f hf
      simpa using habs f (hl f hf)
    rw [hkeep _ (fun f hf => (List.takeWhile_sublist _).subset hf),
      hkeep _ (fun f hf => (List.dropWhile_sublist _).subset hf)]
    simp [hname]
  · rw [FileListAdd_failed mallocOk folder filename statbuf hok,
      FileListDel_absent folder filename habs hagg]

/-- C7 at the index holding `a`, `b`, `c`: adding `bb` and removing it gives the
index back. -/
theorem C7_add_then_del_witness :
    (∀ f ∈ sampleByName.pstFileListFirst, f.filename ≠ [98, 98]) ∧
    AggregatesMatch sampleByName ∧
    (RKADK_STORAGE_FileListDel
      (RKADK_STORAGE_FileListAdd true sampleByName [98, 98] (sampleStat 7 1 7)).2
      [98, 98]).2 = sampleByName :=
  ⟨by decide, by decide,
    C7_add_then_del true sampleByName [98, 98] (sampleStat 7 1 7) (by decide) (by decide)⟩

/-- C7 as stated fails: when the index already holds `a`, adding `a` updates the
record and removing `a` then deletes it, so the index is not the one before
the add; and on a folder whose stored aggregates do not match its records,
adding and removing the new name `z` leaves other aggregates than before. -/
theorem C7_counterexample :
    (RKADK_STORAGE_FileListDel
      (RKADK_STORAGE_FileListAdd true sampleByName [97] (sampleStat 100 1 10)).2 [97]).2 ≠
      sampleByName ∧
    (∀ f ∈ sampleStale.pstFileListFirst, f.filename ≠ [122]) ∧
    (RKADK_STORAGE_FileListDel
      (RKADK_STORAGE_FileListAdd true sampleStale [122] (sampleStat 100 1 10)).2 [122]).2 ≠
      sampleStale := by
  decide

/-! ## C8: where a record with an equal key goes -/

theorem KeyLt_not_KeyLe (cond : RKADK_SORT_CONDITION) (a b : RKADK_STR_FILE)
    (h : KeyLt cond a b) : ¬ KeyLe cond b a := by
  cases cond with
  | SORT_MODIFY_TIME => exact not_le.2 h
  | SORT_FILE_NAME =>
    intro hle
    have h' : strcmp a.filename b.filename < 0 := h
    have hle' : strcmp b.filename a.filename ≤ 0 := hle
    rw [strcmp_antisymm a.filename b.filename] at hle'
    omega
  | SORT_BUTT => exact h.elim

/-- C8, amended: for every folder with a time or name key whose chain is sorted,
and every name no record carries, a call of `RKADK_STORAGE_FileListAdd` that returns
0 leaves the chain `pre ++ r :: post`, where `pre ++ post` is the old chain (the
existing records keep their order), `r` is the new record, every record of `pre`
has a key strictly smaller than that of `r` and every record of `post` a key at
least that of `r`: the new record stands in front of all existing records with
an equal key, so ties are in reverse order of insertion. -/
theorem C8_equal_keys_go_in_front (mallocOk : Bool) (folder : RKADK_STR_FOLDER)
    (filename : CStr) (statbuf : stat) (hkey : RealKey folder.s32SortCond)
    (hs : SortedIndex folder) (hnew : ∀ f ∈ folder.pstFileListFirst, f.filename ≠ filename)
    (hok : (RKADK_STORAGE_FileListAdd mallocOk folder filename statbuf).1 = 0) :
    ∃ (pre : List RKADK_STR_FILE) (r : RKADK_STR_FILE) (post : List RKADK_STR_FILE),
      (RKADK_STORAGE_FileListAdd mallocOk folder filename statbuf).2.pstFileListFirst =
        pre ++ r :: post ∧
      pre ++ post = folder.pstFileListFirst ∧
      r.filename = filename ∧ r.stTime = statbuf.st_mtime ∧
      (∀ f ∈ pre, KeyLt folder.s32SortCond f r) ∧
      (∀ f ∈ pre, ¬ KeyLe folder.s32SortCond r f) ∧
      (∀ f ∈ post, KeyLe folder.s32SortCond r f) := by
  obtain ⟨r, hname, -, -, htime, hr⟩ := FileListAdd_ok mallocOk folder filename statbuf hok
  have herase : folder.pstFileListFirst.eraseP (fun f => decide (f.filename = filename)) =
      folder.pstFileListFirst :=
    List.eraseP_of_forall_not (fun f hf => by simpa using hnew f hf)
  rw [herase] at hr
  unfold SortedIndex at hs
  rw [sorted_iff_pairwise] at hs
  refine ⟨List.takeWhile (fun e => !RKADK_STORAGE_FileCompare e r folder.s32SortCond)
      folder.pstFileListFirst, r,
    List.dropWhile (fun e => !RKADK_STORAGE_FileCompare e r folder.s32SortCond)
      folder.pstFileListFirst,
    ?_, List.takeWhile_append_dropWhile _ _, hname, htime,
    takeWhile_before _ hkey _ _,
    fun f hf => KeyLt_not_KeyLe _ _ _ (takeWhile_before _ hkey _ _ f hf),
    dropWhile_after _ _ _ hs⟩
  rw [hr]; simp only [FileListAdd_finish]; exact FileListAdd_insert_eq _ _ _

/-- C8, amended, at the index sorted by time holding `old` (time 100) and `new`
(time 200): the new record `y` with time 100 is linked in front of `old`. -/
theorem C8_equal_keys_witness :
    RealKey sampleByTime.s32SortCond ∧ SortedIndex sampleByTime ∧
    (∀ f ∈ sampleByTime.pstFileListFirst, f.filename ≠ [121]) ∧
    (RKADK_STORAGE_FileListAdd true sampleByTime [121] (sampleStat 5 1 100)).1 = 0 ∧
    ∃ (pre : List RKADK_STR_FILE) (r : RKADK_STR_FILE) (post : List RKADK_STR_FILE),
      (RKADK_STORAGE_FileListAdd true sampleByTime [121]
        (sampleStat 5 1 100)).2.pstFileListFirst = pre ++ r :: post ∧
      pre ++ post = sampleByTime.pstFileListFirst ∧
      r.filename = [121] ∧ r.stTime = (sampleStat 5 1 100).st_mtime ∧
      (∀ f ∈ pre, KeyLt sampleByTime.s32SortCond f r) ∧
      (∀ f ∈ pre, ¬ KeyLe sampleByTime.s32SortCond r f) ∧
      (∀ f ∈ post, KeyLe sampleByTime.s32SortCond r f) :=
  ⟨by decide, by decide, by decide, by decide,
    C8_equal_keys_go_in_front true sampleByTime [121] (sampleStat 5 1 100)
      (by decide) (by decide) (by decide) (by decide)⟩

/-- C8 as stated fails: in the index sorted by time holding `old` (time 100) and
`new` (time 200), the new record `y` with time 100 is placed before `old`, the
existing record with the equal time: it is not true that no record after the
new one has its time. -/
theorem C8_counterexample :
    (RKADK_STORAGE_FileListAdd true sampleByTime [121]
      (sampleStat 5 1 100)).2.pstFileListFirst.map (fun f => (f.filename, f.stTime)) =
      [([121], 100), ([111], 100), ([110], 200)] ∧
    ¬ (∀ (pre : List RKADK_STR_FILE) (r : RKADK_STR_FILE) (post : List RKADK_STR_FILE),
        (RKADK_STORAGE_FileListAdd true sampleByTime [121]
          (sampleStat 5 1 100)).2.pstFileListFirst = pre ++ r :: post →
        r.filename = [121] → ∀ f ∈ post, f.stTime ≠ r.stTime) := by
  refine ⟨by decide, fun h => ?_⟩
  exact h [] (sampleFile [121] 5 1 100) [sampleFile [111] 10 1 100, sampleFile [110] 20 1 200]
    (by decide) rfl (sampleFile [111] 10 1 100) (List.mem_cons_self _ _) rfl

/-! ## C9: the array handed out by `RKADK_STORAGE_GetFileList` -/

theorem set_take_succ {α : Type} (file : List α) (k : Nat) (e : α) (h : k < file.length) :
    (file.set k e).take (k + 1) = file.take k ++ [e] := by
  rw [List.set_eq_take_append_cons_drop, if_pos h]
  have hl : (file.take k).length = k := by simp; omega
  rw [List.take_append_eq_append_take, hl]
  simp

theorem set_drop_self {α : Type} (file : List α) (k : Nat) (e : α) (h : k < file.length) :
    (file.set k e).drop k = e :: file.drop (k + 1) := by
  rw [List.set_eq_take_append_cons_drop, if_pos h]
  have hl : (file.take k).length = k := by simp; omega
  rw [List.drop_append_eq_append_drop, hl]
  simp

theorem GetFileList_entry_fit (maxPathLen : Nat) (tmp : RKADK_STR_FILE)
    (h : tmp.filename.length < maxPathLen) :
    GetFileList_entry maxPathLen tmp =
      { filename := tmp.filename, stSize := tmp.stSize, stTime := tmp.stTime } := by
  unfold GetFileList_entry
  have : ¬ tmp.filename.length > maxPathLen - 1 := by omega
  simp [this]

theorem GetFileList_ascending_eq (maxPathLen : Nat) (rest : List RKADK_STR_FILE) (k : Nat)
    (file : List RKADK_FILE_INFO) (hlen : file.length = k + rest.length) :
    GetFileList_ascending maxPathLen ((k + rest.length : Nat) : Int) (k : Int) rest file =
      file.take k ++ rest.map (GetFileList_entry maxPathLen) := by
  induction rest generalizing k file with
  | nil =>
    simp only [GetFileList_ascending, List.map_nil, List.append_nil]
    rw [List.take_of_length_le (by simp at hlen; omega)]
  | cons tmp rest ih =>
    have hlt : (k : Int) < ((k + (tmp :: rest).length : Nat) : Int) := by
      simp only [List.length_cons]; omega
    simp only [GetFileList_ascending, hlt, if_true, Int.toNat_ofNat]
    have hk : k < file.length := by simp only [List.length_cons] at hlen; omega
    have hn : ((k + (tmp :: rest).length : Nat) : Int) = ((k + 1 + rest.length : Nat) : Int) := by
      simp only [List.length_cons]; omega
    have hk1 : (k : Int) + 1 = ((k + 1 : Nat) : Int) := by omega
    rw [hn, hk1, ih (k + 1) _ (by simp only [List.length_set, List.length_cons] at hlen ⊢; omega),
      set_take_succ file k _ hk]
    simp

theorem GetFileList_descending_eq (maxPathLen : Nat) (rest : List RKADK_STR_FILE)
    (file : List RKADK_FILE_INFO) (hlen : rest.length ≤ file.length) :
    GetFileList_descending maxPathLen ((rest.length : Int) - 1) rest file =
      (rest.map (GetFileList_entry maxPathLen)).reverse ++ file.drop rest.length := by
  induction rest generalizing file with
  | nil => simp [GetFileList_descending]
  | cons tmp rest ih =>
    have hj : (((tmp :: rest).length : Nat) : Int) - 1 = (rest.length : Int) := by
      simp only [List.length_cons]; omega
    have hge : (rest.length : Int) ≥ 0 := by omega
    have hk : rest.length < file.length := by simp only [List.length_cons] at hlen; omega
    rw [hj]
    simp only [GetFileList_descending, hge, if_true, Int.toNat_ofNat]
    rw [ih _ (by simp only [List.length_set]; omega), set_drop_self file _ _ hk]
    simp

/-- C9: for every device state, every caller's list whose path is found, and the
folder found for it: when the folder's `s32FileNum` is the number of its records
(each name fitting its `RKADK_MAX_FILE_PATH_LEN` buffer) and the array can be
allocated, `RKADK_STORAGE_GetFileList` with `LIST_ASCENDING` returns 0 with
`s32FileNum` entries, the i-th being the name, size and time of the i-th record
of the chain, and with the other order it returns 0 with exactly the reverse of
that array. -/
theorem C9_list_ascending_descending (maxPathLen : Nat) (list : RKADK_FILE_LIST)
    (stDevSta : RKADK_STR_DEV_STA) (folder : RKADK_STR_FOLDER)
    (hfind : GetFileList_find list.path stDevSta.pstFolder = some folder)
    (hcount : folder.s32FileNum = folder.pstFileListFirst.length)
    (hfit : ∀ f ∈ folder.pstFileListFirst, f.filename.length < maxPathLen) :
    RKADK_STORAGE_GetFileList maxPathLen true list stDevSta .LIST_ASCENDING =
      (.done, { list with
                s32FileNum := folder.s32FileNum
                file := some (folder.pstFileListFirst.map
                  (fun f => { filename := f.filename, stSize := f.stSize, stTime := f.stTime })) }) ∧
    RKADK_STORAGE_GetFileList maxPathLen true list stDevSta .LIST_DESCENDING =
      (.done, { list with
                s32FileNum := folder.s32FileNum
                file := some (folder.pstFileListFirst.map
                  (fun f => { filename := f.filename, stSize := f.stSize,
                              stTime := f.stTime })).reverse }) ∧
    ((folder.pstFileListFirst.map
        (fun f => ({ filename := f.filename, stSize := f.stSize, stTime := f.stTime } :
          RKADK_FILE_INFO))).length : Int) = folder.s32FileNum ∧
    GetFileList_exit.done.code = 0 := by
  have hmap : folder.pstFileListFirst.map (GetFileList_entry maxPathLen) =
      folder.pstFileListFirst.map
        (fun f => { filename := f.filename, stSize := f.stSize, stTime := f.stTime }) :=
    List.map_congr_left (fun f hf => GetFileList_entry_fit maxPathLen f (hfit f hf))
  have hz : (GetFileList_zeroed folder.s32FileNum).length = folder.pstFileListFirst.length := by
    simp [GetFileList_zeroed, hcount]
  refine ⟨?_, ?_, by simp [hcount], rfl⟩
  · unfold RKADK_STORAGE_GetFileList
    simp only [hfind, if_true]
    have h := GetFileList_ascending_eq maxPathLen folder.pstFileListFirst 0
      (GetFileList_zeroed folder.s32FileNum) (by simpa using hz)
    simp only [Nat.zero_add, List.take_zero, List.nil_append, Nat.cast_zero] at h
    rw [hcount] at h ⊢
    rw [h, hmap]
  · unfold RKADK_STORAGE_GetFileList
    simp only [hfind, if_true]
    have h := GetFileList_descending_eq maxPathLen folder.pstFileListFirst
      (GetFileList_zeroed folder.s32FileNum) (le_of_eq hz.symm)
    rw [List.drop_of_length_le (le_of_eq hz), List.append_nil] at h
    rw [hcount] at h ⊢
    rw [h, hmap]

/-- C9 on a device with two folders, the second holding `a`, `b`, `c` (added as
`c`, `a`, `b`, sorted by name): the ascending list is `a`, `b`, `c` with their
sizes and times, the descending list its reverse. -/
theorem C9_list_witness :
    GetFileList_find (sampleList [47]).path
      (sampleDev [emptyIndex [47, 120] .SORT_FILE_NAME 2, sampleByName]).pstFolder =
      some sampleByName ∧
    sampleByName.s32FileNum = sampleByName.pstFileListFirst.length ∧
    (∀ f ∈ sampleByName.pstFileListFirst, f.filename.length < 256) ∧
    RKADK_STORAGE_GetFileList 256 true (sampleList [47])
      (sampleDev [emptyIndex [47, 120] .SORT_FILE_NAME 2, sampleByName]) .LIST_ASCENDING =
      (.done, { path := [47], s32FileNum := 3,
                file := some [{ filename := [97], stSize := 100, stTime := 10 },
                              { filename := [98], stSize := 200, stTime := 20 },
                              { filename := [99], stSize := 300, stTime := 30 }] }) ∧
    RKADK_STORAGE_GetFileList 256 true (sampleList [47])
      (sampleDev [emptyIndex [47, 120] .SORT_FILE_NAME 2, sampleByName]) .LIST_DESCENDING =
      (.done, { path := [47], s32FileNum := 3,
                file := some [{ filename := [99], stSize := 300, stTime := 30 },
                              { filename := [98], stSize := 200, stTime := 20 },
                              { filename := [97], stSize := 100, stTime := 10 }] }) :=
  ⟨by decide, by decide, by decide,
    (C9_list_ascending_descending 256 (sampleList [47])
      (sampleDev [emptyIndex [47, 120] .SORT_FILE_NAME 2, sampleByName]) sampleByName
      (by decide) (by decide) (by decide)).1,
    (C9_list_ascending_descending 256 (sampleList [47])
      (sampleDev [emptyIndex [47, 120] .SORT_FILE_NAME 2, sampleByName]) sampleByName
      (by decide) (by decide) (by decide)).2.1⟩

/-! ## C10: the path that is not a folder -/

theorem GetFileList_find_none_iff (path : CStr) (folders : List RKADK_STR_FOLDER) :
    GetFileList_find path folders = none ↔ ∀ folder ∈ folders, folder.cpath ≠ path := by
  induction folders with
  | nil => simp [GetFileList_find]
  | cons folder rest ih =>
    by_cases h : path = folder.cpath
    · simp [GetFileList_find, strcmp_eq_zero_iff, h]
    · have h' : ¬ folder.cpath = path := fun e => h e.symm
      simp [GetFileList_find, strcmp_eq_zero_iff, h, h', ih]

theorem GetFileList_notFound_iff (maxPathLen : Nat) (mallocOk : Bool) (list : RKADK_FILE_LIST)
    (stDevSta : RKADK_STR_DEV_STA) (sort : RKADK_SORT_TYPE) :
    RKADK_STORAGE_GetFileList maxPathLen mallocOk list stDevSta sort = (.noFolderFound, list) ↔
      ∀ folder ∈ stDevSta.pstFolder, folder.cpath ≠ list.path := by
  rw [← GetFileList_find_none_iff]
  unfold RKADK_STORAGE_GetFileList
  cases hfind : GetFileList_find list.path stDevSta.pstFolder with
  | none => simp
  | some folder => cases mallocOk <;> cases sort <;> simp

theorem GetFileList_code_iff (maxPathLen : Nat) (list : RKADK_FILE_LIST)
    (stDevSta : RKADK_STR_DEV_STA) (sort : RKADK_SORT_TYPE) :
    (RKADK_STORAGE_GetFileList maxPathLen true list stDevSta sort).1.code = -1 ↔
      ∀ folder ∈ stDevSta.pstFolder, folder.cpath ≠ list.path := by
  rw [← GetFileList_find_none_iff]
  unfold RKADK_STORAGE_GetFileList
  cases hfind : GetFileList_find list.path stDevSta.pstFolder with
  | none => simp [GetFileList_exit.code]
  | some folder => cases sort <;> simp [GetFileList_exit.code]

/-- C10: for every device state, every caller's list and both orders,
`RKADK_STORAGE_GetFileList` leaves by its "No folder found" exit (returning -1, the
caller's list untouched) exactly when the path asked for is the stored `cpath` of
no folder of the device state; when the array can be allocated this is the only
way it returns -1. With no folder at all it fails so for every path, and for the
folders as the scan thread sets them up the stored `cpath` of a folder is the
mount path followed by its configured relative path. -/
theorem C10_not_found (maxPathLen : Nat) (mallocOk : Bool) (list : RKADK_FILE_LIST)
    (stDevSta : RKADK_STR_DEV_STA) (sort : RKADK_SORT_TYPE) :
    (RKADK_STORAGE_GetFileList maxPathLen mallocOk list stDevSta sort = (.noFolderFound, list) ↔
      ∀ folder ∈ stDevSta.pstFolder, folder.cpath ≠ list.path) ∧
    GetFileList_exit.noFolderFound.code = -1 ∧
    ((RKADK_STORAGE_GetFileList maxPathLen true list stDevSta sort).1.code = -1 ↔
      ∀ folder ∈ stDevSta.pstFolder, folder.cpath ≠ list.path) ∧
    RKADK_STORAGE_GetFileList maxPathLen mallocOk list { stDevSta with pstFolder := [] } sort =
      (.noFolderFound, list) ∧
    ∀ (cMountPath : CStr) (attrs : List RKADK_STR_FOLDER_ATTR),
      (RKADK_STORAGE_GetFileList maxPathLen mallocOk list
          { stDevSta with pstFolder := attrs.map (FileScanThread_initFolder cMountPath) } sort =
          (.noFolderFound, list) ↔
        ∀ attr ∈ attrs, cMountPath ++ attr.cFolderPath ≠ list.path) := by
  refine ⟨GetFileList_notFound_iff _ _ _ _ _, rfl, GetFileList_code_iff _ _ _ _, ?_, ?_⟩
  · rw [GetFileList_notFound_iff]; simp
  · intro cMountPath attrs
    rw [GetFileList_notFound_iff]
    simp [FileScanThread_initFolder, emptyIndex]

/-- C10 on a device with the folders `/x` and `/`: the path `/y` is not found, the
path `/` is found; and with no folder the path `/` is not found. -/
theorem C10_not_found_witness :
    RKADK_STORAGE_GetFileList 256 true (sampleList [47, 121])
      (sampleDev [emptyIndex [47, 120] .SORT_FILE_NAME 2, sampleByName]) .LIST_ASCENDING =
      (.noFolderFound, sampleList [47, 121]) ∧
    (RKADK_STORAGE_GetFileList 256 true (sampleList [47])
      (sampleDev [emptyIndex [47, 120] .SORT_FILE_NAME 2, sampleByName]) .LIST_ASCENDING).1 =
      .done ∧
    RKADK_STORAGE_GetFileList 256 true (sampleList [47]) (sampleDev []) .LIST_ASCENDING =
      (.noFolderFound, sampleList [47]) :=
  ⟨(C10_not_found 256 true (sampleList [47, 121])
      (sampleDev [emptyIndex [47, 120] .SORT_FILE_NAME 2, sampleByName]) .LIST_ASCENDING).1.2
      (by decide),
    by decide,
    (C10_not_found 256 true (sampleList [47]) (sampleDev []) .LIST_ASCENDING).2.2.2.1⟩

/-! ## The retention tick -/

theorem FileScanThread_limit_some (attr : RKADK_STR_FOLDER_ATTR) (folder : RKADK_STR_FOLDER)
    (totalSpace : Int) (h : totalSpace ≠ 0) :
    ∃ limit, FileScanThread_limit attr folder totalSpace = some limit := by
  unfold FileScanThread_limit
  by_cases hb : attr.bNumLimit = false
  · simp [hb, h]
  · simp [hb]

theorem FileScanThread_victim_some (attr : RKADK_STR_FOLDER_ATTR) (folder : RKADK_STR_FOLDER)
    (totalSpace : Int) (h : totalSpace ≠ 0) :
    ∃ v, FileScanThread_victim attr folder totalSpace = some v := by
  obtain ⟨limit, hl⟩ := FileScanThread_limit_some attr folder totalSpace h
  unfold FileScanThread_victim
  rw [hl]
  dsimp only
  split
  · cases folder.pstFileListFirst <;> simp
  · simp

/-- The record whose file is removed is the head of the chain. -/
theorem FileScanThread_victim_head (attr : RKADK_STR_FOLDER_ATTR) (folder : RKADK_STR_FOLDER)
    (totalSpace : Int) (first : RKADK_STR_FILE)
    (h : FileScanThread_victim attr folder totalSpace = some (some first)) :
    folder.pstFileListFirst.head? = some first := by
  unfold FileScanThread_victim at h
  cases hl : FileScanThread_limit attr folder totalSpace with
  | none => rw [hl] at h; simp at h
  | some limit =>
    rw [hl] at h
    dsimp only at h
    split at h
    · cases hfiles : folder.pstFileListFirst with
      | nil => rw [hfiles] at h; simp at h
      | cons a rest =>
        rw [hfiles] at h
        simp only [Option.some.injEq] at h
        simp [h]
    · simp at h

theorem FileScanThread_scan_zero (cMountPath : CStr) (attrs : List RKADK_STR_FOLDER_ATTR)
    (folders : List RKADK_STR_FOLDER) (cnt : Int) :
    FileScanThread_scan cMountPath 0 attrs folders cnt = some ([], cnt) := by
  cases attrs <;> cases folders <;> simp [FileScanThread_scan]

/-- With a sum that is not 0 the second loop visits every configured directory:
it removes one file for each directory whose decision says so, in order. -/
theorem FileScanThread_scan_eq (cMountPath : CStr) (totalSpace : Int) (h : totalSpace ≠ 0)
    (attrs : List RKADK_STR_FOLDER_ATTR) (folders : List RKADK_STR_FOLDER) (cnt : Int) :
    ∃ cnt', FileScanThread_scan cMountPath totalSpace attrs folders cnt =
        some ((List.zip attrs folders).filterMap
          (fun p => FileScanThread_removedFile cMountPath totalSpace p.1 p.2), cnt') ∧
      ((List.zip attrs folders).filterMap
          (fun p => FileScanThread_removedFile cMountPath totalSpace p.1 p.2) = [] → cnt' = cnt) ∧
      ((List.zip attrs folders).filterMap
          (fun p => FileScanThread_removedFile cMountPath totalSpace p.1 p.2) ≠ [] → cnt' = 51) := by
  induction attrs generalizing folders cnt with
  | nil => exact ⟨cnt, by simp [FileScanThread_scan]⟩
  | cons attr attrs ih =>
    cases folders with
    | nil => exact ⟨cnt, by simp [FileScanThread_scan]⟩
    | cons folder folders =>
      obtain ⟨v, hv⟩ := FileScanThread_victim_some attr folder totalSpace h
      cases v with
      | none =>
        obtain ⟨cnt', h1, h2, h3⟩ := ih folders cnt
        refine ⟨cnt', ?_, ?_, ?_⟩
        · simp [FileScanThread_scan, h, hv, h1, FileScanThread_removedFile]
        · simpa [FileScanThread_removedFile, hv] using h2
        · simpa [FileScanThread_removedFile, hv] using h3
      | some first =>
        obtain ⟨cnt', h1, h2, h3⟩ := ih folders 51
        refine ⟨cnt', ?_, ?_, ?_⟩
        · simp [FileScanThread_scan, h, hv, h1, FileScanThread_removedFile]
        · simp [FileScanThread_removedFile, hv]
        · intro _
          by_cases hnil : (List.zip attrs folders).filterMap
              (fun p => FileScanThread_removedFile cMountPath totalSpace p.1 p.2) = []
          · exact h2 hnil
          · exact h3 hnil

theorem KeyLe_refl (cond : RKADK_SORT_CONDITION) (a : RKADK_STR_FILE) : KeyLe cond a a := by
  cases cond with
  | SORT_MODIFY_TIME => exact le_refl _
  | SORT_FILE_NAME => exact le_of_eq (strcmp_self _)
  | SORT_BUTT => trivial

/-- In a sorted chain the head is a least record. -/
theorem head_least (folder : RKADK_STR_FOLDER) (first : RKADK_STR_FILE)
    (hs : SortedIndex folder) (hh : folder.pstFileListFirst.head? = some first) :
    ∀ f ∈ folder.pstFileListFirst, KeyLe folder.s32SortCond first f := by
  unfold SortedIndex at hs
  rw [sorted_iff_pairwise] at hs
  cases hfiles : folder.pstFileListFirst with
  | nil => rw [hfiles] at hh; simp at hh
  | cons a rest =>
    rw [hfiles] at hh hs
    simp only [List.head?_cons, Option.some.injEq] at hh
    subst hh
    intro f hf
    rcases List.mem_cons.1 hf with rfl | hf
    · exact KeyLe_refl _ _
    · exact (List.pairwise_cons.1 hs).1 f hf

/-! ## C11: the file the retention loop deletes -/

/-- C11: for every folder reached from an empty index by adds and removes, whenever
the retention loop decides to delete from that directory, the file it hands to
`remove` is `cMountPath`, `cFolderPath` and the name of the first record of the
chain, and that record is least under the folder's sort key: no record of the
chain has an earlier `stTime` (time key) or a name that `strcmp` puts before it
(name key). -/
theorem C11_deleted_file_is_least_head (cMountPath : CStr) (attr : RKADK_STR_FOLDER_ATTR)
    (folder : RKADK_STR_FOLDER) (totalSpace : Int) (first : RKADK_STR_FILE)
    (h : Reachable folder)
    (hv : FileScanThread_victim attr folder totalSpace = some (some first)) :
    folder.pstFileListFirst.head? = some first ∧
    FileScanThread_removedFile cMountPath totalSpace attr folder =
      some (cMountPath ++ attr.cFolderPath ++ first.filename) ∧
    (∀ f ∈ folder.pstFileListFirst, KeyLe folder.s32SortCond first f) ∧
    (folder.s32SortCond = .SORT_MODIFY_TIME →
      ∀ f ∈ folder.pstFileListFirst, ¬ f.stTime < first.stTime) ∧
    (folder.s32SortCond = .SORT_FILE_NAME →
      ∀ f ∈ folder.pstFileListFirst, ¬ strcmp f.filename first.filename < 0) := by
  have hh := FileScanThread_victim_head attr folder totalSpace first hv
  have hl := head_least folder first (Reachable_sorted folder h) hh
  refine ⟨hh, by simp [FileScanThread_removedFile, hv, FileScanThread_file], hl, ?_, ?_⟩
  · intro hc f hf
    have := hl f hf
    rw [hc] at this
    exact not_lt.2 this
  · intro hc f hf
    have := hl f hf
    rw [hc] at this
    have h1 : strcmp first.filename f.filename ≤ 0 := this
    rw [strcmp_antisymm first.filename f.filename]
    omega

/-- C11 at the index holding `a`, `b`, `c` sorted by name, limited to 2 files:
the file removed is `/m/a/a`, the file of the head record `a`. -/
theorem C11_deleted_file_witness :
    Reachable sampleByName ∧
    FileScanThread_victim (sampleAttrCount 2) sampleByName 3072 =
      some (some (sampleFile [97] 100 1 10)) ∧
    sampleByName.pstFileListFirst.head? = some (sampleFile [97] 100 1 10) ∧
    FileScanThread_removedFile [47, 109] 3072 (sampleAttrCount 2) sampleByName =
      some [47, 109, 47, 97, 47, 97] :=
  ⟨Reachable.add _ _ _ _ (Reachable.add _ _ _ _ (Reachable.add _ _ _ _
      (Reachable.empty [47] .SORT_FILE_NAME 1))),
    by decide,
    (C11_deleted_file_is_least_head [47, 109] (sampleAttrCount 2) sampleByName 3072
      (sampleFile [97] 100 1 10)
      (Reachable.add _ _ _ _ (Reachable.add _ _ _ _ (Reachable.add _ _ _ _
        (Reachable.empty [47] .SORT_FILE_NAME 1)))) (by decide)).1,
    (C11_deleted_file_is_least_head [47, 109] (sampleAttrCount 2) sampleByName 3072
      (sampleFile [97] 100 1 10)
      (Reachable.add _ _ _ _ (Reachable.add _ _ _ _ (Reachable.add _ _ _ _
        (Reachable.empty [47] .SORT_FILE_NAME 1)))) (by decide)).2.1⟩

/-! ## C12: how many files one tick deletes -/

theorem FileScanThread_retention_armed (devAttr : RKADK_STR_DEV_ATTR)
    (folders : List RKADK_STR_FOLDER) (harmed : devAttr.s32AutoDel ≠ 0) :
    ∃ (files : List CStr) (cnt : Int),
      FileScanThread_retention devAttr folders = some (files, cnt) ∧
      (FileScanThread_totalSpace devAttr.pstFolderAttr folders 0 ≠ 0 →
        files = (List.zip devAttr.pstFolderAttr folders).filterMap
          (fun p => FileScanThread_removedFile devAttr.cMountPath
            (FileScanThread_totalSpace devAttr.pstFolderAttr folders 0) p.1 p.2)) ∧
      (FileScanThread_totalSpace devAttr.pstFolderAttr folders 0 = 0 → files = []) ∧
      files.length ≤ devAttr.pstFolderAttr.length ∧ files.length ≤ folders.length ∧
      (files = [] → cnt = 0) ∧ (files ≠ [] → cnt = 51) := by
  unfold FileScanThread_retention
  simp only [harmed, ne_eq, not_false_eq_true, if_true]
  by_cases hz : FileScanThread_totalSpace devAttr.pstFolderAttr folders 0 = 0
  · rw [hz, FileScanThread_scan_zero]
    exact ⟨[], 0, rfl, fun h => absurd rfl h, fun _ => rfl, by simp, by simp,
      fun _ => rfl, fun h => absurd rfl h⟩
  · obtain ⟨cnt', h1, h2, h3⟩ := FileScanThread_scan_eq devAttr.cMountPath _ hz
      devAttr.pstFolderAttr folders 0
    refine ⟨_, cnt', h1, fun _ => rfl, fun h => absurd h hz, ?_, ?_, h2, h3⟩
    · refine (List.length_filterMap_le _ _).trans ?_
      rw [List.length_zip]; exact min_le_left _ _
    · refine (List.length_filterMap_le _ _).trans ?_
      rw [List.length_zip]; exact min_le_right _ _

/-- C12, amended: for every armed action tick and every configuration of
directories, at most one file is deleted per directory in that tick, not one
over all directories: when the sum of the directories' `totalSpace` is not 0 the
directories are examined in configured order and every directory whose computed
limit exceeds its `s32Limit` and whose chain is not empty has its head file
removed (`continue` goes on with the next directory); when the sum is 0 nothing
is removed. After a tick that removed a file `cnt` is 51, so the next tick
follows at once. -/
theorem C12_one_file_per_directory (devAttr : RKADK_STR_DEV_ATTR)
    (folders : List RKADK_STR_FOLDER) (harmed : devAttr.s32AutoDel ≠ 0) :
    ∃ (files : List CStr) (cnt : Int),
      FileScanThread_retention devAttr folders = some (files, cnt) ∧
      (FileScanThread_totalSpace devAttr.pstFolderAttr folders 0 ≠ 0 →
        files = (List.zip devAttr.pstFolderAttr folders).filterMap
          (fun p => FileScanThread_removedFile devAttr.cMountPath
            (FileScanThread_totalSpace devAttr.pstFolderAttr folders 0) p.1 p.2)) ∧
      (FileScanThread_totalSpace devAttr.pstFolderAttr folders 0 = 0 → files = []) ∧
      files.length ≤ devAttr.pstFolderAttr.length ∧ files.length ≤ folders.length ∧
      (files = [] → cnt = 0) ∧ (files ≠ [] → cnt = 51) :=
  FileScanThread_retention_armed devAttr folders harmed

/-- C12, amended, on two directories, the first limited to 2 files and holding 3,
the second limited to a share of 50 percent and holding 25 percent: the tick
removes the head file of the first directory only. -/
theorem C12_one_file_witness :
    (sampleDevAttr [sampleAttrCount 2, sampleAttrShare 50]).s32AutoDel ≠ 0 ∧
    FileScanThread_retention (sampleDevAttr [sampleAttrCount 2, sampleAttrShare 50])
      [sampleByName, sampleByTime] = some ([[47, 109, 47, 97, 47, 97]], 51) ∧
    ∃ (files : List CStr) (cnt : Int),
      FileScanThread_retention (sampleDevAttr [sampleAttrCount 2, sampleAttrShare 50])
        [sampleByName, sampleByTime] = some (files, cnt) ∧
      files.length ≤ [sampleByName, sampleByTime].length :=
  ⟨by decide, by decide,
    (C12_one_file_per_directory (sampleDevAttr [sampleAttrCount 2, sampleAttrShare 50])
      [sampleByName, sampleByTime] (by decide)).imp
      (fun _ h => h.imp (fun _ h' => ⟨h'.1, h'.2.2.2.2.1⟩))⟩

/-- C12 as stated fails: with the first directory limited to 2 files and holding 3
and the second limited to a share of 20 percent and holding 25 percent, one
armed tick removes two files, the head file of each directory. -/
theorem C12_counterexample :
    FileScanThread_retention (sampleDevAttr [sampleAttrCount 2, sampleAttrShare 20])
      [sampleByName, sampleByTime] =
      some ([[47, 109, 47, 97, 47, 97], [47, 109, 47, 98, 47, 111]], 51) := by
  decide

/-! ## C15: the sum of the spaces is 0 -/

theorem FileScanThread_retention_zero (devAttr : RKADK_STR_DEV_ATTR)
    (folders : List RKADK_STR_FOLDER)
    (hz : FileScanThread_totalSpace devAttr.pstFolderAttr folders 0 = 0) :
    FileScanThread_retention devAttr folders = some ([], 0) := by
  unfold FileScanThread_retention
  split
  · rw [hz, FileScanThread_scan_zero]
  · rfl

theorem FileScanThread_retention_some (devAttr : RKADK_STR_DEV_ATTR)
    (folders : List RKADK_STR_FOLDER) : FileScanThread_retention devAttr folders ≠ none := by
  by_cases harmed : devAttr.s32AutoDel ≠ 0
  · obtain ⟨files, cnt, h, -⟩ := FileScanThread_retention_armed devAttr folders harmed
    rw [h]; simp
  · unfold FileScanThread_retention
    simp [harmed]

/-- C15: for every action tick in which the sum of `totalSpace` over the
directories is 0, armed or not, no file is removed and `cnt` stays 0; and in no
tick at all is the share `totalSpace * 100 / totalSpace` computed with the
divisor 0 (the tick never ends in the model's division-by-zero outcome). -/
theorem C15_zero_sum_deletes_nothing (devAttr : RKADK_STR_DEV_ATTR)
    (folders : List RKADK_STR_FOLDER) :
    (FileScanThread_totalSpace devAttr.pstFolderAttr folders 0 = 0 →
      FileScanThread_retention devAttr folders = some ([], 0)) ∧
    FileScanThread_retention devAttr folders ≠ none :=
  ⟨FileScanThread_retention_zero devAttr folders, FileScanThread_retention_some devAttr folders⟩

/-- C15 on one directory limited by share holding five empty files: the sum is 0
and the armed tick removes nothing. -/
theorem C15_zero_sum_witness :
    FileScanThread_totalSpace (sampleDevAttr [sampleAttrShare 50]).pstFolderAttr
      [sampleEmptyFiles] 0 = 0 ∧
    (sampleDevAttr [sampleAttrShare 50]).s32AutoDel ≠ 0 ∧
    FileScanThread_retention (sampleDevAttr [sampleAttrShare 50]) [sampleEmptyFiles] =
      some ([], 0) :=
  ⟨by decide, by decide,
    (C15_zero_sum_deletes_nothing (sampleDevAttr [sampleAttrShare 50]) [sampleEmptyFiles]).1
      (by decide)⟩

/-! ## C13: the hysteresis of the armed flag -/

theorem toS32_of_range (x : Int) (h1 : -2 ^ 31 ≤ x) (h2 : x < 2 ^ 31) : toS32 x = x := by
  unfold toS32
  rw [Int.emod_eq_of_lt (by omega) (by omega)]
  omega

theorem FileScanThread_autoDel_frame (devAttr : RKADK_STR_DEV_ATTR) (s32FreeSize : Int) :
    (FileScanThread_autoDel devAttr s32FreeSize).cMountPath = devAttr.cMountPath ∧
    (FileScanThread_autoDel devAttr s32FreeSize).s32FreeSizeDelMin = devAttr.s32FreeSizeDelMin ∧
    (FileScanThread_autoDel devAttr s32FreeSize).s32FreeSizeDelMax = devAttr.s32FreeSizeDelMax ∧
    (FileScanThread_autoDel devAttr s32FreeSize).pstFolderAttr = devAttr.pstFolderAttr := by
  unfold FileScanThread_autoDel
  dsimp only
  split <;> split <;> simp

theorem FileScanThread_autoDel_step (devAttr : RKADK_STR_DEV_ATTR) (s32FreeSize : Int)
    (hlt : devAttr.s32FreeSizeDelMin < devAttr.s32FreeSizeDelMax)
    (hmin : -2 ^ 31 ≤ devAttr.s32FreeSizeDelMin * 1024 ∧
      devAttr.s32FreeSizeDelMin * 1024 < 2 ^ 31)
    (hmax : -2 ^ 31 ≤ devAttr.s32FreeSizeDelMax * 1024 ∧
      devAttr.s32FreeSizeDelMax * 1024 < 2 ^ 31) :
    (s32FreeSize ≤ devAttr.s32FreeSizeDelMin * 1024 →
      (FileScanThread_autoDel devAttr s32FreeSize).s32AutoDel = 1) ∧
    (s32FreeSize ≥ devAttr.s32FreeSizeDelMax * 1024 →
      (FileScanThread_autoDel devAttr s32FreeSize).s32AutoDel = 0) ∧
    (devAttr.s32AutoDel ≠ 0 → s32FreeSize < devAttr.s32FreeSizeDelMax * 1024 →
      (FileScanThread_autoDel devAttr s32FreeSize).s32AutoDel ≠ 0) ∧
    (devAttr.s32AutoDel = 0 → s32FreeSize > devAttr.s32FreeSizeDelMin * 1024 →
      (FileScanThread_autoDel devAttr s32FreeSize).s32AutoDel = 0) := by
  unfold FileScanThread_autoDel
  rw [toS32_of_range _ hmin.1 hmin.2, toS32_of_range _ hmax.1 hmax.2]
  dsimp only
  refine ⟨?_, ?_, ?_, ?_⟩
  · intro h
    have h2 : ¬ s32FreeSize ≥ devAttr.s32FreeSizeDelMax * 1024 := by omega
    simp [h, h2]
  · intro h
    simp [h]
  · intro ha h
    have h2 : ¬ s32FreeSize ≥ devAttr.s32FreeSizeDelMax * 1024 := by omega
    simp only [h2, if_false]
    split
    · simp
    · exact ha
  · intro ha h
    have h1 : ¬ s32FreeSize ≤ devAttr.s32FreeSizeDelMin * 1024 := by omega
    simp only [h1, if_false]
    split
    · rfl
    · exact ha

/-- C13: for every configuration with thresholds low < high whose products by 1024
fit an `RKADK_S32`, every value of the flag and every free-size sample: a tick with
`free <= low * 1024` arms the flag, a tick with `free >= high * 1024` disarms it,
an armed flag stays armed on a tick with `free < high * 1024` and a disarmed one
stays disarmed on a tick with `free > low * 1024`; hence over every sequence of
samples an armed flag stays armed while all samples are below `high * 1024` and a
disarmed one stays disarmed while all samples are above `low * 1024`. -/
theorem C13_hysteresis (devAttr : RKADK_STR_DEV_ATTR)
    (hlt : devAttr.s32FreeSizeDelMin < devAttr.s32FreeSizeDelMax)
    (hmin : -2 ^ 31 ≤ devAttr.s32FreeSizeDelMin * 1024 ∧
      devAttr.s32FreeSizeDelMin * 1024 < 2 ^ 31)
    (hmax : -2 ^ 31 ≤ devAttr.s32FreeSizeDelMax * 1024 ∧
      devAttr.s32FreeSizeDelMax * 1024 < 2 ^ 31) :
    (∀ s32FreeSize : Int,
      (s32FreeSize ≤ devAttr.s32FreeSizeDelMin * 1024 →
        (FileScanThread_autoDel devAttr s32FreeSize).s32AutoDel ≠ 0) ∧
      (s32FreeSize ≥ devAttr.s32FreeSizeDelMax * 1024 →
        (FileScanThread_autoDel devAttr s32FreeSize).s32AutoDel = 0) ∧
      (devAttr.s32AutoDel ≠ 0 → s32FreeSize < devAttr.s32FreeSizeDelMax * 1024 →
        (FileScanThread_autoDel devAttr s32FreeSize).s32AutoDel ≠ 0) ∧
      (devAttr.s32AutoDel = 0 → s32FreeSize > devAttr.s32FreeSizeDelMin * 1024 →
        (FileScanThread_autoDel devAttr s32FreeSize).s32AutoDel = 0)) ∧
    (∀ samples : List Int,
      (devAttr.s32AutoDel ≠ 0 →
        (∀ x ∈ samples, x < devAttr.s32FreeSizeDelMax * 1024) →
        (FileScanThread_autoDelRun devAttr samples).s32AutoDel ≠ 0) ∧
      (devAttr.s32AutoDel = 0 →
        (∀ x ∈ samples, x > devAttr.s32FreeSizeDelMin * 1024) →
        (FileScanThread_autoDelRun devAttr samples).s32AutoDel = 0)) := by
  constructor
  · intro s32FreeSize
    obtain ⟨h1, h2, h3, h4⟩ := FileScanThread_autoDel_step devAttr s32FreeSize hlt hmin hmax
    exact ⟨fun h => by rw [h1 h]; decide, h2, h3, h4⟩
  · intro samples
    induction samples generalizing devAttr with
    | nil => exact ⟨fun h _ => h, fun h _ => h⟩
    | cons x samples ih =>
      obtain ⟨-, -, h3, h4⟩ := FileScanThread_autoDel_step devAttr x hlt hmin hmax
      obtain ⟨-, f2, f3, -⟩ := FileScanThread_autoDel_frame devAttr x
      have ih' := ih (FileScanThread_autoDel devAttr x) (by rw [f2, f3]; exact hlt)
        (by rw [f2]; exact hmin) (by rw [f3]; exact hmax)
      rw [f2, f3] at ih'
      simp only [FileScanThread_autoDelRun]
      constructor
      · intro ha hall
        exact ih'.1 (h3 ha (hall x (List.mem_cons_self _ _)))
          (fun y hy => hall y (List.mem_cons_of_mem _ hy))
      · intro ha hall
        exact ih'.2 (h4 ha (hall x (List.mem_cons_self _ _)))
          (fun y hy => hall y (List.mem_cons_of_mem _ hy))

/-- C13 with the thresholds 500 and 1000: a disarmed flag is armed by the sample
400000, stays armed over 600000 and 1000000, and is disarmed by 1024000. -/
theorem C13_hysteresis_witness :
    (sampleDevAttr []).s32FreeSizeDelMin < (sampleDevAttr []).s32FreeSizeDelMax ∧
    (FileScanThread_autoDel { sampleDevAttr [] with s32AutoDel := 0 } 400000).s32AutoDel ≠ 0 ∧
    (FileScanThread_autoDelRun (sampleDevAttr []) [600000, 1000000]).s32AutoDel ≠ 0 ∧
    (FileScanThread_autoDel (sampleDevAttr []) 1024000).s32AutoDel = 0 :=
  ⟨by decide,
    ((C13_hysteresis { sampleDevAttr [] with s32AutoDel := 0 } (by decide) (by decide)
      (by decide)).1 400000).1 (by decide),
    ((C13_hysteresis (sampleDevAttr []) (by decide) (by decide) (by decide)).2
      [600000, 1000000]).1 (by decide) (by decide),
    ((C13_hysteresis (sampleDevAttr []) (by decide) (by decide) (by decide)).1 1024000).2.1
      (by decide)⟩

/-! ## C14: retention by count -/

theorem FileScanThread_victim_count (attr : RKADK_STR_FOLDER_ATTR) (folder : RKADK_STR_FOLDER)
    (totalSpace : Int) (hnum : attr.bNumLimit = true) :
    FileScanThread_victim attr folder totalSpace =
      if folder.s32FileNum > attr.s32Limit then
        match folder.pstFileListFirst with
        | first :: _ => some (some first)
        | [] => some none
      else some none := by
  simp [FileScanThread_victim, FileScanThread_limit, hnum]

theorem retentionRoundFolder_keep (attr : RKADK_STR_FOLDER_ATTR) (folder : RKADK_STR_FOLDER)
    (totalSpace : Int) (hnum : attr.bNumLimit = true)
    (hle : folder.s32FileNum ≤ attr.s32Limit) :
    retentionRoundFolder attr folder totalSpace = folder := by
  unfold retentionRoundFolder
  rw [FileScanThread_victim_count attr folder totalSpace hnum]
  have : ¬ folder.s32FileNum > attr.s32Limit := by omega
  simp [this]

theorem retentionRoundFolder_delete (attr : RKADK_STR_FOLDER_ATTR) (folder : RKADK_STR_FOLDER)
    (totalSpace : Int) (hnum : attr.bNumLimit = true) (hts : totalSpace ≠ 0)
    (hgt : folder.s32FileNum > attr.s32Limit) (first : RKADK_STR_FILE)
    (rest : List RKADK_STR_FILE) (hfiles : folder.pstFileListFirst = first :: rest)
    (huniq : UniqueNames folder) :
    FileScanThread_victim attr folder totalSpace = some (some first) ∧
    (retentionRoundFolder attr folder totalSpace).pstFileListFirst = rest ∧
    (retentionRoundFolder attr folder totalSpace).s32FileNum = rest.length ∧
    UniqueNames (retentionRoundFolder attr folder totalSpace) := by
  have hv : FileScanThread_victim attr folder totalSpace = some (some first) := by
    rw [FileScanThread_victim_count attr folder totalSpace hnum]
    simp [hgt, hfiles]
  have hr : retentionRoundFolder attr folder totalSpace =
      (RKADK_STORAGE_FileListDel folder first.filename).2 := by
    unfold retentionRoundFolder
    simp [hts, hv]
  have hdel := (FileListDel_removes folder first.filename (Or.inl huniq)).2
  have hrest : (RKADK_STORAGE_FileListDel folder first.filename).2.pstFileListFirst = rest := by
    rw [hdel, hfiles]
    unfold UniqueNames at huniq
    rw [hfiles, List.map_cons, List.nodup_cons] at huniq
    rw [List.filter_cons]
    simp only [ne_eq, not_true_eq_false, decide_False, Bool.false_eq_true, if_false]
    rw [List.filter_eq_self]
    intro f hf
    simp only [ne_eq, decide_eq_true_eq]
    intro he
    exact huniq.1 (he ▸ List.mem_map_of_mem _ hf)
  refine ⟨hv, ?_, ?_, ?_⟩
  · rw [hr, hrest]
  · rw [hr, (FileListDel_match folder first.filename).1, hrest]
  · rw [hr]; exact FileListDel_unique folder first.filename huniq

theorem retentionRoundFolders_getElem (totalSpace : Int) (attrs : List RKADK_STR_FOLDER_ATTR)
    (folders : List RKADK_STR_FOLDER) (i : Nat) (attr : RKADK_STR_FOLDER_ATTR)
    (folder : RKADK_STR_FOLDER) (hattr : attrs[i]? = some attr)
    (hfolder : folders[i]? = some folder) :
    (retentionRoundFolders totalSpace attrs folders)[i]? =
      some (retentionRoundFolder attr folder totalSpace) := by
  induction attrs generalizing folders i with
  | nil => simp at hattr
  | cons a attrs ih =>
    cases folders with
    | nil => simp at hfolder
    | cons f folders =>
      cases i with
      | zero =>
        simp only [List.getElem?_cons_zero, Option.some.injEq] at hattr hfolder
        subst hattr; subst hfolder
        simp [retentionRoundFolders]
      | succ i =>
        simp only [List.getElem?_cons_succ] at hattr hfolder
        simpa [retentionRoundFolders] using ih folders i hattr hfolder

theorem retentionRound_getElem (devAttr : RKADK_STR_DEV_ATTR) (folders : List RKADK_STR_FOLDER)
    (harmed : devAttr.s32AutoDel ≠ 0) (i : Nat) (attr : RKADK_STR_FOLDER_ATTR)
    (folder : RKADK_STR_FOLDER) (hattr : devAttr.pstFolderAttr[i]? = some attr)
    (hfolder : folders[i]? = some folder) :
    (retentionRound devAttr folders)[i]? =
      some (retentionRoundFolder attr folder
        (FileScanThread_totalSpace devAttr.pstFolderAttr folders 0)) := by
  unfold retentionRound
  simp only [harmed, ne_eq, not_false_eq_true, if_true]
  exact retentionRoundFolders_getElem _ _ _ i attr folder hattr hfolder

theorem FileScanThread_scan_mem (cMountPath : CStr) (totalSpace : Int) (hts : totalSpace ≠ 0)
    (attrs : List RKADK_STR_FOLDER_ATTR) (folders : List RKADK_STR_FOLDER) (cnt : Int) (i : Nat)
    (attr : RKADK_STR_FOLDER_ATTR) (folder : RKADK_STR_FOLDER) (first : RKADK_STR_FILE)
    (hattr : attrs[i]? = some attr) (hfolder : folders[i]? = some folder)
    (hv : FileScanThread_victim attr folder totalSpace = some (some first)) :
    ∃ (files : List CStr) (cnt' : Int),
      FileScanThread_scan cMountPath totalSpace attrs folders cnt = some (files, cnt') ∧
      FileScanThread_file cMountPath attr first ∈ files := by
  induction attrs generalizing folders i cnt with
  | nil => simp at hattr
  | cons a attrs ih =>
    cases folders with
    | nil => simp at hfolder
    | cons f folders =>
      cases i with
      | zero =>
        simp only [List.getElem?_cons_zero, Option.some.injEq] at hattr hfolder
        subst hattr; subst hfolder
        obtain ⟨cnt', h1, -⟩ := FileScanThread_scan_eq cMountPath totalSpace hts attrs folders 51
        exact ⟨FileScanThread_file cMountPath a first ::
            (List.zip attrs folders).filterMap
              (fun p => FileScanThread_removedFile cMountPath totalSpace p.1 p.2), cnt',
          by simp [FileScanThread_scan, hts, hv, h1], List.mem_cons_self _ _⟩
      | succ i =>
        simp only [List.getElem?_cons_succ] at hattr hfolder
        obtain ⟨v, hva⟩ := FileScanThread_victim_some a f totalSpace hts
        cases v with
        | none =>
          obtain ⟨files, cnt', h1, h2⟩ := ih folders cnt i hattr hfolder
          exact ⟨files, cnt', by simp [FileScanThread_scan, hts, hva, h1], h2⟩
        | some g =>
          obtain ⟨files, cnt', h1, h2⟩ := ih folders 51 i hattr hfolder
          exact ⟨FileScanThread_file cMountPath a g :: files, cnt',
            by simp [FileScanThread_scan, hts, hva, h1], List.mem_cons_of_mem _ h2⟩

/-- The directory `i` over the first ticks: after `k` ticks its chain is the old
chain without its first `k` records. -/
theorem retentionRun_count_front (devAttr : RKADK_STR_DEV_ATTR)
    (folders : List RKADK_STR_FOLDER) (harmed : devAttr.s32AutoDel ≠ 0) (i : Nat)
    (attr : RKADK_STR_FOLDER_ATTR) (folder : RKADK_STR_FOLDER)
    (hattr : devAttr.pstFolderAttr[i]? = some attr) (hfolder : folders[i]? = some folder)
    (hnum : attr.bNumLimit = true) (hL : 0 ≤ attr.s32Limit)
    (hcount : folder.s32FileNum = folder.pstFileListFirst.length) (huniq : UniqueNames folder)
    (hsum : ∀ k, k < folder.pstFileListFirst.length - attr.s32Limit.toNat →
      FileScanThread_totalSpace devAttr.pstFolderAttr (retentionRun devAttr k folders) 0 ≠ 0)
    (k : Nat) (hk : k ≤ folder.pstFileListFirst.length - attr.s32Limit.toNat) :
    ∃ G, (retentionRun devAttr k folders)[i]? = some G ∧
      G.pstFileListFirst = folder.pstFileListFirst.drop k ∧
      G.s32FileNum = G.pstFileListFirst.length ∧ UniqueNames G := by
  induction k with
  | zero => exact ⟨folder, by simpa [retentionRun] using hfolder, by simp, hcount, huniq⟩
  | succ k ih =>
    obtain ⟨G, hG, hfiles, hcnt, hu⟩ := ih (by omega)
    have hklt : k < folder.pstFileListFirst.length := by omega
    have hdrop : folder.pstFileListFirst.drop k =
        folder.pstFileListFirst[k] :: folder.pstFileListFirst.drop (k + 1) :=
      List.drop_eq_getElem_cons hklt
    have hgt : G.s32FileNum > attr.s32Limit := by
      rw [hcnt, hfiles, List.length_drop]
      have : (attr.s32Limit.toNat : Int) = attr.s32Limit := Int.toNat_of_nonneg hL
      omega
    obtain ⟨-, h2, h3, h4⟩ := retentionRoundFolder_delete attr G _ hnum (hsum k (by omega)) hgt
      _ _ (hfiles.trans hdrop) hu
    refine ⟨_, ?_, h2, ?_, h4⟩
    · simp only [retentionRun]
      exact retentionRound_getElem devAttr _ harmed i attr G hattr hG
    · rw [h3, h2]

/-- C14, amended: for every armed configuration and folder array, and every
directory `i` with `bNumLimit` true, a limit `L` with `0 <= L`, a chain of
`n > L` records with one record per name, and `s32FileNum = n`: as long as the
sum of `totalSpace` over the directories is not 0 at each of the first `n - L`
ticks (each deletion being followed by its delete event before the next tick),
after `k <= n - L` ticks the chain is the old chain without its first `k`
records, the tick number `k < n - L` hands the file of the old record number `k`
to `remove`, and after `n - L` and any later number of ticks the chain is the
old chain without its first `n - L` records: nothing more is deleted from it. -/
theorem C14_count_limit (devAttr : RKADK_STR_DEV_ATTR) (folders : List RKADK_STR_FOLDER)
    (harmed : devAttr.s32AutoDel ≠ 0) (i : Nat) (attr : RKADK_STR_FOLDER_ATTR)
    (folder : RKADK_STR_FOLDER)
    (hattr : devAttr.pstFolderAttr[i]? = some attr) (hfolder : folders[i]? = some folder)
    (hnum : attr.bNumLimit = true) (hL : 0 ≤ attr.s32Limit)
    (hn : attr.s32Limit < folder.pstFileListFirst.length)
    (hcount : folder.s32FileNum = folder.pstFileListFirst.length) (huniq : UniqueNames folder)
    (hsum : ∀ k, k < folder.pstFileListFirst.length - attr.s32Limit.toNat →
      FileScanThread_totalSpace devAttr.pstFolderAttr (retentionRun devAttr k folders) 0 ≠ 0) :
    (∀ k, k ≤ folder.pstFileListFirst.length - attr.s32Limit.toNat →
      ∃ G, (retentionRun devAttr k folders)[i]? = some G ∧
        G.pstFileListFirst = folder.pstFileListFirst.drop k) ∧
    (∀ k, k < folder.pstFileListFirst.length - attr.s32Limit.toNat →
      ∃ (first : RKADK_STR_FILE) (files : List CStr) (cnt : Int),
        folder.pstFileListFirst[k]? = some first ∧
        FileScanThread_retention devAttr (retentionRun devAttr k folders) = some (files, cnt) ∧
        FileScanThread_file devAttr.cMountPath attr first ∈ files) ∧
    (∀ k, folder.pstFileListFirst.length - attr.s32Limit.toNat ≤ k →
      ∃ G, (retentionRun devAttr k folders)[i]? = some G ∧
        G.pstFileListFirst = folder.pstFileListFirst.drop
          (folder.pstFileListFirst.length - attr.s32Limit.toNat)) := by
  have hLn : (attr.s32Limit.toNat : Int) = attr.s32Limit := Int.toNat_of_nonneg hL
  have front := retentionRun_count_front devAttr folders harmed i attr folder hattr hfolder
    hnum hL hcount huniq hsum
  refine ⟨?_, ?_, ?_⟩
  · intro k hk
    obtain ⟨G, hG, hfiles, -, -⟩ := front k hk
    exact ⟨G, hG, hfiles⟩
  · intro k hk
    obtain ⟨G, hG, hfiles, hcnt, hu⟩ := front k (by omega)
    have hklt : k < folder.pstFileListFirst.length := by omega
    have hdrop : folder.pstFileListFirst.drop k =
        folder.pstFileListFirst[k] :: folder.pstFileListFirst.drop (k + 1) :=
      List.drop_eq_getElem_cons hklt
    have hgt : G.s32FileNum > attr.s32Limit := by
      rw [hcnt, hfiles, List.length_drop]
      omega
    obtain ⟨hv, -, -, -⟩ := retentionRoundFolder_delete attr G _ hnum (hsum k hk) hgt
      _ _ (hfiles.trans hdrop) hu
    obtain ⟨files, cnt, h1, h2⟩ := FileScanThread_scan_mem devAttr.cMountPath _ (hsum k hk)
      devAttr.pstFolderAttr (retentionRun devAttr k folders) 0 i attr G _ hattr hG hv
    refine ⟨folder.pstFileListFirst[k], files, cnt, by simp [hklt], ?_, h2⟩
    unfold FileScanThread_retention
    simp only [harmed, ne_eq, not_false_eq_true, if_true]
    exact h1
  · intro k hk
    obtain ⟨d, rfl⟩ := Nat.exists_eq_add_of_le hk
    clear hk
    have key : ∃ G, (retentionRun devAttr
        (folder.pstFileListFirst.length - attr.s32Limit.toNat + d) folders)[i]? = some G ∧
        G.pstFileListFirst = folder.pstFileListFirst.drop
          (folder.pstFileListFirst.length - attr.s32Limit.toNat) ∧
        G.s32FileNum = G.pstFileListFirst.length := by
      induction d with
      | zero =>
        obtain ⟨G, hG, hfiles, hcnt, -⟩ := front _ (le_refl _)
        exact ⟨G, hG, hfiles, hcnt⟩
      | succ d ih =>
        obtain ⟨G, hG, hfiles, hcnt⟩ := ih
        have hle : G.s32FileNum ≤ attr.s32Limit := by
          rw [hcnt, hfiles, List.length_drop]
          omega
        refine ⟨G, ?_, hfiles, hcnt⟩
        rw [← Nat.add_assoc]
        simp only [retentionRun]
        rw [retentionRound_getElem devAttr _ harmed i attr G hattr hG,
          retentionRoundFolder_keep attr G _ hnum hle]
    obtain ⟨G, hG, hfiles, -⟩ := key
    exact ⟨G, hG, hfiles⟩

/-- C14, amended, on one directory limited to 3 files and holding `a` .. `e`: the
first tick removes `/m/a/a`, the second `/m/a/b`, and after 2 and after 7 ticks
the chain is `c`, `d`, `e`. -/
theorem C14_count_limit_witness :
    (sampleDevAttr [sampleAttrCount 3]).s32AutoDel ≠ 0 ∧
    (∀ k, k < sampleFiveFiles.pstFileListFirst.length - (sampleAttrCount 3).s32Limit.toNat →
      FileScanThread_totalSpace (sampleDevAttr [sampleAttrCount 3]).pstFolderAttr
        (retentionRun (sampleDevAttr [sampleAttrCount 3]) k [sampleFiveFiles]) 0 ≠ 0) ∧
    (∃ G, (retentionRun (sampleDevAttr [sampleAttrCount 3]) 2 [sampleFiveFiles])[0]? = some G ∧
      G.pstFileListFirst = sampleFiveFiles.pstFileListFirst.drop 2) ∧
    FileScanThread_retention (sampleDevAttr [sampleAttrCount 3]) [sampleFiveFiles] =
      some ([[47, 109, 47, 97, 47, 97]], 51) ∧
    (retentionRun (sampleDevAttr [sampleAttrCount 3]) 7 [sampleFiveFiles]).map
      (fun G => G.pstFileListFirst.map (·.filename)) = [[[99], [100], [101]]] :=
  ⟨by decide, by decide,
    (C14_count_limit (sampleDevAttr [sampleAttrCount 3]) [sampleFiveFiles] (by decide) 0
      (sampleAttrCount 3) sampleFiveFiles rfl rfl rfl (by decide) (by decide) (by decide)
      (by decide) (by decide)).1 2 (by decide),
    by decide, by decide⟩

/-- C14 as stated fails: a directory limited to 3 files and holding five empty
files (sum of `totalSpace` 0) loses no file, in the first tick or after 2 ticks;
and a directory with the limit -1 holding 2 files loses 2 files, not 3. -/
theorem C14_counterexample :
    FileScanThread_retention (sampleDevAttr [sampleAttrCount 3]) [sampleEmptyFiles] =
      some ([], 0) ∧
    retentionRun (sampleDevAttr [sampleAttrCount 3]) 2 [sampleEmptyFiles] = [sampleEmptyFiles] ∧
    sampleEmptyFiles.pstFileListFirst.length = 5 ∧
    (retentionRun (sampleDevAttr [sampleAttrCount (-1)]) 5 [sampleByTime]).map
      (fun G => G.pstFileListFirst.length) = [0] := by
  decide

/-! ## The device controller -/

/-- Removing the stored device: the status and the sizes are reset, then the scan
thread, if there is one, is joined. -/
theorem DevRemove_match (rest : FileScanThread_rest) (dev : CStr)
    (pHandle : RKADK_STORAGE_HANDLE) (h : pHandle.stDevSta.cDevPath = dev) :
    RKADK_STORAGE_DevRemove rest dev pHandle =
      if pHandle.stDevSta.fileScanTid ≠ 0 then
        (0, { pHandle with
              stDevSta :=
                { FileScanThread_joined rest
                    { pHandle.stDevSta with
                      s32MountStatus := .DISK_UNMOUNTED
                      s32TotalSize := 0
                      s32FreeSize := 0 } with fileScanTid := 0 } })
      else
        (0, { pHandle with
              stDevSta := { pHandle.stDevSta with
                            s32MountStatus := .DISK_UNMOUNTED
                            s32TotalSize := 0
                            s32FreeSize := 0 } }) := by
  unfold RKADK_STORAGE_DevRemove
  rw [if_pos ((strcmp_eq_zero_iff _ _).2 h)]

/-- A device name other than the stored one leaves the handle alone. -/
theorem DevRemove_other (rest : FileScanThread_rest) (dev : CStr)
    (pHandle : RKADK_STORAGE_HANDLE) (h : pHandle.stDevSta.cDevPath ≠ dev) :
    RKADK_STORAGE_DevRemove rest dev pHandle = (0, pHandle) := by
  unfold RKADK_STORAGE_DevRemove
  rw [if_neg (fun h0 => h ((strcmp_eq_zero_iff _ _).1 h0))]

/-- On the sample mount table the device `/dev/b` is mounted on the configured `/m`:
the add succeeds, fills the device state from the line and starts the scan
thread. -/
theorem DevAdd_sample_accepts :
    RKADK_STORAGE_DevAdd 256 sampleMounts (some 7) (ascii "/dev/b")
        (sampleHandle (ascii "/m")
          { sampleDev [] with s32MountStatus := .DISK_UNMOUNTED }) =
      some (0, sampleHandle (ascii "/m")
          { sampleDev [] with
            cDevPath := ascii "/dev/b", cDevType := ascii "vfat", cDevAttr1 := ascii "rw",
            s32MountStatus := .DISK_MOUNTED, fileScanTid := 7 }, true) := by
  decide

/-- C16: when `RKADK_STORAGE_GetMountPath` resolves `dev` (code 0) to a mount path
other than the configured `cMountPath`, `RKADK_STORAGE_DevAdd` returns the failure
code -1, leaves the whole handle as it was (mount status, device path, type and
attributes included) and starts no scan thread. -/
theorem C16_mount_mismatch_rejected (maxPathLen : Nat) (mounts : Option (List CStr))
    (threadId : Option Nat) (dev : CStr) (pHandle : RKADK_STORAGE_HANDLE) (mountPath : CStr)
    (hres : RKADK_STORAGE_GetMountPath mounts dev maxPathLen = some (0, mountPath))
    (hne : mountPath ≠ pHandle.stDevAttr.cMountPath) :
    RKADK_STORAGE_DevAdd maxPathLen mounts threadId dev pHandle = some (-1, pHandle, false) := by
  unfold RKADK_STORAGE_DevAdd
  rw [hres]
  have hcmp : strcmp pHandle.stDevAttr.cMountPath mountPath ≠ 0 :=
    fun h0 => hne ((strcmp_eq_zero_iff _ _).1 h0).symm
  simp [hcmp]

theorem C16_mount_mismatch_witness :
    RKADK_STORAGE_GetMountPath sampleMounts (ascii "/dev/a") 256 = some (0, ascii "/x") ∧
    RKADK_STORAGE_DevAdd 256 sampleMounts (some 7) (ascii "/dev/a")
        (sampleHandle (ascii "/m")
          { sampleDev [] with s32MountStatus := .DISK_UNMOUNTED }) =
      some (-1, sampleHandle (ascii "/m")
          { sampleDev [] with s32MountStatus := .DISK_UNMOUNTED }, false) :=
  ⟨by decide,
   C16_mount_mismatch_rejected 256 sampleMounts (some 7) (ascii "/dev/a")
     (sampleHandle (ascii "/m") { sampleDev [] with s32MountStatus := .DISK_UNMOUNTED })
     (ascii "/x") (by decide) (by decide)⟩

/-- What `RKADK_STORAGE_DevRemove` does apart from the race: it always returns 0 and
leaves the device path as it was; for the stored device the status afterwards is
unmounted, and both sizes are 0 when there is no scan thread to join or the
joined thread stores no size after the reset; for another name the handle is
unchanged. -/
theorem DevRemove_without_race (rest : FileScanThread_rest) (dev : CStr)
    (pHandle : RKADK_STORAGE_HANDLE) :
    (RKADK_STORAGE_DevRemove rest dev pHandle).1 = 0 ∧
    (RKADK_STORAGE_DevRemove rest dev pHandle).2.stDevSta.cDevPath =
      pHandle.stDevSta.cDevPath ∧
    (dev = pHandle.stDevSta.cDevPath →
      (RKADK_STORAGE_DevRemove rest dev pHandle).2.stDevSta.s32MountStatus = .DISK_UNMOUNTED ∧
      ((pHandle.stDevSta.fileScanTid = 0 ∨
          (rest.s32TotalSize = none ∧ rest.s32FreeSize = none)) →
        (RKADK_STORAGE_DevRemove rest dev pHandle).2.stDevSta.s32TotalSize = 0 ∧
        (RKADK_STORAGE_DevRemove rest dev pHandle).2.stDevSta.s32FreeSize = 0)) ∧
    (dev ≠ pHandle.stDevSta.cDevPath →
      (RKADK_STORAGE_DevRemove rest dev pHandle).2 = pHandle) := by
  by_cases h : pHandle.stDevSta.cDevPath = dev
  · rw [DevRemove_match rest dev pHandle h]
    by_cases htid : pHandle.stDevSta.fileScanTid ≠ 0
    · rw [if_pos htid]
      refine ⟨rfl, rfl, fun _ => ⟨rfl, ?_⟩, fun hne => absurd h.symm hne⟩
      rintro (h0 | ⟨ht, hf⟩)
      · exact absurd h0 htid
      · simp [FileScanThread_joined, ht, hf]
    · rw [if_neg htid]
      exact ⟨rfl, rfl, fun _ => ⟨rfl, fun _ => ⟨rfl, rfl⟩⟩, fun hne => absurd h.symm hne⟩
  · rw [DevRemove_other rest dev pHandle h]
    exact ⟨rfl, rfl, fun heq => absurd heq.symm h, fun _ => rfl⟩

/-- C17: the sizes are not always 0 after `RKADK_STORAGE_DevRemove` of the stored
device. The function resets both sizes and only then joins the scan thread;
when that thread had passed its test of the mount status and
`RKADK_STORAGE_GetDiskSize` stores `total` and `free` after the reset, the call
returns 0 with the status unmounted and the sizes `total` and `free`. -/
theorem C17_dev_remove_race (rest : FileScanThread_rest) (dev : CStr)
    (pHandle : RKADK_STORAGE_HANDLE) (total free : Int)
    (hdev : dev = pHandle.stDevSta.cDevPath)
    (htid : pHandle.stDevSta.fileScanTid ≠ 0)
    (htotal : rest.s32TotalSize = some total)
    (hfree : rest.s32FreeSize = some free) :
    (RKADK_STORAGE_DevRemove rest dev pHandle).1 = 0 ∧
    (RKADK_STORAGE_DevRemove rest dev pHandle).2.stDevSta.s32MountStatus = .DISK_UNMOUNTED ∧
    (RKADK_STORAGE_DevRemove rest dev pHandle).2.stDevSta.s32TotalSize = total ∧
    (RKADK_STORAGE_DevRemove rest dev pHandle).2.stDevSta.s32FreeSize = free := by
  rw [DevRemove_match rest dev pHandle hdev.symm, if_pos htid]
  simp [FileScanThread_joined, htotal, hfree]

theorem C17_dev_remove_race_witness :
    (RKADK_STORAGE_DevRemove
      { s32TotalSize := some 1000, s32FreeSize := some 400, fileScanOut := true }
      (ascii "/dev/b")
      (sampleHandle (ascii "/m")
        { sampleDev [sampleByName] with
          cDevPath := ascii "/dev/b", s32TotalSize := 1000, s32FreeSize := 500,
          fileScanTid := 7 })).2.stDevSta.s32TotalSize = 1000 ∧
    (RKADK_STORAGE_DevRemove
      { s32TotalSize := some 1000, s32FreeSize := some 400, fileScanOut := true }
      (ascii "/dev/b")
      (sampleHandle (ascii "/m")
        { sampleDev [sampleByName] with
          cDevPath := ascii "/dev/b", s32TotalSize := 1000, s32FreeSize := 500,
          fileScanTid := 7 })).2.stDevSta.s32FreeSize = 400 :=
  ⟨(C17_dev_remove_race
      { s32TotalSize := some 1000, s32FreeSize := some 400, fileScanOut := true }
      (ascii "/dev/b")
      (sampleHandle (ascii "/m")
        { sampleDev [sampleByName] with
          cDevPath := ascii "/dev/b", s32TotalSize := 1000, s32FreeSize := 500,
          fileScanTid := 7 }) 1000 400 rfl (by decide) rfl rfl).2.2.1,
   (C17_dev_remove_race
      { s32TotalSize := some 1000, s32FreeSize := some 400, fileScanOut := true }
      (ascii "/dev/b")
      (sampleHandle (ascii "/m")
        { sampleDev [sampleByName] with
          cDevPath := ascii "/dev/b", s32TotalSize := 1000, s32FreeSize := 500,
          fileScanTid := 7 }) 1000 400 rfl (by decide) rfl rfl).2.2.2⟩

/-! ## The hot-plug listener -/

/-- On a well-formed message for an added disk the listener enqueues `MSG_DEV_ADD`
with the device name. -/
theorem listener_sample_add :
    EventListenerThread_message (-1) true true
        (ueventBytes (sampleUevent (ascii "ACTION=add")) ++ [9, 9])
        (ueventBytes (sampleUevent (ascii "ACTION=add"))).length sampleQueue =
      some (enqueued sampleQueue MSG_DEV_ADD (ascii "/dev/sda")) := by
  decide

/-- A record is the C string read at its first byte. -/
theorem cstr_record (r : CStr) (tail : List Nat) (h : 0 ∉ r) :
    cstr (r ++ 0 :: tail) = r := by
  induction r with
  | nil => simp [cstr]
  | cons x xs ih =>
    have hx : x ≠ 0 := fun h0 => h (by simp [h0])
    have hxs : 0 ∉ xs := fun h0 => h (List.mem_cons_of_mem _ h0)
    have ih' := ih hxs
    unfold cstr at ih' ⊢
    rw [List.cons_append, List.takeWhile_cons, if_pos (by simpa using hx), ih']

/-- The bytes of two runs of records. -/
theorem ueventBytes_append (pre rs : List CStr) :
    ueventBytes (pre ++ rs) = ueventBytes pre ++ ueventBytes rs := by
  induction pre with
  | nil => rfl
  | cons r pre ih => simp [ueventBytes, ih]

/-- The loop skips the bytes of a record. -/
theorem Search_loop_skip (str : CStr) (r : CStr) (tail : List Nat) (n i : Nat)
    (h : 0 ∉ r) :
    Search_loop str (r ++ tail) (r.length + n) i = Search_loop str tail n (i + r.length) := by
  induction r generalizing i with
  | nil => simp
  | cons x xs ih =>
    have hx : x ≠ 0 := fun h0 => h (by simp [h0])
    have hxs : 0 ∉ xs := fun h0 => h (List.mem_cons_of_mem _ h0)
    have hn : (x :: xs).length + n = (xs.length + n) + 1 := by simp; omega
    rw [hn, List.cons_append, Search_loop, if_neg hx, ih (i + 1) hxs]
    congr 1
    simp; omega

/-- The loop of `RKADK_STORAGE_Search`, started in a record, finds the first of the
later records that contains `str`. -/
theorem Search_loop_records (str : CStr) (stale : List Nat) (rs : List CStr) :
    ∀ (r : CStr) (i : Nat), 0 ∉ r → (∀ x ∈ rs, 0 ∉ x) →
      Search_loop str (r ++ 0 :: (ueventBytes rs ++ stale))
          (r.length + (ueventBytes rs).length) i =
        firstRecord str rs (i + r.length) := by
  induction rs with
  | nil =>
    intro r i hr _
    rw [Search_loop_skip str r _ _ i hr]
    simp [ueventBytes, Search_loop, firstRecord]
  | cons r1 rs ih =>
    intro r i hr hrs
    have hr1 : 0 ∉ r1 := hrs r1 (List.mem_cons_self _ _)
    have hrs1 : ∀ x ∈ rs, 0 ∉ x := fun x hx => hrs x (List.mem_cons_of_mem _ hx)
    rw [Search_loop_skip str r _ _ i hr]
    have hlen : (ueventBytes (r1 :: rs)).length = (r1.length + (ueventBytes rs).length) + 1 := by
      simp [ueventBytes]; omega
    have hmem : ueventBytes (r1 :: rs) ++ stale = r1 ++ 0 :: (ueventBytes rs ++ stale) := by
      simp [ueventBytes]
    rw [hlen, hmem, Search_loop, if_pos rfl, cstr_record r1 _ hr1, firstRecord]
    cases hs : strstr r1 str with
    | some k => rfl
    | none =>
      simp only []
      rw [ih r1 (i + r.length + 1) hr1 hrs1]
      congr 1
      omega

/-- On a message made of records `RKADK_STORAGE_Search` finds the first record that
contains `str`, whatever the array holds after the message. -/
theorem Search_records (str : CStr) (stale : List Nat) (r : CStr) (rs : List CStr)
    (h : ∀ x ∈ r :: rs, 0 ∉ x) :
    RKADK_STORAGE_Search (ueventBytes (r :: rs) ++ stale) (ueventBytes (r :: rs)).length str =
      firstRecord str (r :: rs) 0 := by
  have hr : 0 ∉ r := h r (List.mem_cons_self _ _)
  have hrs : ∀ x ∈ rs, 0 ∉ x := fun x hx => h x (List.mem_cons_of_mem _ hx)
  have hmem : ueventBytes (r :: rs) ++ stale = r ++ 0 :: (ueventBytes rs ++ stale) := by
    simp [ueventBytes]
  have hlen : (((ueventBytes (r :: rs)).length : Int) - 1).toNat =
      r.length + (ueventBytes rs).length := by
    simp [ueventBytes]; omega
  unfold RKADK_STORAGE_Search
  rw [hlen, hmem, cstr_record r _ hr, firstRecord]
  cases hs : strstr r str with
  | some k => simp
  | none =>
    simp only []
    rw [Search_loop_records str stale rs r 1 hr hrs]
    congr 1
    omega

/-- The text is found exactly when a record contains it. -/
theorem firstRecord_isSome (str : CStr) (rs : List CStr) (off : Nat) :
    (firstRecord str rs off).isSome = recordsContain rs str := by
  induction rs generalizing off with
  | nil => rfl
  | cons r rs ih =>
    unfold firstRecord recordsContain
    cases hs : strstr r str with
    | some k => simp [hs]
    | none =>
      have := ih (off + r.length + 1)
      unfold recordsContain at this
      simp [hs, this]

/-- The first record that contains the text decides the offset. -/
theorem firstRecord_at (str : CStr) (pre : List CStr) (r : CStr) (post : List CStr)
    (k off : Nat) (hpre : ∀ x ∈ pre, strstr x str = none) (hr : strstr r str = some k) :
    firstRecord str (pre ++ r :: post) off = some (off + (ueventBytes pre).length + k) := by
  induction pre generalizing off with
  | nil => simp [firstRecord, hr, ueventBytes]
  | cons x pre ih =>
    have hx : strstr x str = none := hpre x (List.mem_cons_self _ _)
    have hpre1 : ∀ y ∈ pre, strstr y str = none :=
      fun y hy => hpre y (List.mem_cons_of_mem _ hy)
    rw [List.cons_append, firstRecord, hx]
    simp only []
    rw [ih (off + x.length + 1) hpre1]
    simp [ueventBytes]
    omega

/-- A string begins with itself. -/
theorem startsWith_append (needle rest : CStr) : startsWith needle (needle ++ rest) = true := by
  induction needle with
  | nil => cases rest <;> rfl
  | cons x xs ih => simp [startsWith, ih]

/-- The match is at the first byte exactly when the string begins with the text. -/
theorem strstr_zero_iff (hay needle : CStr) :
    strstr hay needle = some 0 ↔ startsWith needle hay = true := by
  cases hay with
  | nil =>
    unfold strstr
    by_cases h : startsWith needle [] = true <;> simp [h]
  | cons y hay =>
    unfold strstr
    by_cases h : startsWith needle (y :: hay) = true
    · simp [h]
    · simp [h]

/-- The text is at the front exactly when the string is the text followed by a rest. -/
theorem startsWith_iff (needle hay : CStr) :
    startsWith needle hay = true ↔ ∃ rest, hay = needle ++ rest := by
  induction needle generalizing hay with
  | nil => cases hay <;> simp [startsWith]
  | cons x xs ih =>
    cases hay with
    | nil => simp [startsWith]
    | cons y ys =>
      simp only [startsWith, Bool.and_eq_true, decide_eq_true_eq, ih, List.cons_append,
        List.cons.injEq]
      constructor
      · rintro ⟨hxy, rest, hrest⟩
        exact ⟨rest, hxy.symm, hrest⟩
      · rintro ⟨rest, hxy, hrest⟩
        exact ⟨hxy.symm, rest, hrest⟩

/-- The model of `strstr` finds a match exactly when the text occurs in the string. -/
theorem strstr_isSome_iff (hay needle : CStr) :
    (strstr hay needle).isSome = true ↔ ∃ front rest, hay = front ++ needle ++ rest := by
  induction hay with
  | nil =>
    unfold strstr
    by_cases h : startsWith needle [] = true
    · obtain ⟨rest, hrest⟩ := (startsWith_iff needle []).1 h
      rw [if_pos h]
      simp only [Option.isSome_some, true_iff]
      exact ⟨[], rest, by simpa using hrest⟩
    · rw [if_neg h]
      simp only [Option.isSome_none, Bool.false_eq_true, false_iff]
      rintro ⟨front, rest, hrest⟩
      apply h
      rw [startsWith_iff]
      have h1 : front = [] ∧ needle = [] ∧ rest = [] := by
        simpa [List.append_eq_nil] using hrest.symm
      exact ⟨[], by simp [h1.2.1]⟩
  | cons y ys ih =>
    unfold strstr
    by_cases h : startsWith needle (y :: ys) = true
    · obtain ⟨rest, hrest⟩ := (startsWith_iff needle (y :: ys)).1 h
      rw [if_pos h]
      simp only [Option.isSome_some, true_iff]
      exact ⟨[], rest, by simpa using hrest⟩
    · rw [if_neg h]
      have hmap : (Option.map (· + 1) (strstr ys needle)).isSome = (strstr ys needle).isSome := by
        cases strstr ys needle <;> rfl
      rw [hmap, ih]
      constructor
      · rintro ⟨front, rest, hrest⟩
        exact ⟨y :: front, rest, by simp [hrest]⟩
      · rintro ⟨front, rest, hrest⟩
        cases front with
        | nil =>
          exact absurd ((startsWith_iff needle (y :: ys)).2 ⟨rest, by simpa using hrest⟩) h
        | cons z front =>
          refine ⟨front, rest, ?_⟩
          simp only [List.cons_append, List.cons.injEq] at hrest
          exact hrest.2

/-- The walk to the last element appends. -/
theorem MsgPutMsgToBuffer_link_eq (first : List RKADK_TMSG_ELEMENT) (elm : RKADK_TMSG_ELEMENT) :
    MsgPutMsgToBuffer_link first elm = first ++ [elm] := by
  induction first with
  | nil => rfl
  | cons e first ih => simp [MsgPutMsgToBuffer_link, ih]

/-- A message whose length is refused leaves the queue alone. -/
theorem listener_refused (failure : Int) (mallocElm mallocData : Bool) (buf : List Nat)
    (n : Nat) (stMsgHd : RKADK_TMSG_BUFFER) (h : ¬ (32 ≤ n ∧ n ≤ 2000)) :
    EventListenerThread_message failure mallocElm mallocData buf n stMsgHd = some stMsgHd := by
  unfold EventListenerThread_message MAX_TYPE_NMSG_LEN
  have h0 : ¬ ((n : Int) < 0) := by omega
  have h1 : (n : Int) < 32 ∨ (n : Int) > 2000 := by omega
  rw [if_neg h0, if_pos h1]

/-- On a message of accepted length made of records, the listener decides on the
records: the prefix on the first record, every other test on whether some record
contains the text. -/
theorem listener_records (failure : Int) (mallocElm mallocData : Bool) (r : CStr)
    (rs : List CStr) (stale : List Nat) (stMsgHd : RKADK_TMSG_BUFFER)
    (hrec : ∀ x ∈ r :: rs, 0 ∉ x)
    (hlen : 32 ≤ (ueventBytes (r :: rs)).length ∧ (ueventBytes (r :: rs)).length ≤ 2000) :
    EventListenerThread_message failure mallocElm mallocData (ueventBytes (r :: rs) ++ stale)
        (ueventBytes (r :: rs)).length stMsgHd =
      if startsWith (ascii "libudev") r = true then
        if recordsContain (r :: rs) (ascii "DEVTYPE=partition") = true ∨
            recordsContain (r :: rs) (ascii "DEVTYPE=disk") = true then
          if recordsContain (r :: rs) (ascii "ACTION=add") = true then
            EventListenerThread_send failure mallocElm mallocData MSG_DEV_ADD
              (ueventBytes (r :: rs) ++ stale)
              ((firstRecord (ascii "DEVNAME") (r :: rs) 0).map (· + 8)) stMsgHd
          else if recordsContain (r :: rs) (ascii "ACTION=remove") = true then
            EventListenerThread_send failure mallocElm mallocData MSG_DEV_REMOVE
              (ueventBytes (r :: rs) ++ stale)
              ((firstRecord (ascii "DEVNAME") (r :: rs) 0).map (· + 8)) stMsgHd
          else if recordsContain (r :: rs) (ascii "ACTION=change") = true then
            EventListenerThread_send failure mallocElm mallocData MSG_DEV_CHANGED
              (ueventBytes (r :: rs) ++ stale)
              ((firstRecord (ascii "DEVNAME") (r :: rs) 0).map (· + 8)) stMsgHd
          else some stMsgHd
        else some stMsgHd
      else some stMsgHd := by
  have hr : 0 ∉ r := hrec r (List.mem_cons_self _ _)
  have h0 : ¬ (((ueventBytes (r :: rs)).length : Int) < 0) := by omega
  have h1 : ¬ (((ueventBytes (r :: rs)).length : Int) < 32 ∨
      ((ueventBytes (r :: rs)).length : Int) > 2000) := by omega
  have hhead : cstr (ueventBytes (r :: rs) ++ stale) = r := by
    have : ueventBytes (r :: rs) ++ stale = r ++ 0 :: (ueventBytes rs ++ stale) := by
      simp [ueventBytes]
    rw [this, cstr_record r _ hr]
  have hdev : RKADK_STORAGE_Getparameters (ueventBytes (r :: rs) ++ stale)
      (ueventBytes (r :: rs)).length (ascii "DEVNAME") =
      (firstRecord (ascii "DEVNAME") (r :: rs) 0).map (· + 8) := by
    unfold RKADK_STORAGE_Getparameters
    rw [Search_records _ stale r rs hrec]
    cases firstRecord (ascii "DEVNAME") (r :: rs) 0 with
    | none => rfl
    | some k => rfl
  unfold EventListenerThread_message MAX_TYPE_NMSG_LEN
  rw [if_neg h0, if_neg h1, hhead, hdev]
  simp only [Search_records _ stale r rs hrec, firstRecord_isSome, strstr_zero_iff]

/-- With both allocations granted, sending the name that starts at `off` enqueues
one message that carries it. -/
theorem EventListenerThread_send_name (failure msg : Int) (front : List Nat) (name : CStr)
    (rest : List Nat) (stMsgHd : RKADK_TMSG_BUFFER) (h : 0 ∉ name) :
    EventListenerThread_send failure true true msg (front ++ (name ++ 0 :: rest))
        (some front.length) stMsgHd = some (enqueued stMsgHd msg name) := by
  have hpos : (0 : Int) < (name.length : Int) + 1 := by omega
  have hnat : ((name.length : Int) + 1).toNat = name.length + 1 := by omega
  have htake : List.take (name.length + 1) (name ++ 0 :: rest) = name ++ [0] := by
    rw [List.take_append_eq_append_take]
    simp
  unfold EventListenerThread_send RKADK_STORAGE_MsgSendMsg RKADK_STORAGE_MsgPutMsgToBuffer
  simp only [List.drop_left, cstr_record name rest h, if_pos hpos, hnat, htake,
    MsgPutMsgToBuffer_link_eq]
  simp [enqueued]

/-- The name sent for a message whose first `DEVNAME` text is its `DEVNAME=` record. -/
theorem listener_send_record (failure msg : Int) (pre post : List CStr) (name : CStr)
    (stale : List Nat) (stMsgHd : RKADK_TMSG_BUFFER)
    (hname : 0 ∉ name)
    (hfirst : ∀ x ∈ pre, strstr x (ascii "DEVNAME") = none) :
    EventListenerThread_send failure true true msg
        (ueventBytes (pre ++ (ascii "DEVNAME=" ++ name) :: post) ++ stale)
        ((firstRecord (ascii "DEVNAME") (pre ++ (ascii "DEVNAME=" ++ name) :: post) 0).map
          (· + 8)) stMsgHd =
      some (enqueued stMsgHd msg name) := by
  have hkey : ascii "DEVNAME=" = ascii "DEVNAME" ++ [61] := by decide
  have hrecord : strstr (ascii "DEVNAME=" ++ name) (ascii "DEVNAME") = some 0 := by
    rw [strstr_zero_iff, hkey, List.append_assoc]
    exact startsWith_append _ _
  have hlen8 : (ascii "DEVNAME=").length = 8 := by decide
  have hmem : ueventBytes (pre ++ (ascii "DEVNAME=" ++ name) :: post) ++ stale =
      (ueventBytes pre ++ ascii "DEVNAME=") ++ (name ++ 0 :: (ueventBytes post ++ stale)) := by
    rw [ueventBytes_append]
    simp [ueventBytes]
  have hoff : (firstRecord (ascii "DEVNAME") (pre ++ (ascii "DEVNAME=" ++ name) :: post) 0).map
      (· + 8) = some (ueventBytes pre ++ ascii "DEVNAME=").length := by
    rw [firstRecord_at _ pre _ post 0 0 hfirst hrecord, List.length_append, hlen8]
    simp
  rw [hmem, hoff]
  exact EventListenerThread_send_name failure msg _ name _ stMsgHd hname

/-- C18 (as amended): take a received message made of NUL-terminated records `rs`,
followed in the array by any stale bytes. If its length is accepted (32 to
2000), it begins with `libudev`, a record contains `DEVTYPE=partition` or
`DEVTYPE=disk`, it has a record `DEVNAME=<name>` before which no record contains
the text `DEVNAME`, and both allocations succeed, then the listener enqueues
exactly one message carrying `<name>`: `MSG_DEV_ADD` when a record contains
`ACTION=add`, otherwise `MSG_DEV_REMOVE` when one contains `ACTION=remove`,
otherwise `MSG_DEV_CHANGED` when one contains `ACTION=change`. A message that
does not begin with `libudev`, or has neither `DEVTYPE` text, leaves the queue as
it was. -/
theorem C18_listener_enqueues (failure : Int) (rs : List CStr) (stale : List Nat)
    (stMsgHd : RKADK_TMSG_BUFFER) (hrec : ∀ r ∈ rs, 0 ∉ r) :
    (∀ (pre post : List CStr) (name : CStr),
      32 ≤ (ueventBytes rs).length → (ueventBytes rs).length ≤ 2000 →
      recordsBegin rs (ascii "libudev") = true →
      (recordsContain rs (ascii "DEVTYPE=partition") = true ∨
        recordsContain rs (ascii "DEVTYPE=disk") = true) →
      rs = pre ++ (ascii "DEVNAME=" ++ name) :: post →
      (∀ r ∈ pre, strstr r (ascii "DEVNAME") = none) →
      (recordsContain rs (ascii "ACTION=add") = true →
        EventListenerThread_message failure true true (ueventBytes rs ++ stale)
          (ueventBytes rs).length stMsgHd = some (enqueued stMsgHd MSG_DEV_ADD name)) ∧
      (recordsContain rs (ascii "ACTION=add") = false →
        recordsContain rs (ascii "ACTION=remove") = true →
        EventListenerThread_message failure true true (ueventBytes rs ++ stale)
          (ueventBytes rs).length stMsgHd = some (enqueued stMsgHd MSG_DEV_REMOVE name)) ∧
      (recordsContain rs (ascii "ACTION=add") = false →
        recordsContain rs (ascii "ACTION=remove") = false →
        recordsContain rs (ascii "ACTION=change") = true →
        EventListenerThread_message failure true true (ueventBytes rs ++ stale)
          (ueventBytes rs).length stMsgHd = some (enqueued stMsgHd MSG_DEV_CHANGED name))) ∧
    (∀ (mallocElm mallocData : Bool),
      (recordsBegin rs (ascii "libudev") = false ∨
        (recordsContain rs (ascii "DEVTYPE=partition") = false ∧
          recordsContain rs (ascii "DEVTYPE=disk") = false)) →
      EventListenerThread_message failure mallocElm mallocData (ueventBytes rs ++ stale)
        (ueventBytes rs).length stMsgHd = some stMsgHd) := by
  constructor
  · intro pre post name hlo hhi hbegin htype hshape hfirst
    cases rs with
    | nil => simp [recordsBegin] at hbegin
    | cons r rs =>
      have hname : 0 ∉ name := by
        have hmem : (ascii "DEVNAME=" ++ name) ∈ r :: rs := by rw [hshape]; simp
        have h0 := hrec _ hmem
        exact fun h => h0 (List.mem_append_right _ h)
      have hb : startsWith (ascii "libudev") r = true := hbegin
      have hsend : ∀ msg : Int,
          EventListenerThread_send failure true true msg (ueventBytes (r :: rs) ++ stale)
            ((firstRecord (ascii "DEVNAME") (r :: rs) 0).map (· + 8)) stMsgHd =
          some (enqueued stMsgHd msg name) := by
        intro msg
        rw [hshape]
        exact listener_send_record failure msg pre post name stale stMsgHd hname hfirst
      rw [listener_records failure true true r rs stale stMsgHd hrec ⟨hlo, hhi⟩,
        if_pos hb, if_pos htype]
      refine ⟨?_, ?_, ?_⟩
      · intro hadd
        rw [if_pos hadd, hsend]
      · intro hadd hremove
        rw [if_neg (by simp [hadd]), if_pos hremove, hsend]
      · intro hadd hremove hchange
        rw [if_neg (by simp [hadd]), if_neg (by simp [hremove]), if_pos hchange, hsend]
  · intro mallocElm mallocData hlack
    by_cases hl : 32 ≤ (ueventBytes rs).length ∧ (ueventBytes rs).length ≤ 2000
    · cases rs with
      | nil => simp [ueventBytes] at hl
      | cons r rs =>
        rw [listener_records failure mallocElm mallocData r rs stale stMsgHd hrec hl]
        rcases hlack with hb | ⟨hp, hd⟩
        · have hb' : ¬ (startsWith (ascii "libudev") r = true) := by
            have : startsWith (ascii "libudev") r = false := hb
            simp [this]
          rw [if_neg hb']
        · have ht : ¬ (recordsContain (r :: rs) (ascii "DEVTYPE=partition") = true ∨
              recordsContain (r :: rs) (ascii "DEVTYPE=disk") = true) := by
            simp [hp, hd]
          rw [if_neg ht]
          split <;> rfl
    · exact listener_refused failure mallocElm mallocData _ _ stMsgHd hl

theorem C18_listener_witness :
    EventListenerThread_message (-1) true true
        (ueventBytes (sampleUevent (ascii "ACTION=remove")) ++ [65, 0])
        (ueventBytes (sampleUevent (ascii "ACTION=remove"))).length sampleQueue =
      some (enqueued sampleQueue MSG_DEV_REMOVE (ascii "/dev/sda")) ∧
    EventListenerThread_message (-1) true false
        (ueventBytes [ascii "libudev", ascii "DEVNAME=/dev/sda", ascii "ACTION=remove",
          ascii "DEVTYPE=floppy"] ++ [65, 0])
        (ueventBytes [ascii "libudev", ascii "DEVNAME=/dev/sda", ascii "ACTION=remove",
          ascii "DEVTYPE=floppy"]).length sampleQueue =
      some sampleQueue :=
  ⟨((C18_listener_enqueues (-1) (sampleUevent (ascii "ACTION=remove")) [65, 0] sampleQueue
      (by decide)).1
      [ascii "libudev", ascii "SUBSYSTEM=block", ascii "ACTION=remove"] [ascii "DEVTYPE=disk"]
      (ascii "/dev/sda") (by decide) (by decide) (by decide) (by decide) (by decide)
      (by decide)).2.1 (by decide) (by decide),
   (C18_listener_enqueues (-1) [ascii "libudev", ascii "DEVNAME=/dev/sda",
      ascii "ACTION=remove", ascii "DEVTYPE=floppy"] [65, 0] sampleQueue (by decide)).2
      true false (Or.inr (by decide))⟩

/-- C18 as stated fails. A message of accepted length that begins with `libudev`,
has a `DEVTYPE=disk` record and the record `DEVNAME=/dev/sda`, but whose action
is `move`, enqueues nothing. A message with the record `ACTION=remove` and the
text `ACTION=add` inside a label enqueues `MSG_DEV_ADD`, not `MSG_DEV_REMOVE`.
A message with an earlier record `ID_DEVNAME=x1` carries `x1`, not the name of
its `DEVNAME=` record. With the element's allocation refused nothing is
enqueued. -/
theorem C18_counterexample :
    (32 ≤ (ueventBytes (sampleUevent (ascii "ACTION=move"))).length ∧
      (ueventBytes (sampleUevent (ascii "ACTION=move"))).length ≤ 2000 ∧
      recordsBegin (sampleUevent (ascii "ACTION=move")) (ascii "libudev") = true ∧
      recordsContain (sampleUevent (ascii "ACTION=move")) (ascii "DEVTYPE=disk") = true ∧
      ascii "DEVNAME=/dev/sda" ∈ sampleUevent (ascii "ACTION=move") ∧
      EventListenerThread_message (-1) true true
          (ueventBytes (sampleUevent (ascii "ACTION=move")))
          (ueventBytes (sampleUevent (ascii "ACTION=move"))).length sampleQueue =
        some sampleQueue) ∧
    EventListenerThread_message (-1) true true
        (ueventBytes [ascii "libudev", ascii "ACTION=remove", ascii "DEVNAME=/dev/sda",
          ascii "DEVTYPE=disk", ascii "ID_FS_LABEL=ACTION=add"])
        (ueventBytes [ascii "libudev", ascii "ACTION=remove", ascii "DEVNAME=/dev/sda",
          ascii "DEVTYPE=disk", ascii "ID_FS_LABEL=ACTION=add"]).length sampleQueue =
      some (enqueued sampleQueue MSG_DEV_ADD (ascii "/dev/sda")) ∧
    EventListenerThread_message (-1) true true
        (ueventBytes [ascii "libudev", ascii "ID_DEVNAME=x1", ascii "ACTION=add",
          ascii "DEVNAME=/dev/sda", ascii "DEVTYPE=disk"])
        (ueventBytes [ascii "libudev", ascii "ID_DEVNAME=x1", ascii "ACTION=add",
          ascii "DEVNAME=/dev/sda", ascii "DEVTYPE=disk"]).length sampleQueue =
      some (enqueued sampleQueue MSG_DEV_ADD (ascii "x1")) ∧
    EventListenerThread_message (-1) false true
        (ueventBytes (sampleUevent (ascii "ACTION=add")))
        (ueventBytes (sampleUevent (ascii "ACTION=add"))).length sampleQueue =
      some sampleQueue := by
  decide

/-- C19: the listener does not complete on every message. For a message of
accepted length made of records that begins with `libudev`, has a `DEVTYPE=disk`
or `DEVTYPE=partition` text and one of the three actions, but no `DEVNAME` text,
`RKADK_STORAGE_Getparameters` returns the null pointer and the listener calls
`strlen` on it before `RKADK_STORAGE_MsgSendMsg` can refuse it: the round has no
result. -/
theorem C19_nameless_message_reads_null (failure : Int) (mallocElm mallocData : Bool)
    (rs : List CStr) (stale : List Nat) (stMsgHd : RKADK_TMSG_BUFFER)
    (hrec : ∀ r ∈ rs, 0 ∉ r)
    (hlen : 32 ≤ (ueventBytes rs).length ∧ (ueventBytes rs).length ≤ 2000)
    (hbegin : recordsBegin rs (ascii "libudev") = true)
    (htype : recordsContain rs (ascii "DEVTYPE=partition") = true ∨
      recordsContain rs (ascii "DEVTYPE=disk") = true)
    (hname : recordsContain rs (ascii "DEVNAME") = false)
    (haction : recordsContain rs (ascii "ACTION=add") = true ∨
      recordsContain rs (ascii "ACTION=remove") = true ∨
      recordsContain rs (ascii "ACTION=change") = true) :
    EventListenerThread_message failure mallocElm mallocData (ueventBytes rs ++ stale)
      (ueventBytes rs).length stMsgHd = none := by
  cases rs with
  | nil => simp [recordsBegin] at hbegin
  | cons r rs =>
    have hb : startsWith (ascii "libudev") r = true := hbegin
    have hdev : firstRecord (ascii "DEVNAME") (r :: rs) 0 = none := by
      have h := firstRecord_isSome (ascii "DEVNAME") (r :: rs) 0
      rw [hname] at h
      cases hf : firstRecord (ascii "DEVNAME") (r :: rs) 0 with
      | none => rfl
      | some k => rw [hf] at h; simp at h
    rw [listener_records failure mallocElm mallocData r rs stale stMsgHd hrec hlen,
      if_pos hb, if_pos htype, hdev]
    simp only [Option.map_none', EventListenerThread_send]
    rcases haction with h | h | h
    · rw [if_pos h]
    · rw [if_pos h, ite_self]
    · rw [if_pos h, ite_self, ite_self]

theorem C19_nameless_message_witness :
    EventListenerThread_message (-1) true true
      (ueventBytes (sampleUeventNameless (ascii "ACTION=add")) ++ [65, 0])
      (ueventBytes (sampleUeventNameless (ascii "ACTION=add"))).length sampleQueue = none :=
  C19_nameless_message_reads_null (-1) true true (sampleUeventNameless (ascii "ACTION=add"))
    [65, 0] sampleQueue (by decide) (by decide) (by decide) (Or.inr (by decide)) (by decide)
    (Or.inl (by decide))

/-! ## The file monitor -/

/-- With the allocation granted `RKADK_STORAGE_FileListAdd` returns 0. -/
theorem FileListAdd_granted (folder : RKADK_STR_FOLDER) (filename : CStr) (statbuf : stat) :
    (RKADK_STORAGE_FileListAdd true folder filename statbuf).1 = 0 := by
  unfold RKADK_STORAGE_FileListAdd
  cases hfiles : folder.pstFileListFirst with
  | nil => simp
  | cons first others =>
    simp only []
    rcases hu : FileListAdd_unlink filename statbuf (first :: others) with ⟨found, chain⟩
    cases found <;> simp

/-- After a granted add the index holds a record of that name with the values of
`statbuf`, and path and watch descriptor are as before. -/
theorem FileListAdd_holds (folder : RKADK_STR_FOLDER) (filename : CStr) (statbuf : stat) :
    (RKADK_STORAGE_FileListAdd true folder filename statbuf).2.cpath = folder.cpath ∧
    (RKADK_STORAGE_FileListAdd true folder filename statbuf).2.wd = folder.wd ∧
    ∃ r ∈ (RKADK_STORAGE_FileListAdd true folder filename statbuf).2.pstFileListFirst,
      r.filename = filename ∧ r.stSize = statbuf.st_size ∧
      r.stSpace = statbuf.st_blocks * 512 ∧ r.stTime = statbuf.st_mtime := by
  have hframe := FileListAdd_frame true folder filename statbuf
  refine ⟨hframe.2.1, hframe.2.2, ?_⟩
  obtain ⟨r, hname, hsize, hspace, htime, hr⟩ :=
    FileListAdd_ok true folder filename statbuf (FileListAdd_granted folder filename statbuf)
  refine ⟨r, ?_, hname, hsize, hspace, htime⟩
  rw [hr]
  exact (FileListAdd_insert_perm _ r _).mem_iff.2 (List.mem_cons_self _ _)

/-- The folder a matching event with the delete bits clear or the close-write bit
set leaves behind holds the record. -/
theorem FileMonitorThread_folder_holds (lstat : CStr → Option stat) (event : inotify_event)
    (folder : RKADK_STR_FOLDER) (statbuf : stat)
    (hwd : event.wd = folder.wd)
    (hstat : lstat (folder.cpath ++ event.name) = some statbuf)
    (hkind : event.mask &&& IN_CLOSE_WRITE ≠ 0 ∨
      (event.mask &&& IN_MOVED_TO ≠ 0 ∧ event.mask &&& IN_DELETE = 0 ∧
        event.mask &&& IN_MOVED_FROM = 0)) :
    (FileMonitorThread_folder lstat true event folder).cpath = folder.cpath ∧
    ∃ r ∈ (FileMonitorThread_folder lstat true event folder).pstFileListFirst,
      r.filename = event.name ∧ r.stSize = statbuf.st_size ∧
      r.stSpace = statbuf.st_blocks * 512 ∧ r.stTime = statbuf.st_mtime := by
  have hadd : ∀ g : RKADK_STR_FOLDER, g.cpath = folder.cpath →
      (FileMonitorThread_add lstat true event g).cpath = folder.cpath ∧
      ∃ r ∈ (FileMonitorThread_add lstat true event g).pstFileListFirst,
        r.filename = event.name ∧ r.stSize = statbuf.st_size ∧
        r.stSpace = statbuf.st_blocks * 512 ∧ r.stTime = statbuf.st_mtime := by
    intro g hg
    unfold FileMonitorThread_add
    rw [hg, hstat]
    have h := FileListAdd_holds g event.name statbuf
    exact ⟨h.1.trans hg, h.2.2⟩
  unfold FileMonitorThread_folder
  rw [if_pos hwd]
  by_cases hcw : event.mask &&& IN_CLOSE_WRITE ≠ 0
  · simp only [if_pos hcw]
    apply hadd
    have hmoved : (FileMonitorThread_add lstat true event folder).cpath = folder.cpath :=
      (hadd folder rfl).1
    split
    · rw [(FileListDel_frame _ _).2.1]
      split
      · exact hmoved
      · rfl
    · split
      · exact hmoved
      · rfl
  · rcases hkind with h | ⟨hto, hdel, hfrom⟩
    · exact absurd h hcw
    · have hnodel : ¬ (event.mask &&& IN_DELETE ≠ 0 ∨ event.mask &&& IN_MOVED_FROM ≠ 0) := by
        simp [hdel, hfrom]
      simp only [if_neg hcw, if_neg hnodel, if_pos hto]
      exact hadd folder rfl

/-- C20 (as amended): for an event with a non-empty name field whose watch
descriptor is that of the configured directory number `i`, for which `lstat` of
the full path succeeds and the allocation of a record is granted: when the event
has the `IN_CLOSE_WRITE` bit, or the `IN_MOVED_TO` bit without `IN_DELETE` and
`IN_MOVED_FROM`, the index of that directory afterwards holds a record of the
event's name with the size, space and time of the stat result. -/
theorem C20_event_adds_record (lstat : CStr → Option stat) (event : inotify_event)
    (stDevSta : RKADK_STR_DEV_STA) (i : Nat) (folder : RKADK_STR_FOLDER) (statbuf : stat)
    (hlen : 0 < event.len)
    (hfolder : stDevSta.pstFolder[i]? = some folder)
    (hwd : event.wd = folder.wd)
    (hstat : lstat (folder.cpath ++ event.name) = some statbuf)
    (hkind : event.mask &&& IN_CLOSE_WRITE ≠ 0 ∨
      (event.mask &&& IN_MOVED_TO ≠ 0 ∧ event.mask &&& IN_DELETE = 0 ∧
        event.mask &&& IN_MOVED_FROM = 0)) :
    ∃ after : RKADK_STR_FOLDER,
      (FileMonitorThread_event lstat true event stDevSta).pstFolder[i]? = some after ∧
      after.cpath = folder.cpath ∧
      ∃ r ∈ after.pstFileListFirst,
        r.filename = event.name ∧ r.stSize = statbuf.st_size ∧
        r.stSpace = statbuf.st_blocks * 512 ∧ r.stTime = statbuf.st_mtime := by
  have h := FileMonitorThread_folder_holds lstat event folder statbuf hwd hstat hkind
  refine ⟨FileMonitorThread_folder lstat true event folder, ?_, h.1, h.2⟩
  unfold FileMonitorThread_event
  simp only [if_pos hlen]
  split <;> simp [hfolder]

theorem C20_event_witness :
    ∃ after : RKADK_STR_FOLDER,
      (FileMonitorThread_event sampleLstat true (sampleEvent IN_CLOSE_WRITE)
        (sampleDev [sampleByName])).pstFolder[0]? = some after ∧
      after.cpath = sampleByName.cpath ∧
      ∃ r ∈ after.pstFileListFirst,
        r.filename = (sampleEvent IN_CLOSE_WRITE).name ∧ r.stSize = (sampleStat 5 1 7).st_size ∧
        r.stSpace = (sampleStat 5 1 7).st_blocks * 512 ∧
        r.stTime = (sampleStat 5 1 7).st_mtime :=
  C20_event_adds_record sampleLstat (sampleEvent IN_CLOSE_WRITE) (sampleDev [sampleByName]) 0
    sampleByName (sampleStat 5 1 7) (by decide) (by decide) (by decide) (by decide)
    (Or.inl (by decide))

/-- C20 as stated fails for the create event: with the watch descriptor of the
directory, a non-empty name and a succeeding `lstat`, an `IN_CREATE` event leaves
an empty index empty. A close-after-write event whose allocation is refused
does the same. -/
theorem C20_counterexample :
    (0 < (sampleEvent IN_CREATE).len ∧
      (sampleEvent IN_CREATE).wd = (emptyIndex [47] .SORT_FILE_NAME 1).wd ∧
      sampleLstat ((emptyIndex [47] .SORT_FILE_NAME 1).cpath ++ (sampleEvent IN_CREATE).name) =
        some (sampleStat 5 1 7) ∧
      (FileMonitorThread_event sampleLstat true (sampleEvent IN_CREATE)
        (sampleDev [emptyIndex [47] .SORT_FILE_NAME 1])).pstFolder =
        [emptyIndex [47] .SORT_FILE_NAME 1]) ∧
    (FileMonitorThread_event sampleLstat false (sampleEvent IN_CLOSE_WRITE)
      (sampleDev [emptyIndex [47] .SORT_FILE_NAME 1])).pstFolder =
      [emptyIndex [47] .SORT_FILE_NAME 1] := by
  decide

/-! ## C22: the message queue -/

/-- A get on a queue whose counter matches its chain: nothing from the empty queue,
the first element otherwise. -/
theorem MsgGet_counted (buf : RKADK_TMSG_BUFFER) (h : buf.num = buf.first.length) :
    RKADK_STORAGE_MsgGetMsgFromBufferTimeout buf =
      match buf.first with
      | [] => some (none, buf)
      | elm :: next => some (some elm, { buf with first := next, num := buf.num - 1 }) := by
  unfold RKADK_STORAGE_MsgGetMsgFromBufferTimeout
  cases hfirst : buf.first with
  | nil =>
    rw [hfirst] at h
    have h0 : ¬ (0 < buf.num) := by simp [h]
    rw [if_neg h0]
  | cons elm next =>
    rw [hfirst] at h
    rw [List.length_cons] at h
    have hpos : 0 < buf.num := by rw [h]; omega
    rw [if_pos hpos]
    by_cases h1 : 1 = buf.num
    · have hnext : next = [] := by
        rw [h] at h1
        have : next.length = 0 := by omega
        exact List.length_eq_zero.1 this
      rw [if_pos h1, hnext]
      simp [← h1]
    · rw [if_neg h1]

/-- The counter follows a put. -/
theorem MsgPut_counted (buf : RKADK_TMSG_BUFFER) (elm : RKADK_TMSG_ELEMENT)
    (h : buf.num = buf.first.length) :
    (RKADK_STORAGE_MsgPutMsgToBuffer buf elm).2.first = buf.first ++ [elm] ∧
    (RKADK_STORAGE_MsgPutMsgToBuffer buf elm).2.num =
      (RKADK_STORAGE_MsgPutMsgToBuffer buf elm).2.first.length := by
  unfold RKADK_STORAGE_MsgPutMsgToBuffer
  simp [MsgPutMsgToBuffer_link_eq, h]

/-- A run from a queue whose counter matches its chain ends, hands out the elements
in the order they were linked, and keeps the counter right. -/
theorem MsgRun_counted (ops : List MsgOp) :
    ∀ buf : RKADK_TMSG_BUFFER, buf.num = buf.first.length →
      ∃ got last, MsgRun ops buf = some (got, last) ∧
        got ++ last.first = buf.first ++ MsgOp_puts ops ∧
        last.num = last.first.length := by
  induction ops with
  | nil =>
    intro buf h
    exact ⟨[], buf, rfl, by simp [MsgOp_puts], h⟩
  | cons op ops ih =>
    intro buf h
    cases op with
    | put elm =>
      obtain ⟨hfirst, hnum⟩ := MsgPut_counted buf elm h
      obtain ⟨got, last, hrun, hgot, hlast⟩ := ih _ hnum
      refine ⟨got, last, ?_, ?_, hlast⟩
      · simp only [MsgRun]
        exact hrun
      · rw [hgot, hfirst]
        simp [MsgOp_puts]
    | get =>
      have hget := MsgGet_counted buf h
      cases hfirst : buf.first with
      | nil =>
        rw [hfirst] at hget
        obtain ⟨got, last, hrun, hgot, hlast⟩ := ih buf h
        refine ⟨got, last, ?_, ?_, hlast⟩
        · simp only [MsgRun, hget, hrun]
          rfl
        · rw [hgot, hfirst]
          simp [MsgOp_puts]
      | cons elm next =>
        rw [hfirst] at hget
        have hnum : ({ buf with first := next, num := buf.num - 1 } : RKADK_TMSG_BUFFER).num =
            ({ buf with first := next, num := buf.num - 1 } : RKADK_TMSG_BUFFER).first.length := by
          rw [hfirst] at h
          simp [h]
        obtain ⟨got, last, hrun, hgot, hlast⟩ := ih _ hnum
        refine ⟨elm :: got, last, ?_, ?_, hlast⟩
        · simp only [MsgRun, hget, hrun]
          rfl
        · simp only [List.cons_append, hgot]
          simp [MsgOp_puts]

/-- C22: every sequence of puts and gets run one at a time from the queue of
`RKADK_STORAGE_MsgCreate` ends; the elements the gets returned, followed by the
elements still linked, are the elements put, in the order they were put (so
the gets return a prefix of the puts, each at most once); the counter `num` is
the number of linked elements; and a further get returns the oldest linked
element and unlinks it. -/
theorem C22_queue_is_fifo (ops : List MsgOp) :
    ∃ got last, MsgRun ops MsgCreate_buffer = some (got, last) ∧
      got ++ last.first = MsgOp_puts ops ∧
      last.num = last.first.length ∧
      (∀ elm next, last.first = elm :: next →
        RKADK_STORAGE_MsgGetMsgFromBufferTimeout last =
          some (some elm, { last with first := next, num := last.num - 1 })) := by
  obtain ⟨got, last, hrun, hgot, hlast⟩ := MsgRun_counted ops MsgCreate_buffer rfl
  refine ⟨got, last, hrun, by simpa [MsgCreate_buffer] using hgot, hlast, ?_⟩
  intro elm next hfirst
  rw [MsgGet_counted last hlast, hfirst]

theorem C22_queue_witness :
    MsgRun [.put (sampleMsg 1), .put (sampleMsg 2), .get, .put (sampleMsg 3), .get]
        MsgCreate_buffer =
      some ([sampleMsg 1, sampleMsg 2], { first := [sampleMsg 3], num := 1, quit := 0 }) ∧
    ∃ got last,
      MsgRun [.put (sampleMsg 1), .put (sampleMsg 2), .get] MsgCreate_buffer =
        some (got, last) ∧
      got ++ last.first = MsgOp_puts [.put (sampleMsg 1), .put (sampleMsg 2), .get] ∧
      last.num = last.first.length ∧
      (∀ elm next, last.first = elm :: next →
        RKADK_STORAGE_MsgGetMsgFromBufferTimeout last =
          some (some elm, { last with first := next, num := last.num - 1 })) :=
  ⟨by decide, C22_queue_is_fifo [.put (sampleMsg 1), .put (sampleMsg 2), .get]⟩

/-! ## C23: what `RKADK_STORAGE_Search` finds -/

/-- A match of the model of `strstr` is an occurrence of the text at that offset. -/
theorem strstr_some_at (hay needle : CStr) :
    ∀ k, strstr hay needle = some k →
      ∃ front rest, hay = front ++ needle ++ rest ∧ front.length = k := by
  induction hay with
  | nil =>
    intro k hk
    unfold strstr at hk
    by_cases h : startsWith needle [] = true
    · rw [if_pos h] at hk
      obtain ⟨rest, hrest⟩ := (startsWith_iff needle []).1 h
      refine ⟨[], rest, by simpa using hrest, ?_⟩
      simpa using hk
    · rw [if_neg h] at hk
      cases hk
  | cons y ys ih =>
    intro k hk
    unfold strstr at hk
    by_cases h : startsWith needle (y :: ys) = true
    · rw [if_pos h] at hk
      obtain ⟨rest, hrest⟩ := (startsWith_iff needle (y :: ys)).1 h
      refine ⟨[], rest, by simpa using hrest, ?_⟩
      simpa using hk
    · rw [if_neg h] at hk
      cases hs : strstr ys needle with
      | none => rw [hs] at hk; cases hk
      | some j =>
        rw [hs] at hk
        obtain ⟨front, rest, hfront, hlen⟩ := ih j hs
        refine ⟨y :: front, rest, by simp [hfront], ?_⟩
        simp only [Option.map_some', Option.some.injEq] at hk
        simp [hlen, hk]

/-- A match among the records is an occurrence of the text inside the bytes of the
records. -/
theorem firstRecord_some_at (str : CStr) (rs : List CStr) :
    ∀ off k, firstRecord str rs off = some k →
      ∃ front rest, ueventBytes rs = front ++ str ++ rest ∧ off + front.length = k := by
  induction rs with
  | nil => intro off k hk; cases hk
  | cons r rs ih =>
    intro off k hk
    unfold firstRecord at hk
    cases hs : strstr r str with
    | some j =>
      rw [hs] at hk
      obtain ⟨front, rest, hfront, hlen⟩ := strstr_some_at r str j hs
      refine ⟨front, rest ++ 0 :: ueventBytes rs, ?_, ?_⟩
      · simp [ueventBytes, hfront]
      · simp only [Option.some.injEq] at hk
        omega
    | none =>
      rw [hs] at hk
      obtain ⟨front, rest, hfront, hlen⟩ := ih (off + r.length + 1) k hk
      refine ⟨r ++ 0 :: front, rest, ?_, ?_⟩
      · simp [ueventBytes, hfront]
      · simp only [List.length_append, List.length_cons]
        omega

/-- C23 (as amended): when the first `len` bytes of the buffer are NUL-terminated
records (at least one), `RKADK_STORAGE_Search` returns a match exactly when the
pattern occurs inside one of those records; the match it returns is an
occurrence of the pattern that lies within the first `len` bytes; and what the
buffer holds after them does not change the result. -/
theorem C23_search_in_records (str : CStr) (rs : List CStr) (stale : List Nat)
    (hne : rs ≠ []) (hrec : ∀ r ∈ rs, 0 ∉ r) :
    ((RKADK_STORAGE_Search (ueventBytes rs ++ stale) (ueventBytes rs).length str).isSome = true ↔
      ∃ r ∈ rs, ∃ front rest, r = front ++ str ++ rest) ∧
    (∀ k, RKADK_STORAGE_Search (ueventBytes rs ++ stale) (ueventBytes rs).length str = some k →
      ∃ front rest, ueventBytes rs = front ++ str ++ rest ∧ front.length = k) ∧
    (∀ other : List Nat,
      RKADK_STORAGE_Search (ueventBytes rs ++ other) (ueventBytes rs).length str =
        RKADK_STORAGE_Search (ueventBytes rs ++ stale) (ueventBytes rs).length str) := by
  cases rs with
  | nil => exact absurd rfl hne
  | cons r rs =>
    refine ⟨?_, ?_, ?_⟩
    · rw [Search_records str stale r rs hrec, firstRecord_isSome]
      unfold recordsContain
      simp only [List.any_eq_true, strstr_isSome_iff]
    · intro k hk
      rw [Search_records str stale r rs hrec] at hk
      obtain ⟨front, rest, hfront, hlen⟩ := firstRecord_some_at str (r :: rs) 0 k hk
      exact ⟨front, rest, hfront, by omega⟩
    · intro other
      rw [Search_records str stale r rs hrec, Search_records str other r rs hrec]

theorem C23_search_witness :
    ((RKADK_STORAGE_Search (ueventBytes (sampleUevent (ascii "ACTION=add")) ++ [65, 0])
        (ueventBytes (sampleUevent (ascii "ACTION=add"))).length (ascii "DEVTYPE=disk")).isSome
        = true ↔
      ∃ r ∈ sampleUevent (ascii "ACTION=add"), ∃ front rest,
        r = front ++ ascii "DEVTYPE=disk" ++ rest) ∧
    RKADK_STORAGE_Search (ueventBytes (sampleUevent (ascii "ACTION=add")) ++ [65, 0])
        (ueventBytes (sampleUevent (ascii "ACTION=add"))).length (ascii "DEVTYPE=disk") =
      some 52 :=
  ⟨(C23_search_in_records (ascii "DEVTYPE=disk") (sampleUevent (ascii "ACTION=add")) [65, 0]
      (by decide) (by decide)).1,
   by decide⟩

/-- C23 as stated fails. In the buffer `ab\0cdXY\0` with `len` 5 the pattern `XY`
does not occur in the first 5 bytes, yet the record read after the NUL runs on
past them and the match returned is at offset 5. With `len` 0 the first string
of the buffer is searched all the same. -/
theorem C23_counterexample :
    (strstr ((ueventBytes [ascii "ab", ascii "cdXY"]).take 5) (ascii "XY") = none ∧
      RKADK_STORAGE_Search (ueventBytes [ascii "ab", ascii "cdXY"]) 5 (ascii "XY") = some 5) ∧
    RKADK_STORAGE_Search (ueventBytes [ascii "XY"]) 0 (ascii "XY") = some 0 := by
  decide

/-! ## C21: the first pass over a directory -/

/-- A granted add of another name keeps the records of the index. -/
theorem FileListAdd_keeps (folder : RKADK_STR_FOLDER) (filename : CStr) (statbuf : stat)
    (r : RKADK_STR_FILE) (hr : r ∈ folder.pstFileListFirst) (hname : r.filename ≠ filename) :
    r ∈ (RKADK_STORAGE_FileListAdd true folder filename statbuf).2.pstFileListFirst := by
  obtain ⟨r1, -, -, -, -, h⟩ :=
    FileListAdd_ok true folder filename statbuf (FileListAdd_granted folder filename statbuf)
  rw [h]
  refine (FileListAdd_insert_perm _ r1 _).mem_iff.2 (List.mem_cons_of_mem _ ?_)
  exact (List.mem_eraseP_of_neg (by simpa using hname)).2 hr

/-- A granted add of `filename` keeps or renews what the index holds for a name whose
stat result is the one `lstat` gives. -/
theorem FileListAdd_keeps_held (lstat : CStr → Option stat) (folder : RKADK_STR_FOLDER)
    (filename : CStr) (statbuf : stat) (name : CStr) (st : stat)
    (hfile : lstat filename = some statbuf) (hname : lstat name = some st)
    (h : HoldsRecord folder name st) :
    HoldsRecord (RKADK_STORAGE_FileListAdd true folder filename statbuf).2 name st := by
  by_cases heq : filename = name
  · have hst : statbuf = st := by
      rw [heq, hname] at hfile
      exact (Option.some.inj hfile).symm
    rw [← heq, ← hst]
    exact (FileListAdd_holds folder filename statbuf).2.2
  · obtain ⟨r, hr, hrn, hrest⟩ := h
    exact ⟨r, FileListAdd_keeps folder filename statbuf r hr (by rw [hrn]; exact Ne.symm heq),
      hrn, hrest⟩

/-- The loop over `readdir` keeps what the index holds for a name. -/
theorem FileScanThread_readdir_keeps (lstat : CStr → Option stat)
    (s32MountStatus : RKADK_MOUNT_STATUS) (s32AutoDel : Int) (name : CStr) (st : stat)
    (hname : lstat name = some st) (entries : List CStr) :
    ∀ folder : RKADK_STR_FOLDER, HoldsRecord folder name st →
      HoldsRecord (FileScanThread_readdir lstat true s32MountStatus s32AutoDel entries folder)
        name st := by
  induction entries with
  | nil => intro folder h; exact h
  | cons d_name entries ih =>
    intro folder h
    unfold FileScanThread_readdir
    split
    · cases hd : lstat d_name with
      | none => exact h
      | some statbuf =>
        simp only []
        split
        · exact ih folder h
        · rw [if_neg (by simp [FileListAdd_granted])]
          exact ih _ (FileListAdd_keeps_held lstat folder d_name statbuf name st hd hname h)
    · exact h

/-- Entries after one whose `lstat` fails are not read. -/
theorem FileScanThread_readdir_break (lstat : CStr → Option stat) (mallocOk : Bool)
    (s32MountStatus : RKADK_MOUNT_STATUS) (s32AutoDel : Int) (bad : CStr) (post : List CStr)
    (hbad : lstat bad = none) (pre : List CStr) :
    ∀ folder : RKADK_STR_FOLDER,
      FileScanThread_readdir lstat mallocOk s32MountStatus s32AutoDel (pre ++ bad :: post)
          folder =
        FileScanThread_readdir lstat mallocOk s32MountStatus s32AutoDel pre folder := by
  induction pre with
  | nil =>
    intro folder
    simp only [List.nil_append, FileScanThread_readdir, hbad]
    split <;> rfl
  | cons d_name pre ih =>
    intro folder
    simp only [List.cons_append, FileScanThread_readdir]
    split
    · cases lstat d_name with
      | none => rfl
      | some statbuf =>
        simp only []
        split
        · exact ih folder
        · split
          · rfl
          · exact ih _
    · rfl

/-- C21 (as amended): in the first pass over a directory (device mounted,
`s32AutoDel` not 0) with the allocations granted, the enumeration ends at the first
entry whose `lstat` fails: the entries after it are not read, and every entry
before it that is not a directory and whose `lstat` succeeds has its record in the
index, with the size, space and time of its stat result (all the entries when no
`lstat` fails). -/
theorem C21_scan_ends_at_failed_stat (lstat : CStr → Option stat) (s32AutoDel : Int)
    (pre : List CStr) (bad : CStr) (post : List CStr) (folder : RKADK_STR_FOLDER)
    (hauto : s32AutoDel ≠ 0)
    (hpre : ∀ name ∈ pre, (lstat name).isSome = true) :
    (lstat bad = none →
      FileScanThread_opendir lstat true .DISK_MOUNTED s32AutoDel (some (pre ++ bad :: post))
          folder =
        FileScanThread_opendir lstat true .DISK_MOUNTED s32AutoDel (some pre) folder) ∧
    (∀ name ∈ pre, ∀ statbuf, lstat name = some statbuf → S_ISDIR statbuf.st_mode = false →
      HoldsRecord (FileScanThread_opendir lstat true .DISK_MOUNTED s32AutoDel (some pre) folder)
        name statbuf) := by
  refine ⟨fun hbad => FileScanThread_readdir_break lstat true .DISK_MOUNTED s32AutoDel bad post
    hbad pre folder, ?_⟩
  unfold FileScanThread_opendir
  simp only []
  induction pre generalizing folder with
  | nil => intro name hmem; cases hmem
  | cons d_name pre ih =>
    intro name hmem statbuf hname hdir
    have hpre1 : ∀ x ∈ pre, (lstat x).isSome = true :=
      fun x hx => hpre x (List.mem_cons_of_mem _ hx)
    have hcond : RKADK_MOUNT_STATUS.DISK_MOUNTED = .DISK_MOUNTED ∧ s32AutoDel ≠ 0 :=
      ⟨rfl, hauto⟩
    unfold FileScanThread_readdir
    rw [if_pos hcond]
    cases hd : lstat d_name with
    | none =>
      have := hpre d_name (List.mem_cons_self _ _)
      rw [hd] at this
      cases this
    | some st =>
      simp only []
      by_cases hst : S_ISDIR st.st_mode = true
      · rw [if_pos hst]
        rcases List.mem_cons.1 hmem with heq | hin
        · rw [heq, hd] at hname
          rw [← Option.some.inj hname, hst] at hdir
          cases hdir
        · exact ih folder hpre1 name hin statbuf hname hdir
      · rw [if_neg hst, if_neg (by simp [FileListAdd_granted])]
        by_cases heq : name = d_name
        · have hsame : st = statbuf := by
            rw [heq, hd] at hname
            exact Option.some.inj hname
          apply FileScanThread_readdir_keeps lstat _ _ name statbuf hname
          rw [heq, ← hsame]
          exact (FileListAdd_holds folder d_name st).2.2
        · rcases List.mem_cons.1 hmem with h1 | hin
          · exact absurd h1 heq
          · exact ih _ hpre1 name hin statbuf hname hdir

theorem C21_scan_witness :
    FileScanThread_opendir sampleLstatFails true .DISK_MOUNTED 1 (some [[98], [97], [99]])
        (emptyIndex [47] .SORT_FILE_NAME 1) =
      FileScanThread_opendir sampleLstatFails true .DISK_MOUNTED 1 (some [[98]])
        (emptyIndex [47] .SORT_FILE_NAME 1) ∧
    HoldsRecord
      (FileScanThread_opendir sampleLstatFails true .DISK_MOUNTED 1 (some [[98]])
        (emptyIndex [47] .SORT_FILE_NAME 1)) [98] (sampleStat 5 1 7) :=
  ⟨(C21_scan_ends_at_failed_stat sampleLstatFails 1 [[98]] [97] [[99]]
      (emptyIndex [47] .SORT_FILE_NAME 1) (by decide) (by decide)).1 (by decide),
   (C21_scan_ends_at_failed_stat sampleLstatFails 1 [[98]] [97] [[99]]
      (emptyIndex [47] .SORT_FILE_NAME 1) (by decide) (by decide)).2 [98] (by decide)
      (sampleStat 5 1 7) (by decide) (by decide)⟩

/-- C21 as stated fails. With the entries `a`, `b` where `lstat` fails for `a` and
succeeds for the regular file `b`, the pass leaves the index empty: `b`, which
comes after the failing entry, is not added. With `lstat` succeeding and the
allocation refused, the regular file `b` is not added either. -/
theorem C21_counterexample :
    (sampleLstatFails [97] = none ∧
      sampleLstatFails [98] = some (sampleStat 5 1 7) ∧
      S_ISDIR (sampleStat 5 1 7).st_mode = false ∧
      FileScanThread_opendir sampleLstatFails true .DISK_MOUNTED 1 (some [[97], [98]])
          (emptyIndex [47] .SORT_FILE_NAME 1) =
        emptyIndex [47] .SORT_FILE_NAME 1) ∧
    FileScanThread_opendir sampleLstat false .DISK_MOUNTED 1 (some [[98]])
        (emptyIndex [47] .SORT_FILE_NAME 1) =
      emptyIndex [47] .SORT_FILE_NAME 1 := by
  decide

end RkadkStorage
